import Mathlib

/-!
# go-mailform: validation, form encoding, error envelope and the two calls

A shallow embedding of the `mailform` package. From `orders.go`: the order
input record, the service-code table, `isServiceSupported`, `Validate`,
`FormData`, the `Order` record, `CreateOrder` and `GetOrder`. From
`mailform.go`: the error envelope `ErrMailform` with its method `Error`,
`checkBodyForErr`, the configuration and `New`.

Go strings are Lean strings, Go `int` is `Int`, a Go `error` that may be nil
is an `Option`, and a Go `map[string]string` is a finite list of entries with
distinct keys. The libraries that the package calls are modelled by what they
do for the caller: `encoding/json` by a reader of JSON texts and a decoder
into the structs of the package, resty by the request that it is handed and by
the targets (`SetResult`, `SetError`) that it fills from the response. What
becomes of a request handed to resty (given up before it is sent, failed, or
answered), the time parser of `time.Time` and the decoder of `encoding/xml`
are parameters.
-/

namespace Mailform

/-! ## Go maps from strings to strings -/

/-- A Go `map[string]string`: its entries, in the order in which the keys were
first stored. -/
structure GoMap where
  entries : List (String × String)
deriving DecidableEq, Repr

namespace GoMap

/-- The map with no entry. -/
def empty : GoMap := ⟨[]⟩

/-- Lookup `v, ok := m[k]` over a list of entries. -/
def getEntries : List (String × String) → String → Option String
  | [], _ => none
  | (k', v) :: rest, k => if k = k' then some v else getEntries rest k

/-- Lookup `v, ok := m[k]`: `none` when the key is absent. -/
def get (m : GoMap) (k : String) : Option String := getEntries m.entries k

/-- Assignment `m[k] = v` over a list of entries: the value of an existing key
is replaced, a new key is added. -/
def setEntries : List (String × String) → String → String → List (String × String)
  | [], k, v => [(k, v)]
  | (k', v') :: rest, k, v =>
    if k' = k then (k, v) :: rest else (k', v') :: setEntries rest k v

/-- Assignment `m[k] = v`. -/
def set (m : GoMap) (k v : String) : GoMap := ⟨setEntries m.entries k v⟩

/-- The keys of the map. -/
def keys (m : GoMap) : List String := m.entries.map Prod.fst

end GoMap

/-! ## Formatting helpers of the Go standard library -/

/-- Go `strconv.FormatBool`. -/
def FormatBool (b : Bool) : String := if b then "true" else "false"

/-- Go `strconv.Itoa`: the decimal string of an integer, with a leading minus
sign for a negative one. -/
def Itoa (i : Int) : String :=
  match i with
  | Int.ofNat n => Nat.repr n
  | Int.negSucc n => "-" ++ Nat.repr (n + 1)

/-- Go `%v` of a `[]string`: the elements separated by blanks, in brackets. -/
def formatStrings (l : List String) : String := "[" ++ " ".intercalate l ++ "]"

/-! ## orders.go -/

/-- The constant `ordersEndpoint`. -/
def ordersEndpoint : String := "/orders"

/-- The supported delivery services, `ServiceCodes`. -/
def ServiceCodes : List String :=
  [ "FEDEX_OVERNIGHT",
    "USPS_PRIORITY_EXPRESS",
    "USPS_PRIORITY",
    "USPS_CERTIFIED_PHYSICAL_RECEIPT",
    "USPS_CERTIFIED_RECEIPT",
    "USPS_CERTIFIED",
    "USPS_FIRST_CLASS",
    "USPS_STANDARD",
    "USPS_POSTCARD" ]

/-- The input used to create an order, `OrderInput`. -/
structure OrderInput where
  FilePath : String := ""
  URL : String := ""
  CustomerReference : String := ""
  Service : String := ""
  Webhook : String := ""
  Company : String := ""
  Simplex : Bool := false
  Color : Bool := false
  Flat : Bool := false
  Stamp : Bool := false
  Message : String := ""
  ToName : String := ""
  ToOrganization : String := ""
  ToAddress1 : String := ""
  ToAddress2 : String := ""
  ToCity : String := ""
  ToState : String := ""
  ToPostcode : String := ""
  ToCountry : String := ""
  FromName : String := ""
  FromOrganization : String := ""
  FromAddress1 : String := ""
  FromAddress2 : String := ""
  FromCity : String := ""
  FromState : String := ""
  FromPostcode : String := ""
  FromCountry : String := ""
  BankAccount : String := ""
  Amount : Int := 0
  CheckName : String := ""
  CheckNumber : Int := 0
  CheckMemo : String := ""
deriving DecidableEq, Repr

/-- The method `FormData`: the 25 entries of the map literal, then the six
conditional assignments. -/
def FormData (o : OrderInput) : GoMap :=
  let formData : GoMap := ⟨[
    ("customer_reference", o.CustomerReference),
    ("service", o.Service),
    ("webhook", o.Webhook),
    ("company", o.Company),
    ("simplex", FormatBool o.Simplex),
    ("color", FormatBool o.Color),
    ("flat", FormatBool o.Flat),
    ("stamp", FormatBool o.Stamp),
    ("message", o.Message),
    ("to.name", o.ToName),
    ("to.organization", o.ToOrganization),
    ("to.address1", o.ToAddress1),
    ("to.address2", o.ToAddress2),
    ("to.city", o.ToCity),
    ("to.state", o.ToState),
    ("to.postcode", o.ToPostcode),
    ("to.country", o.ToCountry),
    ("from.name", o.FromName),
    ("from.organization", o.FromOrganization),
    ("from.address1", o.FromAddress1),
    ("from.address2", o.FromAddress2),
    ("from.city", o.FromCity),
    ("from.state", o.FromState),
    ("from.postcode", o.FromPostcode),
    ("from.country", o.FromCountry)]⟩
  let formData := if o.URL ≠ "" then formData.set "url" o.URL else formData
  let formData := if o.BankAccount ≠ "" then formData.set "bank_account" o.BankAccount else formData
  let formData := if o.Amount ≠ 0 then formData.set "amount" (Itoa o.Amount) else formData
  let formData := if o.CheckName ≠ "" then formData.set "check_name" o.CheckName else formData
  let formData :=
    if o.CheckNumber ≠ 0 then formData.set "check_number" (Itoa o.CheckNumber) else formData
  let formData := if o.CheckMemo ≠ "" then formData.set "check_memo" o.CheckMemo else formData
  formData

/-- The error `ErrOrderInvalid`, returned when order input is invalid. -/
structure ErrOrderInvalid where
  message : String
deriving DecidableEq, Repr

/-- The method `Error` of `ErrOrderInvalid`. -/
def ErrOrderInvalid.Error (e : ErrOrderInvalid) : String := e.message

/-- The loop of `isServiceSupported` over the remaining service codes. -/
def isServiceSupported.loop (service : String) : List String → Bool
  | [] => false
  | v :: rest => if service = v then true else isServiceSupported.loop service rest

/-- The function `isServiceSupported`. -/
def isServiceSupported (service : String) : Bool :=
  isServiceSupported.loop service ServiceCodes

/-- The format `genericRejectionStr` of `Validate`, applied to a field name. -/
def genericRejectionStr (field : String) : String :=
  field ++ " not provided, but is required"

/-- The message of `Validate` for an unsupported service code. -/
def serviceRejectionStr (service : String) : String :=
  "service code: '" ++ service ++ "' not supported. Must be one of "
    ++ formatStrings ServiceCodes

/-- The method `Validate`: `none` is the nil error. -/
def Validate (o : OrderInput) : Option ErrOrderInvalid :=
  if !isServiceSupported o.Service then
    some ⟨serviceRejectionStr o.Service⟩
  else if o.ToName = "" then
    some ⟨genericRejectionStr "ToName"⟩
  else if o.ToAddress1 = "" then
    some ⟨genericRejectionStr "ToAddress1"⟩
  else if o.ToCity = "" then
    some ⟨genericRejectionStr "ToCity"⟩
  else if o.ToState = "" then
    some ⟨genericRejectionStr "ToState"⟩
  else if o.ToPostcode = "" then
    some ⟨genericRejectionStr "ToPostcode"⟩
  else if o.ToCountry = "" then
    some ⟨genericRejectionStr "ToCountry"⟩
  else if o.FromName = "" then
    some ⟨genericRejectionStr "FromName"⟩
  else if o.FromAddress1 = "" then
    some ⟨genericRejectionStr "FromAddress1"⟩
  else if o.FromCity = "" then
    some ⟨genericRejectionStr "FromCity"⟩
  else if o.FromState = "" then
    some ⟨genericRejectionStr "FromState"⟩
  else if o.FromPostcode = "" then
    some ⟨genericRejectionStr "FromPostcode"⟩
  else if o.FromCountry = "" then
    some ⟨genericRejectionStr "FromCountry"⟩
  else
    none

/-! ## The request built by `CreateOrder` -/

/-- What a resty request carries when it is sent: the method and endpoint, the
form fields stored by `SetFormData` and the files stored by `SetFile`, each a
parameter name with the path of the local file to read. -/
structure Request where
  method : String
  endpoint : String
  formData : GoMap
  files : List (String × String)
deriving DecidableEq, Repr

/-- A fresh request of the client, `restClient.R()`. -/
def Request.R : Request := ⟨"", "", GoMap.empty, []⟩

/-- The builder `SetFile(param, filePath)`. -/
def Request.SetFile (r : Request) (param filePath : String) : Request :=
  { r with files := r.files ++ [(param, filePath)] }

/-- The builder `SetFormData(data)`: every entry of `data` is stored in the
form fields of the request. -/
def Request.SetFormData (r : Request) (data : GoMap) : Request :=
  { r with formData := data.entries.foldl (fun acc kv => acc.set kv.1 kv.2) r.formData }

/-- The call `Post(endpoint)`: the request as it is sent. -/
def Request.Post (r : Request) (endpoint : String) : Request :=
  { r with method := "POST", endpoint := endpoint }

/-- The request of `CreateOrder` for an input that passed validation: the form
data, the file when a path is given, and the POST to the orders endpoint. -/
def CreateOrder.request (o : OrderInput) : Request :=
  let formData := FormData o
  let req := Request.R
  let req := if o.FilePath ≠ "" then req.SetFile "file" o.FilePath else req
  (req.SetFormData formData).Post ordersEndpoint

/-- The first part of `CreateOrder`: the validation error when `Validate`
rejects the input, and otherwise the request that is sent. -/
def CreateOrder.prepare (o : OrderInput) : Except ErrOrderInvalid Request :=
  match Validate o with
  | some err => Except.error err
  | none => Except.ok (CreateOrder.request o)

/-! ## The required-field chain of the specification -/

/-- The required fields in the order in which the specification lists them,
each with its accessor. -/
def specRequiredFields : List (String × (OrderInput → String)) :=
  [ ("ToName", OrderInput.ToName),
    ("ToAddress1", OrderInput.ToAddress1),
    ("ToCity", OrderInput.ToCity),
    ("ToState", OrderInput.ToState),
    ("ToPostcode", OrderInput.ToPostcode),
    ("ToCountry", OrderInput.ToCountry),
    ("FromName", OrderInput.FromName),
    ("FromAddress1", OrderInput.FromAddress1),
    ("FromCity", OrderInput.FromCity),
    ("FromState", OrderInput.FromState),
    ("FromPostcode", OrderInput.FromPostcode),
    ("FromCountry", OrderInput.FromCountry) ]

/-- The name of the first required field of the chain that is empty. -/
def specFirstEmptyField (o : OrderInput) : Option String :=
  (specRequiredFields.find? (fun p => decide (p.2 o = ""))).map Prod.fst

/-- The 25 keys that the specification lists as always included. -/
def specAlwaysKeys : List String :=
  [ "customer_reference", "service", "webhook", "company", "simplex", "color", "flat",
    "stamp", "message", "to.name", "to.organization", "to.address1", "to.address2",
    "to.city", "to.state", "to.postcode", "to.country", "from.name", "from.organization",
    "from.address1", "from.address2", "from.city", "from.state", "from.postcode",
    "from.country" ]

/-- The 6 keys that the specification lists as conditionally included. -/
def specConditionalKeys : List String :=
  [ "url", "bank_account", "amount", "check_name", "check_number", "check_memo" ]

/-! ## Sample inputs -/

/-- The fully populated input of `TestFormData`, with a supported service. -/
def sampleOrder : OrderInput :=
  { CustomerReference := "some_customer_reference"
    Service := "USPS_STANDARD"
    Webhook := "some_webhook"
    Company := "some_company"
    Simplex := true
    Color := true
    Flat := true
    Stamp := true
    Message := "some_message"
    ToName := "some_to.name"
    ToOrganization := "some_to.organization"
    ToAddress1 := "some_address1"
    ToAddress2 := "some_address2"
    ToCity := "some_to.city"
    ToState := "some_to.state"
    ToPostcode := "some_to.postcode"
    ToCountry := "some_to.country"
    FromName := "some_from.name"
    FromOrganization := "some_from.organization"
    FromAddress1 := "some_from.address1"
    FromAddress2 := "some_from.address2"
    FromCity := "some_from.city"
    FromState := "some_from.state"
    FromPostcode := "some_from.postcode"
    FromCountry := "some_from.country"
    URL := "some_url"
    BankAccount := "123456"
    Amount := 1
    CheckName := "some_checkname"
    CheckNumber := 123456
    CheckMemo := "some_memo" }

/-- The sample input with a file path next to its URL. -/
def bothSourcesOrder : OrderInput := { sampleOrder with FilePath := "document.pdf" }

/-! ## JSON texts, as `encoding/json` reads them

The decoder of the Go standard library first checks that the whole text is
valid JSON and then walks its values. A JSON string is kept as its raw text
(the characters between the quotes) and unquoted when it is stored. -/

/-- A JSON value. -/
inductive JSON where
  | null
  | bool (b : Bool)
  | number (text : String)
  | string (raw : String)
  | array (items : List JSON)
  | object (members : List (String × JSON))

namespace JSON

/-- The white space of JSON. -/
def isSpace (c : Char) : Bool := c = ' ' || c = '\t' || c = '\r' || c = '\n'

/-- Drop leading white space. -/
def skipSpace : List Char → List Char
  | [] => []
  | c :: rest => if isSpace c then skipSpace rest else c :: rest

/-- A hexadecimal digit. -/
def isHex (c : Char) : Bool :=
  ('0' ≤ c && c ≤ '9') || ('a' ≤ c && c ≤ 'f') || ('A' ≤ c && c ≤ 'F')

/-- The characters that may follow a backslash, `u` apart. -/
def isEscape (c : Char) : Bool :=
  c = '"' || c = '\\' || c = '/' || c = 'b' || c = 'f' || c = 'n' || c = 'r' || c = 't'

/-- Scan a string after its opening quote: the raw text up to the closing
quote and the rest of the input. Control characters and unknown escapes are
refused. -/
def scanString : List Char → List Char → Option (String × List Char)
  | [], _ => none
  | '"' :: rest, acc => some (String.mk acc.reverse, rest)
  | '\\' :: 'u' :: a :: b :: c :: d :: rest, acc =>
    if isHex a && isHex b && isHex c && isHex d then
      scanString rest (d :: c :: b :: a :: 'u' :: '\\' :: acc)
    else none
  | '\\' :: e :: rest, acc =>
    if isEscape e then scanString rest (e :: '\\' :: acc) else none
  | c :: rest, acc =>
    if c.toNat < 32 || c = '\\' then none else scanString rest (c :: acc)

/-- Scan a run of decimal digits. -/
def scanDigits : List Char → List Char → List Char × List Char
  | [], acc => (acc, [])
  | c :: rest, acc => if c.isDigit then scanDigits rest (c :: acc) else (acc, c :: rest)

/-- The integer part of a number: `0`, or a non-zero digit and more digits. -/
def scanInt (acc : List Char) : List Char → Option (List Char × List Char)
  | [] => none
  | c :: rest =>
    if c = '0' then some (c :: acc, rest)
    else if c.isDigit then some (scanDigits rest (c :: acc))
    else none

/-- The optional fraction of a number: a point and at least one digit. -/
def scanFrac (acc : List Char) : List Char → Option (List Char × List Char)
  | '.' :: d :: rest => if d.isDigit then some (scanDigits rest (d :: '.' :: acc)) else none
  | '.' :: [] => none
  | cs => some (acc, cs)

/-- The digits of an exponent, after its optional sign. -/
def scanExpDigits (acc : List Char) : List Char → Option (List Char × List Char)
  | [] => none
  | d :: rest => if d.isDigit then some (scanDigits rest (d :: acc)) else none

/-- The optional exponent of a number. -/
def scanExp (acc : List Char) : List Char → Option (List Char × List Char)
  | [] => some (acc, [])
  | e :: rest =>
    if e = 'e' || e = 'E' then
      match rest with
      | [] => none
      | s :: rest2 =>
        if s = '+' || s = '-' then scanExpDigits (s :: e :: acc) rest2
        else scanExpDigits (e :: acc) (s :: rest2)
    else some (acc, e :: rest)

/-- Scan a number: its text and the rest of the input. -/
def scanNumber (cs : List Char) : Option (String × List Char) :=
  let signed : List Char × List Char :=
    match cs with
    | '-' :: rest => (['-'], rest)
    | _ => ([], cs)
  match scanInt signed.1 signed.2 with
  | none => none
  | some (acc, cs) =>
    match scanFrac acc cs with
    | none => none
    | some (acc, cs) =>
      match scanExp acc cs with
      | none => none
      | some (acc, cs) => some (String.mk acc.reverse, cs)

/-- The nesting depth beyond which the Go scanner refuses a text. -/
def maxNestingDepth : Nat := 10000

mutual

/-- Read one value. The first argument bounds the number of steps, the second
is the current nesting depth. -/
def parseValue : Nat → Nat → List Char → Option (JSON × List Char)
  | 0, _, _ => none
  | fuel + 1, depth, cs =>
    match skipSpace cs with
    | 'n' :: 'u' :: 'l' :: 'l' :: rest => some (JSON.null, rest)
    | 't' :: 'r' :: 'u' :: 'e' :: rest => some (JSON.bool true, rest)
    | 'f' :: 'a' :: 'l' :: 's' :: 'e' :: rest => some (JSON.bool false, rest)
    | '"' :: rest =>
      match scanString rest [] with
      | some (raw, rest) => some (JSON.string raw, rest)
      | none => none
    | '[' :: rest =>
      if depth + 1 > maxNestingDepth then none
      else
        match skipSpace rest with
        | ']' :: rest => some (JSON.array [], rest)
        | _ =>
          match parseElements fuel (depth + 1) rest [] with
          | some (items, rest) => some (JSON.array items, rest)
          | none => none
    | '{' :: rest =>
      if depth + 1 > maxNestingDepth then none
      else
        match skipSpace rest with
        | '}' :: rest => some (JSON.object [], rest)
        | _ =>
          match parseMembers fuel (depth + 1) rest [] with
          | some (members, rest) => some (JSON.object members, rest)
          | none => none
    | c :: rest =>
      if c = '-' || c.isDigit then
        match scanNumber (c :: rest) with
        | some (text, rest) => some (JSON.number text, rest)
        | none => none
      else none
    | [] => none

/-- Read the elements of an array up to its closing bracket. -/
def parseElements : Nat → Nat → List Char → List JSON → Option (List JSON × List Char)
  | 0, _, _, _ => none
  | fuel + 1, depth, cs, acc =>
    match parseValue fuel depth cs with
    | none => none
    | some (v, rest) =>
      match skipSpace rest with
      | ',' :: rest => parseElements fuel depth rest (v :: acc)
      | ']' :: rest => some ((v :: acc).reverse, rest)
      | _ => none

/-- Read the members of an object up to its closing brace. -/
def parseMembers :
    Nat → Nat → List Char → List (String × JSON) → Option (List (String × JSON) × List Char)
  | 0, _, _, _ => none
  | fuel + 1, depth, cs, acc =>
    match skipSpace cs with
    | '"' :: rest =>
      match scanString rest [] with
      | none => none
      | some (key, rest) =>
        match skipSpace rest with
        | ':' :: rest =>
          match parseValue fuel depth rest with
          | none => none
          | some (v, rest) =>
            match skipSpace rest with
            | ',' :: rest => parseMembers fuel depth rest ((key, v) :: acc)
            | '}' :: rest => some (((key, v) :: acc).reverse, rest)
            | _ => none
        | _ => none
    | _ => none

end

/-- Read a whole text: one value with nothing but white space around it.
`none` when the text is not valid JSON. Every step uses at least one
character or closes a value, so twice the length bounds the steps. -/
def parse (b : String) : Option JSON :=
  match parseValue (2 * b.length + 2) 0 b.data with
  | some (v, rest) => if skipSpace rest = [] then some v else none
  | none => none

/-- The value of a hexadecimal digit. -/
def hexValue (c : Char) : Nat :=
  if '0' ≤ c ∧ c ≤ '9' then c.toNat - 48
  else if 'a' ≤ c ∧ c ≤ 'f' then c.toNat - 87
  else c.toNat - 55

/-- The code unit written by four hexadecimal digits. -/
def hex4 (a b c d : Char) : Nat :=
  ((hexValue a * 16 + hexValue b) * 16 + hexValue c) * 16 + hexValue d

/-- The character that a one-letter escape stands for. -/
def escapeChar (e : Char) : Char :=
  if e = 'b' then Char.ofNat 8
  else if e = 'f' then Char.ofNat 12
  else if e = 'n' then '\n'
  else if e = 'r' then '\r'
  else if e = 't' then '\t'
  else e

/-- The replacement character written for an unpaired surrogate. -/
def replacementChar : Char := Char.ofNat 0xFFFD

/-- Unquote the raw text of a string: escapes are replaced by the characters
they stand for, a surrogate pair by its character, an unpaired surrogate by
the replacement character. -/
def unquoteChars : Nat → List Char → List Char
  | 0, _ => []
  | _, [] => []
  | fuel + 1, '\\' :: 'u' :: a :: b :: c :: d :: rest =>
    let u := hex4 a b c d
    if 0xD800 ≤ u ∧ u < 0xDC00 then
      match rest with
      | '\\' :: 'u' :: a2 :: b2 :: c2 :: d2 :: rest2 =>
        let u2 := hex4 a2 b2 c2 d2
        if 0xDC00 ≤ u2 ∧ u2 < 0xE000 then
          Char.ofNat (0x10000 + (u - 0xD800) * 0x400 + (u2 - 0xDC00)) :: unquoteChars fuel rest2
        else replacementChar :: unquoteChars fuel rest
      | _ => replacementChar :: unquoteChars fuel rest
    else if 0xDC00 ≤ u ∧ u < 0xE000 then replacementChar :: unquoteChars fuel rest
    else Char.ofNat u :: unquoteChars fuel rest
  | fuel + 1, '\\' :: e :: rest => escapeChar e :: unquoteChars fuel rest
  | fuel + 1, c :: rest => c :: unquoteChars fuel rest

/-- The string that a raw text stands for. -/
def unquote (raw : String) : String := String.mk (unquoteChars raw.length raw.data)

/-- The name of the kind of a value in a decoding error. -/
def kind : JSON → String
  | JSON.null => "null"
  | JSON.bool _ => "bool"
  | JSON.number _ => "number"
  | JSON.string _ => "string"
  | JSON.array _ => "array"
  | JSON.object _ => "object"

end JSON

/-! ## Decoding JSON into Go structs -/

/-- An error of `json.Unmarshal`: a `*json.SyntaxError` for a text that is
not valid JSON, a `*json.UnmarshalTypeError` naming the JSON value that does
not fit the Go type, or the error of an `UnmarshalJSON` method. -/
inductive JsonError where
  | syntaxError
  | unmarshalTypeError (value : String)
  | unmarshalerError
deriving DecidableEq, Repr

/-- Case folding of a character of a key, as far as it matters for field names
written in ASCII: a lower-case letter folds to its capital, and so do the two
characters outside ASCII whose simple fold is an ASCII letter. -/
def foldRune (c : Char) : Char :=
  if 'a' ≤ c ∧ c ≤ 'z' then Char.ofNat (c.toNat - 32)
  else if c = Char.ofNat 0x17F then 'S'
  else if c = Char.ofNat 0x212A then 'K'
  else c

/-- Case folding of a key. -/
def foldName (s : String) : String := String.mk (s.data.map foldRune)

/-- The field that a key of a JSON object is stored in: the field of that
name, or else the first field whose name equals the key up to case. -/
def matchField (names : List String) (key : String) : Option String :=
  if key ∈ names then some key
  else names.find? (fun n => decide (foldName n = foldName key))

/-- The state of a decoding into a value of type `σ`: the value so far, the
first type mismatch met (decoding goes on after it) and the error that stopped
the decoding, if any. -/
structure Decoding (σ : Type) where
  value : σ
  saved : Option JsonError
  failed : Option JsonError

namespace Decoding

/-- Record a type mismatch, unless one is recorded already. -/
def saveError {σ : Type} (d : Decoding σ) (e : JsonError) : Decoding σ :=
  match d.saved with
  | none => { d with saved := some e }
  | some _ => d

/-- The error that `json.Unmarshal` returns at the end. -/
def error {σ : Type} (d : Decoding σ) : Option JsonError :=
  match d.failed with
  | some e => some e
  | none => d.saved

/-- Store a JSON value in a field of type `string`. -/
def storeString {σ : Type} (d : Decoding σ) (v : JSON) (set : σ → String → σ) : Decoding σ :=
  match v with
  | JSON.string raw => { d with value := set d.value (JSON.unquote raw) }
  | JSON.null => d
  | other => d.saveError (JsonError.unmarshalTypeError other.kind)

/-- Store a JSON value in a field of type `bool`. -/
def storeBool {σ : Type} (d : Decoding σ) (v : JSON) (set : σ → Bool → σ) : Decoding σ :=
  match v with
  | JSON.bool b => { d with value := set d.value b }
  | JSON.null => d
  | other => d.saveError (JsonError.unmarshalTypeError other.kind)

end Decoding

/-- Decode a JSON value into a struct with the given field names: the members
of an object are stored one after the other, in the order of the text, each in
the field that its key matches; `null` changes nothing; any other value is a
type mismatch. -/
def decodeObject {σ : Type} (names : List String)
    (store : String → JSON → Decoding σ → Decoding σ) (v : JSON) (d : Decoding σ) :
    Decoding σ :=
  match v with
  | JSON.object members =>
    members.foldl (fun d m =>
      if d.failed.isSome then d
      else
        match matchField names (JSON.unquote m.1) with
        | some f => store f m.2 d
        | none => d) d
  | JSON.null => d
  | other => d.saveError (JsonError.unmarshalTypeError other.kind)

/-- Store a JSON value in a field that is itself a struct. -/
def Decoding.storeStruct {σ τ : Type} (d : Decoding σ) (v : JSON) (get : σ → τ)
    (set : σ → τ → σ) (names : List String)
    (store : String → JSON → Decoding τ → Decoding τ) : Decoding σ :=
  let sub := decodeObject names store v ⟨get d.value, d.saved, d.failed⟩
  ⟨set d.value sub.value, sub.saved, sub.failed⟩

/-! ## mailform.go: the error envelope -/

/-- The field `Err` of `ErrMailform`. -/
structure ErrMailformErr where
  Code : String := ""
  Message : String := ""
deriving DecidableEq, Repr

/-- The error `ErrMailform`, returned when mailform responds with an error. -/
structure ErrMailform where
  Err : ErrMailformErr := {}
  Detail : String := ""
deriving DecidableEq, Repr

/-- The method `Error` of `ErrMailform`. -/
def ErrMailform.Error (e : ErrMailform) : String :=
  if e.Detail ≠ "" then e.Detail else e.Err.Message

/-- The JSON names of the fields of `Err`. -/
def ErrMailformErr.fieldNames : List String := ["code", "message"]

/-- Store a member in the field of `Err` that it matches. -/
def ErrMailformErr.store (f : String) (v : JSON) (d : Decoding ErrMailformErr) :
    Decoding ErrMailformErr :=
  if f = "code" then d.storeString v (fun s x => { s with Code := x })
  else if f = "message" then d.storeString v (fun s x => { s with Message := x })
  else d

/-- The JSON names of the fields of `ErrMailform`. -/
def ErrMailform.fieldNames : List String := ["error", "detail"]

/-- Store a member in the field of `ErrMailform` that it matches. -/
def ErrMailform.store (f : String) (v : JSON) (d : Decoding ErrMailform) :
    Decoding ErrMailform :=
  if f = "error" then
    d.storeStruct v (fun s => s.Err) (fun s x => { s with Err := x })
      ErrMailformErr.fieldNames ErrMailformErr.store
  else if f = "detail" then d.storeString v (fun s x => { s with Detail := x })
  else d

/-- The call `json.Unmarshal(b, mailformErr)`: the envelope after the call and
the error returned. A text that is not valid JSON leaves the envelope as it
was. -/
def ErrMailform.Unmarshal (b : String) (target : ErrMailform) :
    ErrMailform × Option JsonError :=
  match JSON.parse b with
  | none => (target, some JsonError.syntaxError)
  | some v =>
    let d := decodeObject ErrMailform.fieldNames ErrMailform.store v ⟨target, none, none⟩
    (d.value, d.error)

/-- The errors that the package returns: an `*ErrOrderInvalid`, an
`*ErrMailform`, an error of the JSON decoder, an error of the XML decoder, an
error of the HTTP transport, or the error with which resty gives a request up
before sending it. -/
inductive GoError where
  | orderInvalid (e : ErrOrderInvalid)
  | mailform (e : ErrMailform)
  | json (e : JsonError)
  | xml (message : String)
  | transport (message : String)
  | request (message : String)
deriving DecidableEq, Repr

/-- The function `checkBodyForErr`: `none` is the nil error. -/
def checkBodyForErr (b : String) : Option GoError :=
  let mailformErr : ErrMailform := {}
  match ErrMailform.Unmarshal b mailformErr with
  | (_, some err) => some (GoError.json err)
  | (mailformErr, none) =>
    if mailformErr.Err.Message ≠ "" then some (GoError.mailform mailformErr) else none

/-! ## orders.go: the order of a response -/

/-- A `time.Time`, named by the text it was read from; the zero time has the
empty text. Reading a time is left to the parameter `parseTime` of the
decoder, which stands for the RFC 3339 parser of `time.Time.UnmarshalJSON`. -/
structure Time where
  text : String := ""
deriving DecidableEq, Repr

/-- The address structs `To` and `From` of a line item. -/
structure Address where
  Name : String := ""
  Address1 : String := ""
  Address2 : String := ""
  City : String := ""
  State : String := ""
  Postcode : String := ""
  Country : String := ""
  Formatted : String := ""
  Organization : String := ""
deriving DecidableEq, Repr

/-- An element of `Pricing`. -/
structure Pricing where
  Type' : String := ""
  Value : Int := 0
deriving DecidableEq, Repr

/-- An element of `Lineitems`. -/
structure Lineitem where
  ID : String := ""
  Pagecount : Int := 0
  To : Address := {}
  From : Address := {}
  Simplex : Bool := false
  Color : Bool := false
  Service : String := ""
  Pricing : List Pricing := []
deriving DecidableEq, Repr

/-- The field `Data` of `Order`. -/
structure OrderData where
  Object : String := ""
  ID : String := ""
  Created : Time := {}
  Total : Int := 0
  Modified : Time := {}
  Webhook : String := ""
  Lineitems : List Lineitem := []
  Account : String := ""
  CustomerReference : String := ""
  Channel : String := ""
  TestMode : Bool := false
  State : String := ""
  Cancelled : Time := {}
  CancellationReason : String := ""
deriving DecidableEq, Repr

/-- The details of an order from mailform, `Order`. The default value of each
field is its Go zero value, so `{}` is `Order{}`. -/
structure Order where
  Success : Bool := false
  Data : OrderData := {}
deriving DecidableEq, Repr

/-- Go `strconv.ParseInt(text, 10, 64)` on the text of a JSON number: the
integer, when the text is an optional minus sign and digits and the value fits
64 bits. -/
def parseInt64 (text : String) : Option Int :=
  let signed : Bool × List Char :=
    match text.data with
    | '-' :: rest => (true, rest)
    | cs => (false, cs)
  if signed.2 ≠ [] ∧ signed.2.all Char.isDigit = true then
    let n : Nat := signed.2.foldl (fun a c => 10 * a + (c.toNat - 48)) 0
    if signed.1 then (if n ≤ 2 ^ 63 then some (-(n : Int)) else none)
    else (if n < 2 ^ 63 then some (n : Int) else none)
  else none

/-- Store a JSON value in a field of type `int`. -/
def Decoding.storeInt {σ : Type} (d : Decoding σ) (v : JSON) (set : σ → Int → σ) :
    Decoding σ :=
  match v with
  | JSON.number text =>
    match parseInt64 text with
    | some i => { d with value := set d.value i }
    | none => d.saveError (JsonError.unmarshalTypeError ("number " ++ text))
  | JSON.null => d
  | other => d.saveError (JsonError.unmarshalTypeError other.kind)

/-- Store a JSON value in a field of type `time.Time`, through its method
`UnmarshalJSON`: `null` changes nothing, a string is parsed, and an error of
the method stops the decoding. -/
def Decoding.storeTime {σ : Type} (parseTime : String → Option Time) (d : Decoding σ)
    (v : JSON) (set : σ → Time → σ) : Decoding σ :=
  match v with
  | JSON.null => d
  | JSON.string raw =>
    match parseTime raw with
    | some t => { d with value := set d.value t }
    | none => { d with failed := some JsonError.unmarshalerError }
  | _ => { d with failed := some JsonError.unmarshalerError }

/-- Decode the elements of a JSON array one after the other into the elements
of a slice: element `i` is decoded into the element `i` that the slice has
already, or into a zero element. -/
def decodeElements {τ : Type} (zero : τ) (decode : JSON → Decoding τ → Decoding τ) :
    List JSON → List τ → Decoding (List τ) → Decoding (List τ)
  | [], _, acc => acc
  | item :: items, cur, acc =>
    if acc.failed.isSome then acc
    else
      let sub := decode item ⟨cur.head?.getD zero, acc.saved, acc.failed⟩
      decodeElements zero decode items cur.tail ⟨acc.value ++ [sub.value], sub.saved, sub.failed⟩

/-- Store a JSON value in a field that is a slice of structs: an array is
decoded element by element, `null` empties the slice, any other value is a
type mismatch. -/
def Decoding.storeSlice {σ τ : Type} (d : Decoding σ) (v : JSON) (get : σ → List τ)
    (set : σ → List τ → σ) (zero : τ) (decode : JSON → Decoding τ → Decoding τ) :
    Decoding σ :=
  match v with
  | JSON.array items =>
    let sub := decodeElements zero decode items (get d.value) ⟨[], d.saved, d.failed⟩
    ⟨set d.value sub.value, sub.saved, sub.failed⟩
  | JSON.null => { d with value := set d.value [] }
  | other => d.saveError (JsonError.unmarshalTypeError other.kind)

/-- The JSON names of the fields of an address. -/
def Address.fieldNames : List String :=
  ["name", "address1", "address2", "city", "state", "postcode", "country", "formatted",
    "organization"]

/-- Store a member in the field of an address that it matches. -/
def Address.store (f : String) (v : JSON) (d : Decoding Address) : Decoding Address :=
  if f = "name" then d.storeString v (fun s x => { s with Name := x })
  else if f = "address1" then d.storeString v (fun s x => { s with Address1 := x })
  else if f = "address2" then d.storeString v (fun s x => { s with Address2 := x })
  else if f = "city" then d.storeString v (fun s x => { s with City := x })
  else if f = "state" then d.storeString v (fun s x => { s with State := x })
  else if f = "postcode" then d.storeString v (fun s x => { s with Postcode := x })
  else if f = "country" then d.storeString v (fun s x => { s with Country := x })
  else if f = "formatted" then d.storeString v (fun s x => { s with Formatted := x })
  else if f = "organization" then d.storeString v (fun s x => { s with Organization := x })
  else d

/-- The JSON names of the fields of a pricing entry. -/
def Pricing.fieldNames : List String := ["type", "value"]

/-- Store a member in the field of a pricing entry that it matches. -/
def Pricing.store (f : String) (v : JSON) (d : Decoding Pricing) : Decoding Pricing :=
  if f = "type" then d.storeString v (fun s x => { s with Type' := x })
  else if f = "value" then d.storeInt v (fun s x => { s with Value := x })
  else d

/-- The JSON names of the fields of a line item. -/
def Lineitem.fieldNames : List String :=
  ["id", "pagecount", "to", "from", "simplex", "color", "service", "pricing"]

/-- Store a member in the field of a line item that it matches. -/
def Lineitem.store (f : String) (v : JSON) (d : Decoding Lineitem) : Decoding Lineitem :=
  if f = "id" then d.storeString v (fun s x => { s with ID := x })
  else if f = "pagecount" then d.storeInt v (fun s x => { s with Pagecount := x })
  else if f = "to" then
    d.storeStruct v (fun s => s.To) (fun s x => { s with To := x }) Address.fieldNames
      Address.store
  else if f = "from" then
    d.storeStruct v (fun s => s.From) (fun s x => { s with From := x }) Address.fieldNames
      Address.store
  else if f = "simplex" then d.storeBool v (fun s x => { s with Simplex := x })
  else if f = "color" then d.storeBool v (fun s x => { s with Color := x })
  else if f = "service" then d.storeString v (fun s x => { s with Service := x })
  else if f = "pricing" then
    d.storeSlice v (fun s => s.Pricing) (fun s x => { s with Pricing := x }) {}
      (decodeObject Pricing.fieldNames Pricing.store)
  else d

/-- The JSON names of the fields of `Data`. -/
def OrderData.fieldNames : List String :=
  ["object", "id", "created", "total", "modified", "webhook", "lineitems", "account",
    "customer_reference", "channel", "test_mode", "state", "cancelled",
    "cancellation_reason"]

/-- Store a member in the field of `Data` that it matches. -/
def OrderData.store (parseTime : String → Option Time) (f : String) (v : JSON)
    (d : Decoding OrderData) : Decoding OrderData :=
  if f = "object" then d.storeString v (fun s x => { s with Object := x })
  else if f = "id" then d.storeString v (fun s x => { s with ID := x })
  else if f = "created" then d.storeTime parseTime v (fun s x => { s with Created := x })
  else if f = "total" then d.storeInt v (fun s x => { s with Total := x })
  else if f = "modified" then d.storeTime parseTime v (fun s x => { s with Modified := x })
  else if f = "webhook" then d.storeString v (fun s x => { s with Webhook := x })
  else if f = "lineitems" then
    d.storeSlice v (fun s => s.Lineitems) (fun s x => { s with Lineitems := x }) {}
      (decodeObject Lineitem.fieldNames Lineitem.store)
  else if f = "account" then d.storeString v (fun s x => { s with Account := x })
  else if f = "customer_reference" then
    d.storeString v (fun s x => { s with CustomerReference := x })
  else if f = "channel" then d.storeString v (fun s x => { s with Channel := x })
  else if f = "test_mode" then d.storeBool v (fun s x => { s with TestMode := x })
  else if f = "state" then d.storeString v (fun s x => { s with State := x })
  else if f = "cancelled" then d.storeTime parseTime v (fun s x => { s with Cancelled := x })
  else if f = "cancellation_reason" then
    d.storeString v (fun s x => { s with CancellationReason := x })
  else d

/-- The JSON names of the fields of `Order`. -/
def Order.fieldNames : List String := ["success", "data"]

/-- Store a member in the field of `Order` that it matches. -/
def Order.store (parseTime : String → Option Time) (f : String) (v : JSON)
    (d : Decoding Order) : Decoding Order :=
  if f = "success" then d.storeBool v (fun s x => { s with Success := x })
  else if f = "data" then
    d.storeStruct v (fun s => s.Data) (fun s x => { s with Data := x }) OrderData.fieldNames
      (OrderData.store parseTime)
  else d

/-- The call `json.Unmarshal(b, order)`: the order after the call and the
error returned. -/
def Order.Unmarshal (parseTime : String → Option Time) (b : String) (target : Order) :
    Order × Option JsonError :=
  match JSON.parse b with
  | none => (target, some JsonError.syntaxError)
  | some v =>
    let d := decodeObject Order.fieldNames (Order.store parseTime) v ⟨target, none, none⟩
    (d.value, d.error)

/-! ## The HTTP exchange, as resty hands it to the caller -/

/-- A response as the package reads it: the status code, whether the
`Content-Type` header names a JSON type, whether it names an XML type, and the
body. -/
structure Response where
  statusCode : Nat
  jsonContent : Bool
  xmlContent : Bool
  body : String
deriving DecidableEq, Repr

/-- The method `IsSuccess` of a resty response. -/
def Response.IsSuccess (r : Response) : Bool := 199 < r.statusCode && r.statusCode < 300

/-- The method `IsError` of a resty response. -/
def Response.IsError (r : Response) : Bool := 399 < r.statusCode

/-- What becomes of a request that resty is asked to execute: resty gives it up
before sending it (a file of `SetFile` cannot be read, the URL cannot be
parsed), so that no HTTP request is issued; or the HTTP exchange fails (no
response); or a response arrives. -/
inductive Outcome where
  | notSent (message : String)
  | failure (message : String)
  | response (resp : Response)
deriving DecidableEq, Repr

/-- The settings of the resty client that the package sets: the base URL, the
bearer token and the timeout in nanoseconds. -/
structure RestyClient where
  BaseURL : String
  Token : String
  Timeout : Int
deriving DecidableEq, Repr

/-- The mailform REST API client, `Client`. -/
structure Client where
  restClient : RestyClient
deriving DecidableEq, Repr

/-- The call `Get(endpoint)`: the request as it is sent. -/
def Request.Get (r : Request) (endpoint : String) : Request :=
  { r with method := "GET", endpoint := endpoint }

/-- The decoder `xml.Unmarshal` of `encoding/xml`, which resty uses for a
response with an XML content type. The library is not part of the package:
what it makes of a body that holds an element, for a target `*Order` and for a
target `*ErrMailform` (the value of the target after the call and the message
of the error returned, if any), and the message of the error it returns for a
body without an element, are parameters. -/
structure XMLDecoder where
  order : String → Order → Order × Option String
  envelope : String → ErrMailform → ErrMailform × Option String
  text : String → String

/-- The call `xml.Unmarshal(b, order)`. The decoder first looks for the start
of an element; a body without `<` has none, and the decoder returns an error
(`io.EOF`, or a syntax error of the text) without touching the target. -/
def XMLDecoder.UnmarshalOrder (x : XMLDecoder) (b : String) (target : Order) :
    Order × Option GoError :=
  if '<' ∈ b.data then
    match x.order b target with
    | (order, some message) => (order, some (GoError.xml message))
    | (order, none) => (order, none)
  else (target, some (GoError.xml (x.text b)))

/-- The call `xml.Unmarshal(b, mailformErr)`; see `XMLDecoder.UnmarshalOrder`. -/
def XMLDecoder.UnmarshalEnvelope (x : XMLDecoder) (b : String) (target : ErrMailform) :
    ErrMailform × Option GoError :=
  if '<' ∈ b.data then
    match x.envelope b target with
    | (envelope, some message) => (envelope, some (GoError.xml message))
    | (envelope, none) => (envelope, none)
  else (target, some (GoError.xml (x.text b)))

/-- What the caller holds after `Post` or `Get` returns: the response or the
error returned, the values of the targets registered with `SetResult` and
`SetError`, and the HTTP requests that were issued, each with the settings of
the client that sent it. -/
structure Exchange where
  outcome : Except GoError Response
  order : Order
  mailformErr : ErrMailform
  requests : List (RestyClient × Request)

/-- Executing a request with the targets `result` (of `SetResult`) and `error`
(of `SetError`). The parameter `send` tells what becomes of the request. When
resty gives the request up before sending it, its error is returned and no
HTTP request is issued. A response without content (204) or with a content
type that is neither JSON nor XML is not decoded. A response with a status
from 200 to 299 is decoded into `result`, by the JSON decoder when the content
type is JSON and else by the XML decoder, and a decoding error is returned as
the error of the call. A response with a status above 399 is decoded into
`error` in the same way, and a decoding error is only logged (so in the resty
releases that log it; older releases returned it). -/
def Request.Execute (parseTime : String → Option Time) (xml : XMLDecoder)
    (send : RestyClient → Request → Outcome) (c : RestyClient) (r : Request)
    (result : Order) (error : ErrMailform) : Exchange :=
  match send c r with
  | Outcome.notSent message => ⟨Except.error (GoError.request message), result, error, []⟩
  | Outcome.failure message =>
    ⟨Except.error (GoError.transport message), result, error, [(c, r)]⟩
  | Outcome.response resp =>
    if resp.statusCode = 204 then ⟨Except.ok resp, result, error, [(c, r)]⟩
    else if resp.jsonContent then
      if resp.IsSuccess then
        match Order.Unmarshal parseTime resp.body result with
        | (order, some err) => ⟨Except.error (GoError.json err), order, error, [(c, r)]⟩
        | (order, none) => ⟨Except.ok resp, order, error, [(c, r)]⟩
      else if resp.IsError then
        ⟨Except.ok resp, result, (ErrMailform.Unmarshal resp.body error).1, [(c, r)]⟩
      else ⟨Except.ok resp, result, error, [(c, r)]⟩
    else if resp.xmlContent then
      if resp.IsSuccess then
        match xml.UnmarshalOrder resp.body result with
        | (order, some err) => ⟨Except.error err, order, error, [(c, r)]⟩
        | (order, none) => ⟨Except.ok resp, order, error, [(c, r)]⟩
      else if resp.IsError then
        ⟨Except.ok resp, result, (xml.UnmarshalEnvelope resp.body error).1, [(c, r)]⟩
      else ⟨Except.ok resp, result, error, [(c, r)]⟩
    else ⟨Except.ok resp, result, error, [(c, r)]⟩

/-- The envelope that resty holds in the `SetError` target after a response
with a status above 399: decoded from the body by the JSON decoder when the
content type is JSON, else by the XML decoder when it is XML, and else left as
it was. -/
def errorTarget (xml : XMLDecoder) (resp : Response) (error : ErrMailform) : ErrMailform :=
  if resp.jsonContent = true then (ErrMailform.Unmarshal resp.body error).1
  else if resp.xmlContent = true then (xml.UnmarshalEnvelope resp.body error).1
  else error

/-! ## orders.go: `CreateOrder` and `GetOrder` -/

/-- The constant `http.StatusUnauthorized`. -/
def StatusUnauthorized : Nat := 401

/-- What a call of `CreateOrder` or `GetOrder` gives: the order returned (the
pointer is never nil), the error returned (`none` is nil) and the HTTP
requests issued, each with the settings of the client that sent it. -/
structure CallResult where
  order : Order
  err : Option GoError
  requests : List (RestyClient × Request)
deriving DecidableEq, Repr

/-- The method `CreateOrder`. The parameter `send` tells what becomes of the
request handed to resty, `parseTime` is the time parser of the JSON decoder
and `xml` the XML decoder. -/
def CreateOrder (parseTime : String → Option Time) (xml : XMLDecoder)
    (send : RestyClient → Request → Outcome) (c : Client) (o : OrderInput) : CallResult :=
  let order : Order := {}
  let mailformErr : ErrMailform := {}
  match CreateOrder.prepare o with
  | Except.error err => ⟨order, some (GoError.orderInvalid err), []⟩
  | Except.ok req =>
    let ex := req.Execute parseTime xml send c.restClient order mailformErr
    match ex.outcome with
    | Except.error err => ⟨ex.order, some err, ex.requests⟩
    | Except.ok resp =>
      if resp.statusCode = StatusUnauthorized then
        ⟨ex.order, some (GoError.mailform ⟨⟨Itoa StatusUnauthorized, "unauthorized"⟩, ""⟩),
          ex.requests⟩
      else if resp.IsError then
        ⟨ex.order, some (GoError.mailform ex.mailformErr), ex.requests⟩
      else
        match checkBodyForErr resp.body with
        | some err => ⟨ex.order, some err, ex.requests⟩
        | none => ⟨ex.order, none, ex.requests⟩

/-- The method `GetOrder`. -/
def GetOrder (parseTime : String → Option Time) (xml : XMLDecoder)
    (send : RestyClient → Request → Outcome) (c : Client) (o : String) : CallResult :=
  let getOrderEndpoint := ordersEndpoint ++ "/" ++ o
  let order : Order := {}
  let mailformErr : ErrMailform := {}
  let req := Request.R.Get getOrderEndpoint
  let ex := req.Execute parseTime xml send c.restClient order mailformErr
  match ex.outcome with
  | Except.error err => ⟨ex.order, some err, ex.requests⟩
  | Except.ok resp =>
    if resp.statusCode = StatusUnauthorized then
      ⟨ex.order, some (GoError.mailform ⟨⟨Itoa StatusUnauthorized, "unauthorized"⟩, ""⟩),
        ex.requests⟩
    else if resp.IsError then
      ⟨ex.order, some (GoError.mailform ex.mailformErr), ex.requests⟩
    else
      match checkBodyForErr resp.body with
      | some err => ⟨ex.order, some err, ex.requests⟩
      | none => ⟨ex.order, none, ex.requests⟩

/-! ## Sample responses -/

/-- A client with the default settings. -/
def sampleClient : Client :=
  ⟨⟨"https://www.mailform.io/app/api/v1", "", 15000000000⟩⟩

/-- A sample time parser: it accepts the texts that have the punctuation of an
RFC 3339 time. -/
def sampleParseTime (raw : String) : Option Time :=
  match raw.data with
  | _ :: _ :: _ :: _ :: '-' :: _ :: _ :: '-' :: _ :: _ :: 'T' :: _ :: _ :: ':' :: _ :: _ ::
      ':' :: _ :: _ :: _ :: _ => some ⟨raw⟩
  | _ => none

/-- The body of `TestCreateOrderError`: an error envelope with a detail. -/
def detailedErrorBody : String :=
  "\x7b\"error\":\x7b\"code\":\"erroroccurred\",\"message\":\"unknown_error\"\x7d,\"detail\":\"Error: Not enough funds (2274:0)\"\x7d"

/-- The body of `TestGetOrderError`: an error envelope without a detail. -/
def plainErrorBody : String :=
  "\x7b\"error\":\x7b\"code\":\"erroroccurred\",\"message\":\"not found\"\x7d\x7d"

/-- The body of `TestCreateOrder`: the JSON of an order whose id is `someID`
and whose other fields are zero. -/
def sampleOrderBody : String :=
  "\x7b\"success\":false,\"data\":\x7b\"object\":\"\",\"id\":\"someID\",\"created\":\"0001-01-01T00:00:00Z\",\"total\":0,\"modified\":\"0001-01-01T00:00:00Z\",\"webhook\":\"\",\"lineitems\":null,\"account\":\"\",\"customer_reference\":\"\",\"channel\":\"\",\"test_mode\":false,\"state\":\"\",\"cancelled\":\"0001-01-01T00:00:00Z\",\"cancellation_reason\":\"\"\x7d\x7d"

/-- A body whose `error.message` is a non-empty string and whose `error.code` is
a number. -/
def numericCodeBody : String := "\x7b\"error\":\x7b\"code\":5,\"message\":\"m\"\x7d\x7d"

/-- A body whose `error` is a string, not an object. -/
def stringErrorBody : String := "\x7b\"error\":\"not found\"\x7d"

/-- The body of the test `EnsureNoErrorIsReturned`. -/
def someKeyBody : String := "\x7b\"someKey\":\"someValue\"\x7d"

/-- A body with order data next to an error envelope. -/
def orderWithErrorBody : String :=
  "\x7b\"success\":false,\"data\":\x7b\"id\":\"someID\"\x7d,\"error\":\x7b\"code\":\"erroroccurred\",\"message\":\"unknown_error\"\x7d\x7d"

/-- A body in which a key that is not part of the envelope is written twice,
next to an `error` object with a message. -/
def repeatedKeyBody : String :=
  "\x7b\"a\":1,\"a\":2,\"error\":\x7b\"message\":\"m\"\x7d\x7d"

/-- A body in which a key that is not part of the envelope is written twice,
and nothing else. -/
def repeatedKeyOnlyBody : String := "\x7b\"a\":1,\"a\":2\x7d"

/-- The JSON of an order with the id `someID` in which the key `success` is
written twice. -/
def repeatedSuccessBody : String :=
  "\x7b\"success\":true,\"success\":false,\"data\":\x7b\"id\":\"someID\"\x7d\x7d"

/-- A sample XML decoder: it accepts every body that holds an element and
finds no field of the target in it, as `encoding/xml` does with an element
without children; for a body without an element it reports `EOF`. -/
def sampleXML : XMLDecoder :=
  ⟨fun _ order => (order, none), fun _ envelope => (envelope, none), fun _ => "EOF"⟩

/-- The server answers every request with the given response, and resty sends
every request it is handed. -/
def respondWith (resp : Response) : RestyClient → Request → Outcome :=
  fun _ _ => Outcome.response resp

/-- The server answers every request with the given response, on a machine
where no file can be read: resty gives up a request that carries a file, with
the error of opening it, and sends the others. -/
def respondWithoutFiles (resp : Response) : RestyClient → Request → Outcome :=
  fun _ r =>
    match r.files with
    | [] => Outcome.response resp
    | file :: _ => Outcome.notSent ("open " ++ file.2 ++ ": no such file or directory")

/-! ## The body of a response, in the words of the specification -/

/-- The value of the member of an object with the given key. -/
def specMember (members : List (String × JSON)) (key : String) : Option JSON :=
  (members.find? (fun m => decide (JSON.unquote m.1 = key))).map Prod.snd

/-- The keys `names` are written exactly and once in an object: no two members
have the same one of the names as key, and a key that the decoder takes for one
of the names is that name, letter for letter. The other keys are free, and may
be repeated. -/
def specExactKeys (names : List String) (members : List (String × JSON)) : Bool :=
  decide (((members.map (fun m => JSON.unquote m.1)).filter
      (fun k => decide (k ∈ names))).Nodup) &&
    members.all (fun m =>
      decide (matchField names (JSON.unquote m.1) = none ∨ JSON.unquote m.1 ∈ names))

/-- The string that an optional member gives to a field holding `cur`: the
field is left as it is when the member is absent or `null`, and a value that
is not a string gives no string. -/
def specStringOr (cur : String) : Option JSON → Option String
  | none => some cur
  | some JSON.null => some cur
  | some (JSON.string raw) => some (JSON.unquote raw)
  | some _ => none

/-- The `error` object that an optional member spells out, over the current
value `cur`: its `code` and `message`. -/
def specErr (cur : ErrMailformErr) : Option JSON → Option ErrMailformErr
  | none => some cur
  | some JSON.null => some cur
  | some (JSON.object es) =>
    if specExactKeys ErrMailformErr.fieldNames es then
      match specStringOr cur.Code (specMember es "code"),
        specStringOr cur.Message (specMember es "message") with
      | some code, some message => some ⟨code, message⟩
      | _, _ => none
    else none
  | some _ => none

/-- The envelope that a JSON object spells out, over the current value `cur`:
its `error.code`, `error.message` and `detail`. -/
def specEnvelopeOf (cur : ErrMailform) : JSON → Option ErrMailform
  | JSON.object members =>
    if specExactKeys ErrMailform.fieldNames members then
      match specErr cur.Err (specMember members "error"),
        specStringOr cur.Detail (specMember members "detail") with
      | some err, some detail => some ⟨err, detail⟩
      | _, _ => none
    else none
  | _ => none

/-- The envelope that a body spells out: the body is a JSON object in which
the keys `error` and `detail`, and `code` and `message` inside `error`, are
written exactly and at most once (other keys are free), and `error.code`,
`error.message` and `detail` are strings where present (empty when absent or
`null`). -/
def specEnvelope (b : String) : Option ErrMailform :=
  match JSON.parse b with
  | some v => specEnvelopeOf {} v
  | none => none

/-- The key `key` is written exactly and at most once in an object: a member
that the decoder stores in the field `key` has that very key, and at most one
member has it. -/
def specKeyOnce (names : List String) (key : String) (members : List (String × JSON)) :
    Bool :=
  members.all (fun m =>
      decide (matchField names (JSON.unquote m.1) = some key → JSON.unquote m.1 = key)) &&
    decide ((members.filter (fun m => decide (JSON.unquote m.1 = key))).length ≤ 1)

/-- The id that a member `data` gives to an order whose id is `cur`: the
string of its member `id`, and `cur` when that member is absent or not a
string, or when `data` is not an object. -/
def specDataID (cur : String) : JSON → String
  | JSON.object ds =>
    match specMember ds "id" with
    | some x => (specStringOr cur (some x)).getD cur
    | none => cur
  | _ => cur

/-- The `data.id` of a body: the body is a JSON object whose member `data`,
written exactly and once, is an object whose member `id`, written exactly and
once, is a string. -/
def specOrderID (b : String) : Option String :=
  match JSON.parse b with
  | some (JSON.object ms) =>
    if specKeyOnce Order.fieldNames "data" ms then
      match specMember ms "data" with
      | some (JSON.object ds) =>
        if specKeyOnce OrderData.fieldNames "id" ds then
          match specMember ds "id" with
          | some (JSON.string raw) => some (JSON.unquote raw)
          | _ => none
        else none
      | _ => none
    else none
  | _ => none

/-- The string at a path of keys in a body, when the body is valid JSON with
objects along the path and a string at its end. -/
def specBodyString (b : String) (path : List String) : Option String :=
  let rec go : List String → JSON → Option String
    | [], JSON.string raw => some (JSON.unquote raw)
    | [], _ => none
    | key :: rest, JSON.object members =>
      match specMember members key with
      | some v => go rest v
      | none => none
    | _ :: _, _ => none
  match JSON.parse b with
  | some v => go path v
  | none => none

/-! ## mailform.go: the configuration and `New` -/

/-- The constant `time.Second`: a `time.Duration` counts nanoseconds. -/
def Second : Int := 1000000000

/-- The method `Seconds` of a `time.Duration`: the whole seconds plus the
remaining nanoseconds over a billion, division truncating towards zero. The
source computes it in floating point; here it is the exact number, which is 0
for the same durations. -/
def Duration.Seconds (d : Int) : ℚ :=
  (Int.tdiv d Second : ℚ) + (Int.tmod d Second : ℚ) / 1000000000

/-- The constant `DefaultBaseURL`. -/
def DefaultBaseURL : String := "https://www.mailform.io/app/api/v1"

/-- The constant `DefaultTimeout`, `time.Second * 15`. -/
def DefaultTimeout : Int := Second * 15

/-- An error made by `errors.New`: its text. -/
structure ErrorString where
  text : String
deriving DecidableEq, Repr

/-- The error `ErrNilConfig`. -/
def ErrNilConfig : ErrorString := ⟨"config cannot be nil"⟩

/-- The configuration used to communicate with the mailform API, `Config`. -/
structure Config where
  Token : String := ""
  BaseURL : String := ""
  Timeout : Int := 0
deriving DecidableEq, Repr

/-- Go `strings.TrimRight(s, cutset)` for a cutset of one character: `s`
without the characters `c` at its end. -/
def TrimRight (s : String) (c : Char) : String :=
  String.mk ((s.data.reverse.dropWhile (fun x => decide (x = c))).reverse)

/-- A new resty client, `resty.New()`: no base URL, no token, no timeout. -/
def RestyClient.New : RestyClient := ⟨"", "", 0⟩

/-- The setter `SetBaseURL` of resty: the base URL is stored without the
slashes at its end. -/
def RestyClient.SetBaseURL (c : RestyClient) (url : String) : RestyClient :=
  { c with BaseURL := TrimRight url '/' }

/-- The setter `SetTimeout` of resty. -/
def RestyClient.SetTimeout (c : RestyClient) (timeout : Int) : RestyClient :=
  { c with Timeout := timeout }

/-- The setter `SetAuthToken` of resty. -/
def RestyClient.SetAuthToken (c : RestyClient) (token : String) : RestyClient :=
  { c with Token := token }

/-- The function `New`: the client and the error returned; `none` is a nil
configuration, a nil client or a nil error. -/
def New (c : Option Config) : Option Client × Option ErrorString :=
  match c with
  | none => (none, some ErrNilConfig)
  | some c =>
    let baseURL := DefaultBaseURL
    let baseURL := if c.BaseURL ≠ "" then c.BaseURL else baseURL
    let timeout := DefaultTimeout
    let timeout := if Duration.Seconds c.Timeout ≠ 0 then c.Timeout else timeout
    let mailformClient : Client :=
      ⟨((RestyClient.New.SetBaseURL baseURL).SetTimeout timeout).SetAuthToken c.Token⟩
    (some mailformClient, none)

/-- The input of `TestCreateOrder`: a supported service and the twelve
required fields, and neither a file path nor a URL. -/
def noSourceOrder : OrderInput :=
  { Service := "USPS_STANDARD"
    ToName := "some_name"
    ToAddress1 := "some_address1"
    ToCity := "some_city"
    ToState := "some_state"
    ToPostcode := "some_postcode"
    ToCountry := "some_country"
    FromName := "some_fromname"
    FromAddress1 := "some_fromaddress1"
    FromCity := "some_fromcity"
    FromState := "some_fromstate"
    FromPostcode := "some_frompostcode"
    FromCountry := "some_fromcountry" }

/-! ## Reading a decimal string back -/

/-- The value of a decimal digit. -/
def digitValue (c : Char) : Nat := c.toNat - 48

/-- The number that a list of decimal digits writes, after the digits already
read as `acc`. -/
def decimalValue (acc : Nat) (ds : List Char) : Nat :=
  ds.foldl (fun a c => 10 * a + digitValue c) acc

/-! ## Lemmas on Go maps -/

theorem GoMap.getEntries_setEntries (l : List (String × String)) (k v k' : String) :
    GoMap.getEntries (GoMap.setEntries l k v) k' =
      if k' = k then some v else GoMap.getEntries l k' := by
  induction l with
  | nil => simp [GoMap.setEntries, GoMap.getEntries]
  | cons p rest ih =>
    obtain ⟨a, b⟩ := p
    by_cases hak : a = k
    · subst hak
      by_cases hk : k' = a <;> simp [GoMap.setEntries, GoMap.getEntries, hk]
    · by_cases hk : k' = a
      · subst hk
        simp [GoMap.setEntries, GoMap.getEntries, hak]
      · simp [GoMap.setEntries, GoMap.getEntries, hak, hk, ih]

theorem GoMap.get_set (m : GoMap) (k v k' : String) :
    (m.set k v).get k' = if k' = k then some v else m.get k' :=
  GoMap.getEntries_setEntries m.entries k v k'

theorem GoMap.get_ite_set (c : Prop) [Decidable c] (m : GoMap) (k v k' : String) :
    (if c then m.set k v else m).get k' = if c ∧ k' = k then some v else m.get k' := by
  by_cases hc : c <;> simp [hc, GoMap.get_set]

theorem GoMap.keys_setEntries (l : List (String × String)) (k v : String) :
    (GoMap.setEntries l k v).map Prod.fst =
      if k ∈ l.map Prod.fst then l.map Prod.fst else l.map Prod.fst ++ [k] := by
  induction l with
  | nil => simp [GoMap.setEntries]
  | cons p rest ih =>
    obtain ⟨a, b⟩ := p
    by_cases hak : a = k
    · subst hak
      simp [GoMap.setEntries]
    · have hka : ¬ k = a := fun h => hak h.symm
      by_cases hmem : k ∈ rest.map Prod.fst
      · simp only [GoMap.setEntries, hak, if_false, List.map_cons, ih, hmem, if_true,
          List.mem_cons, or_true]
      · simp only [GoMap.setEntries, hak, if_false, List.map_cons, ih, hmem, List.mem_cons,
          hka, or_self, List.cons_append]

theorem GoMap.keys_set (m : GoMap) (k v : String) :
    (m.set k v).keys = if k ∈ m.keys then m.keys else m.keys ++ [k] :=
  GoMap.keys_setEntries m.entries k v

theorem GoMap.mem_keys_set (m : GoMap) (k v k' : String) :
    k' ∈ (m.set k v).keys ↔ k' = k ∨ k' ∈ m.keys := by
  rw [GoMap.keys_set]
  by_cases hmem : k ∈ m.keys
  · simp only [hmem, if_true]
    constructor
    · exact Or.inr
    · rintro (rfl | h)
      · exact hmem
      · exact h
  · simp only [hmem, if_false, List.mem_append, List.mem_singleton]
    exact or_comm

theorem GoMap.mem_keys_ite_set (c : Prop) [Decidable c] (m : GoMap) (k v k' : String) :
    k' ∈ (if c then m.set k v else m).keys ↔ (c ∧ k' = k) ∨ k' ∈ m.keys := by
  by_cases hc : c <;> simp [hc, GoMap.mem_keys_set]

theorem GoMap.nodup_keys_set (m : GoMap) (k v : String) (h : m.keys.Nodup) :
    (m.set k v).keys.Nodup := by
  rw [GoMap.keys_set]
  by_cases hmem : k ∈ m.keys
  · simpa [hmem] using h
  · simp only [hmem, if_false]
    refine List.Nodup.append h (List.nodup_singleton k) ?_
    intro a ha hk
    rw [List.mem_singleton] at hk
    exact hmem (hk ▸ ha)

theorem GoMap.nodup_keys_ite_set (c : Prop) [Decidable c] (m : GoMap) (k v : String)
    (h : m.keys.Nodup) : (if c then m.set k v else m).keys.Nodup := by
  by_cases hc : c
  · simpa [hc] using GoMap.nodup_keys_set m k v h
  · simpa [hc] using h

theorem GoMap.mem_keys_iff_get (m : GoMap) (k : String) :
    k ∈ m.keys ↔ m.get k ≠ none := by
  obtain ⟨l⟩ := m
  simp only [GoMap.keys, GoMap.get]
  induction l with
  | nil => simp [GoMap.getEntries]
  | cons p rest ih =>
    obtain ⟨a, b⟩ := p
    by_cases hk : k = a
    · simp [GoMap.getEntries, hk]
    · simp [GoMap.getEntries, hk, ih]

theorem GoMap.setEntries_of_not_mem (l : List (String × String)) (k v : String)
    (h : k ∉ l.map Prod.fst) : GoMap.setEntries l k v = l ++ [(k, v)] := by
  induction l with
  | nil => simp [GoMap.setEntries]
  | cons p rest ih =>
    obtain ⟨a, b⟩ := p
    simp only [List.map_cons, List.mem_cons, not_or] at h
    have hak : ¬ a = k := fun e => h.1 e.symm
    simp [GoMap.setEntries, hak, ih h.2]

theorem GoMap.foldl_set_nodup (l acc : List (String × String))
    (hl : (l.map Prod.fst).Nodup) (hdisj : ∀ k ∈ l.map Prod.fst, k ∉ acc.map Prod.fst) :
    l.foldl (fun (a : GoMap) kv => a.set kv.1 kv.2) ⟨acc⟩ = ⟨acc ++ l⟩ := by
  induction l generalizing acc with
  | nil => simp
  | cons p rest ih =>
    obtain ⟨a, b⟩ := p
    simp only [List.map_cons, List.nodup_cons] at hl
    have ha : a ∉ acc.map Prod.fst := hdisj a (by simp)
    have hset : GoMap.set ⟨acc⟩ a b = ⟨acc ++ [(a, b)]⟩ := by
      simp [GoMap.set, GoMap.setEntries_of_not_mem acc a b ha]
    rw [List.foldl_cons, hset, ih (acc ++ [(a, b)]) hl.2]
    · simp
    · intro k hk
      simp only [List.map_append, List.map_cons, List.map_nil, List.mem_append,
        List.mem_singleton, not_or]
      refine ⟨hdisj k (by simp [hk]), ?_⟩
      rintro rfl
      exact hl.1 hk

/-! ## Lemmas on the service table -/

theorem isServiceSupported_loop_iff (s : String) (l : List String) :
    isServiceSupported.loop s l = true ↔ s ∈ l := by
  induction l with
  | nil => simp [isServiceSupported.loop]
  | cons v rest ih =>
    by_cases h : s = v
    · simp [isServiceSupported.loop, h]
    · simp [isServiceSupported.loop, h, ih]

theorem isServiceSupported_iff_mem (s : String) :
    isServiceSupported s = true ↔ s ∈ ServiceCodes :=
  isServiceSupported_loop_iff s ServiceCodes

theorem formatStrings_ServiceCodes :
    formatStrings ServiceCodes =
      "[FEDEX_OVERNIGHT USPS_PRIORITY_EXPRESS USPS_PRIORITY USPS_CERTIFIED_PHYSICAL_RECEIPT USPS_CERTIFIED_RECEIPT USPS_CERTIFIED USPS_FIRST_CLASS USPS_STANDARD USPS_POSTCARD]" := by
  rfl

/-! ## Validation -/

/-- Past the service check, `Validate` reports the first empty field of the
required-field chain. -/
theorem Validate_eq_firstEmpty (o : OrderInput) (hs : isServiceSupported o.Service = true) :
    Validate o = (specFirstEmptyField o).map (fun F => ⟨genericRejectionStr F⟩) := by
  unfold Validate specFirstEmptyField specRequiredFields
  simp only [hs, Bool.not_true, Bool.false_eq_true, if_false]
  by_cases h1 : o.ToName = ""
  · simp [List.find?, h1]
  by_cases h2 : o.ToAddress1 = ""
  · simp [List.find?, h1, h2]
  by_cases h3 : o.ToCity = ""
  · simp [List.find?, h1, h2, h3]
  by_cases h4 : o.ToState = ""
  · simp [List.find?, h1, h2, h3, h4]
  by_cases h5 : o.ToPostcode = ""
  · simp [List.find?, h1, h2, h3, h4, h5]
  by_cases h6 : o.ToCountry = ""
  · simp [List.find?, h1, h2, h3, h4, h5, h6]
  by_cases h7 : o.FromName = ""
  · simp [List.find?, h1, h2, h3, h4, h5, h6, h7]
  by_cases h8 : o.FromAddress1 = ""
  · simp [List.find?, h1, h2, h3, h4, h5, h6, h7, h8]
  by_cases h9 : o.FromCity = ""
  · simp [List.find?, h1, h2, h3, h4, h5, h6, h7, h8, h9]
  by_cases h10 : o.FromState = ""
  · simp [List.find?, h1, h2, h3, h4, h5, h6, h7, h8, h9, h10]
  by_cases h11 : o.FromPostcode = ""
  · simp [List.find?, h1, h2, h3, h4, h5, h6, h7, h8, h9, h10, h11]
  by_cases h12 : o.FromCountry = ""
  · simp [List.find?, h1, h2, h3, h4, h5, h6, h7, h8, h9, h10, h11, h12]
  simp [List.find?, h1, h2, h3, h4, h5, h6, h7, h8, h9, h10, h11, h12]

/-- C1: when the service is one of `ServiceCodes` and some required field is
empty, `Validate` returns the `ErrOrderInvalid` whose message is
`<F> not provided, but is required` for the first empty field `F` of the
chain ToName, ToAddress1, ..., FromCountry, whatever the later fields hold. -/
theorem C1_validate_first_empty_field (o : OrderInput)
    (hservice : o.Service ∈ ServiceCodes)
    (hempty : ∃ p ∈ specRequiredFields, p.2 o = "") :
    ∃ F, specFirstEmptyField o = some F ∧
      Validate o = some ⟨F ++ " not provided, but is required"⟩ := by
  have hs : isServiceSupported o.Service = true := (isServiceSupported_iff_mem _).2 hservice
  obtain ⟨p, hp, hpe⟩ := hempty
  have hsome : (specRequiredFields.find? (fun p => decide (p.2 o = ""))).isSome = true := by
    rw [List.find?_isSome]
    exact ⟨p, hp, by simpa using hpe⟩
  obtain ⟨q, hq⟩ := Option.isSome_iff_exists.1 hsome
  refine ⟨q.1, ?_, ?_⟩
  · simp [specFirstEmptyField, hq]
  · rw [Validate_eq_firstEmpty o hs]
    simp [specFirstEmptyField, hq, genericRejectionStr]

/-- C1 at a concrete input: a supported service, ToName and ToAddress1 given,
ToCity empty and FromName (a later field) empty too; the message names ToCity. -/
theorem C1_validate_first_empty_field_witness :
    (∃ F, specFirstEmptyField
        { Service := "USPS_STANDARD", ToName := "a", ToAddress1 := "b", ToState := "c" }
          = some F ∧
      Validate { Service := "USPS_STANDARD", ToName := "a", ToAddress1 := "b", ToState := "c" }
        = some ⟨F ++ " not provided, but is required"⟩) ∧
    Validate { Service := "USPS_STANDARD", ToName := "a", ToAddress1 := "b", ToState := "c" }
      = some ⟨"ToCity not provided, but is required"⟩ :=
  ⟨C1_validate_first_empty_field
    { Service := "USPS_STANDARD", ToName := "a", ToAddress1 := "b", ToState := "c" }
    (by decide) ⟨("ToCity", OrderInput.ToCity), by simp [specRequiredFields], rfl⟩, by decide⟩

/-- C2: `Validate` returns no error exactly when the service is a member of
`ServiceCodes` and the twelve required fields are all non-empty. -/
theorem C2_validate_ok_iff (o : OrderInput) :
    Validate o = none ↔
      (o.Service ∈ ServiceCodes ∧ o.ToName ≠ "" ∧ o.ToAddress1 ≠ "" ∧ o.ToCity ≠ "" ∧
        o.ToState ≠ "" ∧ o.ToPostcode ≠ "" ∧ o.ToCountry ≠ "" ∧ o.FromName ≠ "" ∧
        o.FromAddress1 ≠ "" ∧ o.FromCity ≠ "" ∧ o.FromState ≠ "" ∧ o.FromPostcode ≠ "" ∧
        o.FromCountry ≠ "") := by
  by_cases hs : isServiceSupported o.Service = true
  · have hm : o.Service ∈ ServiceCodes := (isServiceSupported_iff_mem _).1 hs
    rw [Validate_eq_firstEmpty o hs]
    simp [specFirstEmptyField, specRequiredFields, hm]
  · have hm : o.Service ∉ ServiceCodes := fun h => hs ((isServiceSupported_iff_mem _).2 h)
    simp [Validate, hs, hm]

/-- C2 at the fully populated sample input and at the empty input. -/
theorem C2_validate_ok_iff_witness :
    Validate sampleOrder = none ∧ Validate {} ≠ none :=
  ⟨(C2_validate_ok_iff sampleOrder).2 (by decide), by decide⟩

/-- C3: when the service is not a member of `ServiceCodes`, `Validate` returns
the `ErrOrderInvalid` with the service-code message, listing the nine codes,
whatever the other fields hold. -/
theorem C3_validate_unsupported_service (o : OrderInput) (h : o.Service ∉ ServiceCodes) :
    Validate o = some ⟨"service code: '" ++ o.Service ++
      "' not supported. Must be one of [FEDEX_OVERNIGHT USPS_PRIORITY_EXPRESS USPS_PRIORITY USPS_CERTIFIED_PHYSICAL_RECEIPT USPS_CERTIFIED_RECEIPT USPS_CERTIFIED USPS_FIRST_CLASS USPS_STANDARD USPS_POSTCARD]"⟩ := by
  have hs : ¬ isServiceSupported o.Service = true :=
    fun hs => h ((isServiceSupported_iff_mem _).1 hs)
  simp only [Validate, hs, serviceRejectionStr, formatStrings_ServiceCodes, Bool.not_eq_true',
    Bool.not_eq_true, if_true, Bool.not_false]
  rw [String.append_assoc ("service code: '" ++ o.Service)]
  rfl

/-- C3 at the input of the test `EnsureServiceCodeErrorIsReturned`: the
service is unsupported and ToName is empty, and the service is reported. -/
theorem C3_validate_unsupported_service_witness :
    Validate { Service := "Unsupported" } = some ⟨"service code: '" ++ "Unsupported" ++
      "' not supported. Must be one of [FEDEX_OVERNIGHT USPS_PRIORITY_EXPRESS USPS_PRIORITY USPS_CERTIFIED_PHYSICAL_RECEIPT USPS_CERTIFIED_RECEIPT USPS_CERTIFIED USPS_FIRST_CLASS USPS_STANDARD USPS_POSTCARD]"⟩ :=
  C3_validate_unsupported_service { Service := "Unsupported" } (by decide)

/-- No required-field message begins with `service code:`. -/
theorem genericRejectionStr_not_service (F : String)
    (hF : F ∈ specRequiredFields.map Prod.fst) :
    ¬ ∃ r : String, genericRejectionStr F = "service code:" ++ r := by
  rintro ⟨r, h⟩
  have h2 := congrArg (fun s => s.data.head?) h
  simp only [specRequiredFields, List.map_cons, List.map_nil, List.mem_cons,
    List.mem_singleton, List.not_mem_nil, or_false] at hF
  rcases hF with rfl | rfl | rfl | rfl | rfl | rfl | rfl | rfl | rfl | rfl | rfl | rfl <;>
    simp [genericRejectionStr] at h2

/-- C4: `isServiceSupported s` holds exactly when `s` is one of the nine
codes; so `Validate` never reports the service of an input whose service is in
`ServiceCodes` (and accepts it when the required fields are filled), and
rejects any other service with a message beginning `service code:`. -/
theorem C4_isServiceSupported_iff :
    (∀ s : String, isServiceSupported s = true ↔
      (s = "FEDEX_OVERNIGHT" ∨ s = "USPS_PRIORITY_EXPRESS" ∨ s = "USPS_PRIORITY" ∨
        s = "USPS_CERTIFIED_PHYSICAL_RECEIPT" ∨ s = "USPS_CERTIFIED_RECEIPT" ∨
        s = "USPS_CERTIFIED" ∨ s = "USPS_FIRST_CLASS" ∨ s = "USPS_STANDARD" ∨
        s = "USPS_POSTCARD")) ∧
    (∀ o : OrderInput, o.Service ∈ ServiceCodes →
      ∀ e, Validate o = some e → ¬ ∃ r : String, e.message = "service code:" ++ r) ∧
    (∀ o : OrderInput, o.Service ∈ ServiceCodes →
      (∀ p ∈ specRequiredFields, p.2 o ≠ "") → Validate o = none) ∧
    (∀ o : OrderInput, o.Service ∉ ServiceCodes →
      ∃ r : String, Validate o = some ⟨"service code:" ++ r⟩) := by
  refine ⟨fun s => ?_, fun o hm e he => ?_, fun o hm hall => ?_, fun o hm => ?_⟩
  · rw [isServiceSupported_iff_mem]
    simp [ServiceCodes]
  · have hs := (isServiceSupported_iff_mem _).2 hm
    rw [Validate_eq_firstEmpty o hs] at he
    cases hF : specFirstEmptyField o with
    | none => simp [hF] at he
    | some F =>
      simp only [hF, Option.map_some', Option.some.injEq] at he
      subst he
      refine genericRejectionStr_not_service F ?_
      simp only [specFirstEmptyField, Option.map_eq_some'] at hF
      obtain ⟨q, hq, rfl⟩ := hF
      exact List.mem_map_of_mem _ (List.mem_of_find?_eq_some hq)
  · have hs := (isServiceSupported_iff_mem _).2 hm
    rw [Validate_eq_firstEmpty o hs]
    have hnone : specRequiredFields.find? (fun p => decide (p.2 o = "")) = none := by
      rw [List.find?_eq_none]
      intro p hp
      simpa using hall p hp
    simp [specFirstEmptyField, hnone]
  · have hs : ¬ isServiceSupported o.Service = true :=
      fun hs => hm ((isServiceSupported_iff_mem _).1 hs)
    refine ⟨" '" ++ o.Service ++ "' not supported. Must be one of "
      ++ formatStrings ServiceCodes, ?_⟩
    simp [Validate, hs, serviceRejectionStr, ← String.append_assoc]

/-- C4 at concrete strings: a listed code is supported; a lower-case code, a
code with a leading blank and an unlisted code are not, and `Validate` rejects
the unlisted one with a message beginning `service code:`. -/
theorem C4_isServiceSupported_iff_witness :
    isServiceSupported "USPS_CERTIFIED" = true ∧
    isServiceSupported "usps_certified" = false ∧
    isServiceSupported " USPS_CERTIFIED" = false ∧
    isServiceSupported "FAKE" = false ∧
    (∃ r : String, Validate { Service := "FAKE" } = some ⟨"service code:" ++ r⟩) :=
  ⟨(C4_isServiceSupported_iff.1 "USPS_CERTIFIED").2 (by decide), by decide, by decide,
    by decide, C4_isServiceSupported_iff.2.2.2 { Service := "FAKE" } (by decide)⟩

/-! ## Form encoding -/

/-- C5: the map of `FormData` holds each of the 25 always-included keys, also
when the field is empty; a string key maps to the field unchanged and each of
simplex, color, flat, stamp maps to `true` or `false`. -/
theorem C5_formData_always_keys (o : OrderInput) :
    (FormData o).get "customer_reference" = some o.CustomerReference ∧
    (FormData o).get "service" = some o.Service ∧
    (FormData o).get "webhook" = some o.Webhook ∧
    (FormData o).get "company" = some o.Company ∧
    (FormData o).get "simplex" = some (if o.Simplex = true then "true" else "false") ∧
    (FormData o).get "color" = some (if o.Color = true then "true" else "false") ∧
    (FormData o).get "flat" = some (if o.Flat = true then "true" else "false") ∧
    (FormData o).get "stamp" = some (if o.Stamp = true then "true" else "false") ∧
    (FormData o).get "message" = some o.Message ∧
    (FormData o).get "to.name" = some o.ToName ∧
    (FormData o).get "to.organization" = some o.ToOrganization ∧
    (FormData o).get "to.address1" = some o.ToAddress1 ∧
    (FormData o).get "to.address2" = some o.ToAddress2 ∧
    (FormData o).get "to.city" = some o.ToCity ∧
    (FormData o).get "to.state" = some o.ToState ∧
    (FormData o).get "to.postcode" = some o.ToPostcode ∧
    (FormData o).get "to.country" = some o.ToCountry ∧
    (FormData o).get "from.name" = some o.FromName ∧
    (FormData o).get "from.organization" = some o.FromOrganization ∧
    (FormData o).get "from.address1" = some o.FromAddress1 ∧
    (FormData o).get "from.address2" = some o.FromAddress2 ∧
    (FormData o).get "from.city" = some o.FromCity ∧
    (FormData o).get "from.state" = some o.FromState ∧
    (FormData o).get "from.postcode" = some o.FromPostcode ∧
    (FormData o).get "from.country" = some o.FromCountry := by
  simp only [FormData, GoMap.get_ite_set]
  simp [GoMap.get, GoMap.getEntries, FormatBool]

/-- C5 at the empty input: the 25 keys are present with empty strings and
`false` flags. -/
theorem C5_formData_always_keys_witness :
    (FormData {}).get "customer_reference" = some "" ∧
    (FormData {}).get "simplex" = some "false" ∧
    (FormData { Stamp := true }).get "stamp" = some "true" ∧
    (FormData {}).get "from.country" = some "" :=
  ⟨(C5_formData_always_keys {}).1, by decide, by decide, by decide⟩

/-- C6: the map of `FormData` holds url, bank_account, check_name and
check_memo exactly when the field is non-empty, with the field as value, and
amount and check_number exactly when the integer is not 0, with its decimal
string as value; `FilePath` plays no part in it. -/
theorem C6_formData_conditional_keys (o : OrderInput) :
    (("url" ∈ (FormData o).keys ↔ o.URL ≠ "") ∧
      (FormData o).get "url" = if o.URL ≠ "" then some o.URL else none) ∧
    (("bank_account" ∈ (FormData o).keys ↔ o.BankAccount ≠ "") ∧
      (FormData o).get "bank_account" =
        if o.BankAccount ≠ "" then some o.BankAccount else none) ∧
    (("check_name" ∈ (FormData o).keys ↔ o.CheckName ≠ "") ∧
      (FormData o).get "check_name" = if o.CheckName ≠ "" then some o.CheckName else none) ∧
    (("check_memo" ∈ (FormData o).keys ↔ o.CheckMemo ≠ "") ∧
      (FormData o).get "check_memo" = if o.CheckMemo ≠ "" then some o.CheckMemo else none) ∧
    (("amount" ∈ (FormData o).keys ↔ o.Amount ≠ 0) ∧
      (FormData o).get "amount" = if o.Amount ≠ 0 then some (Itoa o.Amount) else none) ∧
    (("check_number" ∈ (FormData o).keys ↔ o.CheckNumber ≠ 0) ∧
      (FormData o).get "check_number" =
        if o.CheckNumber ≠ 0 then some (Itoa o.CheckNumber) else none) := by
  have hget : ∀ k v : String, ∀ c : Prop, ∀ _ : Decidable c,
      ((FormData o).get k = if c then some v else none) →
        (k ∈ (FormData o).keys ↔ c) := by
    intro k v c _ h
    rw [GoMap.mem_keys_iff_get, h]
    by_cases hc : c <;> simp [hc]
  have hurl : (FormData o).get "url" = if o.URL ≠ "" then some o.URL else none := by
    simp only [FormData, GoMap.get_ite_set]
    simp [GoMap.get, GoMap.getEntries]
  have hbank : (FormData o).get "bank_account" =
      if o.BankAccount ≠ "" then some o.BankAccount else none := by
    simp only [FormData, GoMap.get_ite_set]
    simp [GoMap.get, GoMap.getEntries]
  have hname : (FormData o).get "check_name" =
      if o.CheckName ≠ "" then some o.CheckName else none := by
    simp only [FormData, GoMap.get_ite_set]
    simp [GoMap.get, GoMap.getEntries]
  have hmemo : (FormData o).get "check_memo" =
      if o.CheckMemo ≠ "" then some o.CheckMemo else none := by
    simp only [FormData, GoMap.get_ite_set]
    simp [GoMap.get, GoMap.getEntries]
  have hamount : (FormData o).get "amount" =
      if o.Amount ≠ 0 then some (Itoa o.Amount) else none := by
    simp only [FormData, GoMap.get_ite_set]
    simp [GoMap.get, GoMap.getEntries]
  have hnumber : (FormData o).get "check_number" =
      if o.CheckNumber ≠ 0 then some (Itoa o.CheckNumber) else none := by
    simp only [FormData, GoMap.get_ite_set]
    simp [GoMap.get, GoMap.getEntries]
  exact ⟨⟨hget _ _ _ _ hurl, hurl⟩, ⟨hget _ _ _ _ hbank, hbank⟩, ⟨hget _ _ _ _ hname, hname⟩,
    ⟨hget _ _ _ _ hmemo, hmemo⟩, ⟨hget _ _ _ _ hamount, hamount⟩,
    ⟨hget _ _ _ _ hnumber, hnumber⟩⟩

/-- C6 at concrete inputs: with a file path given the url key is still
present; the integers are written in decimal; the empty input has none of the
six keys. -/
theorem C6_formData_conditional_keys_witness :
    ("url" ∈ (FormData { sampleOrder with FilePath := "doc.pdf" }).keys) ∧
    (FormData { sampleOrder with FilePath := "doc.pdf" }).get "url" = some "some_url" ∧
    (FormData sampleOrder).get "amount" = some "1" ∧
    (FormData sampleOrder).get "check_number" = some "123456" ∧
    (FormData { Amount := -250 }).get "amount" = some "-250" ∧
    (FormData {}).get "url" = none ∧ (FormData {}).get "amount" = none :=
  ⟨(C6_formData_conditional_keys { sampleOrder with FilePath := "doc.pdf" }).1.1.2
      (by decide),
    by decide, by decide, by decide, by decide, by decide, by decide⟩

/-- Every key of `FormData` is one of the 31 listed keys, with the condition
under which a conditional key is present. -/
theorem FormData_mem_keys (o : OrderInput) (k : String) :
    k ∈ (FormData o).keys ↔
      (k ∈ specAlwaysKeys ∨ (o.URL ≠ "" ∧ k = "url") ∨
        (o.BankAccount ≠ "" ∧ k = "bank_account") ∨ (o.Amount ≠ 0 ∧ k = "amount") ∨
        (o.CheckName ≠ "" ∧ k = "check_name") ∨ (o.CheckNumber ≠ 0 ∧ k = "check_number") ∨
        (o.CheckMemo ≠ "" ∧ k = "check_memo")) := by
  simp only [FormData, GoMap.mem_keys_ite_set]
  simp only [GoMap.keys, specAlwaysKeys, List.map_cons, List.map_nil]
  tauto

/-- The keys of `FormData` are pairwise distinct. -/
theorem FormData_keys_nodup (o : OrderInput) : (FormData o).keys.Nodup := by
  simp only [FormData]
  refine GoMap.nodup_keys_ite_set _ _ _ _ ?_
  refine GoMap.nodup_keys_ite_set _ _ _ _ ?_
  refine GoMap.nodup_keys_ite_set _ _ _ _ ?_
  refine GoMap.nodup_keys_ite_set _ _ _ _ ?_
  refine GoMap.nodup_keys_ite_set _ _ _ _ ?_
  refine GoMap.nodup_keys_ite_set _ _ _ _ ?_
  simp only [GoMap.keys, List.map_cons, List.map_nil]
  decide

/-- C7: for an input with the six conditional fields populated the key set of
`FormData` is exactly the 31 keys (25 always included, 6 conditional), each
once; for every input the key set contains the 25 and is contained in the
31. -/
theorem C7_formData_key_set :
    (∀ o : OrderInput, o.URL ≠ "" → o.BankAccount ≠ "" → o.CheckName ≠ "" →
      o.CheckMemo ≠ "" → o.Amount ≠ 0 → o.CheckNumber ≠ 0 →
        (∀ k, k ∈ (FormData o).keys ↔ k ∈ specAlwaysKeys ++ specConditionalKeys) ∧
        (FormData o).keys.Nodup ∧ (FormData o).keys.length = 31) ∧
    (∀ o : OrderInput,
      (∀ k ∈ specAlwaysKeys, k ∈ (FormData o).keys) ∧
      (∀ k ∈ (FormData o).keys, k ∈ specAlwaysKeys ++ specConditionalKeys)) := by
  refine ⟨fun o h1 h2 h3 h4 h5 h6 => ⟨fun k => ?_, FormData_keys_nodup o, ?_⟩,
    fun o => ⟨fun k hk => ?_, fun k hk => ?_⟩⟩
  · rw [FormData_mem_keys]
    simp only [h1, h2, h3, h4, h5, h6, ne_eq, not_false_eq_true, true_and, List.mem_append,
      specConditionalKeys, List.mem_cons, List.mem_singleton, List.not_mem_nil, or_false]
  · simp [FormData, h1, h2, h3, h4, h5, h6, GoMap.set, GoMap.setEntries, GoMap.keys]
  · exact (FormData_mem_keys o k).2 (Or.inl hk)
  · rw [FormData_mem_keys] at hk
    simp only [List.mem_append, specConditionalKeys, List.mem_cons, List.mem_singleton,
      List.not_mem_nil, or_false]
    tauto

/-- C7 at the fully populated input of `TestFormData` and at the empty input. -/
theorem C7_formData_key_set_witness :
    ((∀ k, k ∈ (FormData sampleOrder).keys ↔ k ∈ specAlwaysKeys ++ specConditionalKeys) ∧
      (FormData sampleOrder).keys.Nodup ∧ (FormData sampleOrder).keys.length = 31) ∧
    (FormData {}).keys = specAlwaysKeys :=
  ⟨C7_formData_key_set.1 sampleOrder (by decide) (by decide) (by decide) (by decide)
    (by decide) (by decide), by decide⟩

/-! ## The request of `CreateOrder` -/

/-- Storing the entries of a map with distinct keys in the empty map gives the
map back. -/
theorem GoMap.foldl_set_empty (m : GoMap) (h : m.keys.Nodup) :
    m.entries.foldl (fun (a : GoMap) kv => a.set kv.1 kv.2) GoMap.empty = m := by
  have := GoMap.foldl_set_nodup m.entries [] h (by simp)
  simpa [GoMap.empty] using this

/-- The form fields of the request of `CreateOrder` are the map of `FormData`. -/
theorem CreateOrder_request_formData (o : OrderInput) :
    (CreateOrder.request o).formData = FormData o := by
  by_cases hp : o.FilePath = ""
  · simp [CreateOrder.request, hp, Request.SetFormData, Request.Post, Request.R,
      GoMap.foldl_set_empty _ (FormData_keys_nodup o)]
  · simp [CreateOrder.request, hp, Request.SetFormData, Request.Post, Request.R,
      Request.SetFile, GoMap.foldl_set_empty _ (FormData_keys_nodup o)]

/-- The files of the request of `CreateOrder`. -/
theorem CreateOrder_request_files (o : OrderInput) :
    (CreateOrder.request o).files = if o.FilePath ≠ "" then [("file", o.FilePath)] else [] := by
  by_cases hp : o.FilePath = ""
  · simp [CreateOrder.request, hp, Request.SetFormData, Request.Post, Request.R]
  · simp [CreateOrder.request, hp, Request.SetFormData, Request.Post, Request.R,
      Request.SetFile]

/-- C8, as the code has it: when both `FilePath` and `URL` are non-empty, the
form data of `FormData`, which `CreateOrder` puts in the request next to the
file part, still holds the key url with the value of `URL`. -/
theorem C8_url_kept_with_file (o : OrderInput) (hfile : o.FilePath ≠ "") (hurl : o.URL ≠ "") :
    "url" ∈ (FormData o).keys ∧ (FormData o).get "url" = some o.URL ∧
      (CreateOrder.request o).formData.get "url" = some o.URL ∧
      (CreateOrder.request o).files = [("file", o.FilePath)] := by
  have hget : (FormData o).get "url" = some o.URL := by
    simp only [FormData, GoMap.get_ite_set]
    simp [GoMap.get, GoMap.getEntries, hurl]
  refine ⟨?_, hget, ?_, ?_⟩
  · rw [GoMap.mem_keys_iff_get, hget]
    simp
  · rw [CreateOrder_request_formData, hget]
  · rw [CreateOrder_request_files]
    simp [hfile]

/-- C8 as amended, at the sample input with a file path and a URL. -/
theorem C8_url_kept_with_file_witness :
    "url" ∈ (FormData bothSourcesOrder).keys ∧
      (FormData bothSourcesOrder).get "url" = some bothSourcesOrder.URL ∧
      (CreateOrder.request bothSourcesOrder).formData.get "url" = some bothSourcesOrder.URL ∧
      (CreateOrder.request bothSourcesOrder).files = [("file", bothSourcesOrder.FilePath)] :=
  C8_url_kept_with_file bothSourcesOrder (by decide) (by decide)

/-- C8 as stated fails: the sample input has a non-empty `FilePath` and a
non-empty `URL`, passes `Validate`, and its form data has the key url. -/
theorem C8_url_omitted_counterexample :
    ¬ (Validate bothSourcesOrder = none → bothSourcesOrder.FilePath ≠ "" →
        bothSourcesOrder.URL ≠ "" → "url" ∉ (FormData bothSourcesOrder).keys) := by
  intro h
  exact h (by decide) (by decide) (by decide) (by decide)

/-- C9: `FormData` never encodes `FilePath`: two inputs that differ only in
`FilePath` have equal maps. -/
theorem C9_formData_ignores_filePath (a b : OrderInput)
    (hdiff : ∃ path, b = { a with FilePath := path }) : FormData a = FormData b := by
  obtain ⟨path, rfl⟩ := hdiff
  rfl

/-- C9 at the sample input with and without a file path; the path is the
value of no entry. -/
theorem C9_formData_ignores_filePath_witness :
    FormData sampleOrder = FormData bothSourcesOrder ∧
      ∀ kv ∈ (FormData bothSourcesOrder).entries, kv.2 ≠ bothSourcesOrder.FilePath :=
  ⟨C9_formData_ignores_filePath sampleOrder bothSourcesOrder ⟨"document.pdf", rfl⟩,
    by decide⟩

/-- C10: for an input that passes `Validate`, `CreateOrder` sends a request
whose form fields are exactly the map of `FormData`, with a part named file
read from `FilePath` exactly when `FilePath` is non-empty. -/
theorem C10_createOrder_request (o : OrderInput) (hvalid : Validate o = none) :
    ∃ req, CreateOrder.prepare o = Except.ok req ∧
      req.formData = FormData o ∧
      req.files = (if o.FilePath ≠ "" then [("file", o.FilePath)] else []) ∧
      ((∃ path, ("file", path) ∈ req.files) ↔ o.FilePath ≠ "") ∧
      (∀ param path, (param, path) ∈ req.files → param = "file" ∧ path = o.FilePath) ∧
      req.method = "POST" ∧ req.endpoint = "/orders" := by
  refine ⟨CreateOrder.request o, by simp [CreateOrder.prepare, hvalid],
    CreateOrder_request_formData o, CreateOrder_request_files o, ?_, ?_, ?_, ?_⟩
  · rw [CreateOrder_request_files]
    by_cases hp : o.FilePath = "" <;> simp [hp]
  · intro param path
    rw [CreateOrder_request_files]
    by_cases hp : o.FilePath = "" <;> simp [hp]
  · by_cases hp : o.FilePath = "" <;>
      simp [CreateOrder.request, hp, Request.SetFormData, Request.Post]
  · by_cases hp : o.FilePath = "" <;>
      simp [CreateOrder.request, hp, Request.SetFormData, Request.Post, ordersEndpoint]

/-- C10 at the sample input, without a file path (no file part) and with one. -/
theorem C10_createOrder_request_witness :
    (∃ req, CreateOrder.prepare sampleOrder = Except.ok req ∧
      req.formData = FormData sampleOrder ∧
      req.files = (if sampleOrder.FilePath ≠ "" then [("file", sampleOrder.FilePath)] else []) ∧
      ((∃ path, ("file", path) ∈ req.files) ↔ sampleOrder.FilePath ≠ "") ∧
      (∀ param path, (param, path) ∈ req.files →
        param = "file" ∧ path = sampleOrder.FilePath) ∧
      req.method = "POST" ∧ req.endpoint = "/orders") ∧
    (CreateOrder.request sampleOrder).files = [] ∧
    (CreateOrder.request bothSourcesOrder).files = [("file", "document.pdf")] :=
  ⟨C10_createOrder_request sampleOrder (by decide), by decide, by decide⟩

/-! ## The error envelope and the in-body check -/

/-- C11: `Error` of an error envelope returns `Detail` when it is non-empty and
`Err.Message` otherwise; the code has no part in the string. -/
theorem C11_errMailform_error (e : ErrMailform) :
    (e.Error = if e.Detail ≠ "" then e.Detail else e.Err.Message) ∧
    (e.Detail ≠ "" → e.Error = e.Detail) ∧
    (e.Detail = "" → e.Error = e.Err.Message) ∧
    (∀ code : String, ErrMailform.Error { e with Err := { e.Err with Code := code } } = e.Error) := by
  refine ⟨rfl, fun h => ?_, fun h => ?_, fun code => rfl⟩
  · simp [ErrMailform.Error, h]
  · simp [ErrMailform.Error, h]

/-- C11 at the envelopes of the tests: with a detail, and without one. -/
theorem C11_errMailform_error_witness :
    ErrMailform.Error ⟨⟨"erroroccurred", "unknown_error"⟩, "Error: Not enough funds (2274:0)"⟩
      = "Error: Not enough funds (2274:0)" ∧
    ErrMailform.Error ⟨⟨"erroroccurred", "not found"⟩, ""⟩ = "not found" :=
  ⟨(C11_errMailform_error
      ⟨⟨"erroroccurred", "unknown_error"⟩, "Error: Not enough funds (2274:0)"⟩).2.1 (by decide),
    by decide⟩

/-- C13: for a body that is not valid JSON, `checkBodyForErr` returns the
syntax error of the decoder as it is: the result is not nil and not an
`*ErrMailform`. -/
theorem C13_checkBodyForErr_invalid_json (b : String) (hinvalid : JSON.parse b = none) :
    checkBodyForErr b = some (GoError.json JsonError.syntaxError) ∧
    checkBodyForErr b ≠ none ∧
    ∀ e : ErrMailform, checkBodyForErr b ≠ some (GoError.mailform e) := by
  have h : checkBodyForErr b = some (GoError.json JsonError.syntaxError) := by
    simp [checkBodyForErr, ErrMailform.Unmarshal, hinvalid]
  refine ⟨h, ?_, fun e => ?_⟩
  · rw [h]
    simp
  · rw [h]
    simp

/-- C13 at the empty body and at a text that is not JSON. -/
theorem C13_checkBodyForErr_invalid_json_witness :
    (checkBodyForErr "" = some (GoError.json JsonError.syntaxError) ∧
      checkBodyForErr "" ≠ none ∧
      ∀ e : ErrMailform, checkBodyForErr "" ≠ some (GoError.mailform e)) ∧
    checkBodyForErr "Not Found" = some (GoError.json JsonError.syntaxError) ∧
    checkBodyForErr "\x7b\"error\":" = some (GoError.json JsonError.syntaxError) :=
  ⟨C13_checkBodyForErr_invalid_json "" rfl, by decide, by decide⟩

/-! ## Decoding an object member by member -/

theorem matchField_of_mem (names : List String) (key : String) (h : key ∈ names) :
    matchField names key = some key := by
  simp [matchField, h]

theorem decodeObject_nil {σ : Type} (names : List String)
    (store : String → JSON → Decoding σ → Decoding σ) (d : Decoding σ) :
    decodeObject names store (JSON.object []) d = d := rfl

theorem decodeObject_cons_none {σ : Type} (names : List String)
    (store : String → JSON → Decoding σ → Decoding σ) (d : Decoding σ)
    (m : String × JSON) (rest : List (String × JSON))
    (h : matchField names (JSON.unquote m.1) = none) :
    decodeObject names store (JSON.object (m :: rest)) d =
      decodeObject names store (JSON.object rest) d := by
  simp only [decodeObject, List.foldl_cons, h]
  split <;> rfl

theorem decodeObject_cons_some {σ : Type} (names : List String)
    (store : String → JSON → Decoding σ → Decoding σ) (d : Decoding σ)
    (m : String × JSON) (rest : List (String × JSON)) (f : String)
    (hd : d.failed = none) (h : matchField names (JSON.unquote m.1) = some f) :
    decodeObject names store (JSON.object (m :: rest)) d =
      decodeObject names store (JSON.object rest) (store f m.2 d) := by
  simp [decodeObject, List.foldl_cons, h, hd]

theorem decodeObject_of_failed {σ : Type} (names : List String)
    (store : String → JSON → Decoding σ → Decoding σ) (members : List (String × JSON))
    (d : Decoding σ) (e : JsonError) (hd : d.failed = some e) :
    decodeObject names store (JSON.object members) d = d := by
  induction members with
  | nil => rfl
  | cons m rest ih =>
    have hstep : decodeObject names store (JSON.object (m :: rest)) d =
        decodeObject names store (JSON.object rest) d := by
      simp [decodeObject, List.foldl_cons, hd]
    rw [hstep, ih]

theorem specMember_cons (m : String × JSON) (rest : List (String × JSON)) (key : String) :
    specMember (m :: rest) key =
      if JSON.unquote m.1 = key then some m.2 else specMember rest key := by
  by_cases h : JSON.unquote m.1 = key <;> simp [specMember, List.find?_cons, h]

theorem specMember_of_not_mem (members : List (String × JSON)) (key : String)
    (h : key ∉ members.map (fun m => JSON.unquote m.1)) : specMember members key = none := by
  induction members with
  | nil => rfl
  | cons m rest ih =>
    simp only [List.map_cons, List.mem_cons, not_or] at h
    have hne : ¬ JSON.unquote m.1 = key := fun e => h.1 e.symm
    rw [specMember_cons, if_neg hne, ih h.2]

theorem specExactKeys_cons (names : List String) (m : String × JSON)
    (rest : List (String × JSON)) (h : specExactKeys names (m :: rest) = true) :
    (JSON.unquote m.1 ∈ names → JSON.unquote m.1 ∉ rest.map (fun m => JSON.unquote m.1)) ∧
      (matchField names (JSON.unquote m.1) = none ∨ JSON.unquote m.1 ∈ names) ∧
      specExactKeys names rest = true := by
  simp only [specExactKeys, List.map_cons, List.all_cons, Bool.and_eq_true,
    decide_eq_true_eq] at h
  obtain ⟨hnodup, hhead, hall⟩ := h
  by_cases hk : JSON.unquote m.1 ∈ names
  · rw [List.filter_cons_of_pos (by simpa using hk), List.nodup_cons] at hnodup
    refine ⟨fun _ hmem => hnodup.1 (List.mem_filter.2 ⟨hmem, by simpa using hk⟩), hhead, ?_⟩
    simp only [specExactKeys, Bool.and_eq_true, decide_eq_true_eq]
    exact ⟨hnodup.2, hall⟩
  · rw [List.filter_cons_of_neg (by simpa using hk)] at hnodup
    refine ⟨fun hmem => absurd hmem hk, hhead, ?_⟩
    simp only [specExactKeys, Bool.and_eq_true, decide_eq_true_eq]
    exact ⟨hnodup, hall⟩

/-- Decoding the members of an `error` object whose keys are written exactly
and once gives the code and the message that the members spell out. -/
theorem decodeObject_errFields (es : List (String × JSON)) (cur : ErrMailformErr)
    (code message : String) (saved : Option JsonError)
    (hkeys : specExactKeys ErrMailformErr.fieldNames es = true)
    (hcode : specStringOr cur.Code (specMember es "code") = some code)
    (hmessage : specStringOr cur.Message (specMember es "message") = some message) :
    decodeObject ErrMailformErr.fieldNames ErrMailformErr.store (JSON.object es)
      ⟨cur, saved, none⟩ = ⟨⟨code, message⟩, saved, none⟩ := by
  induction es generalizing cur with
  | nil =>
    simp only [specMember, List.find?_nil, Option.map_none', specStringOr,
      Option.some.injEq] at hcode hmessage
    subst hcode hmessage
    rfl
  | cons m rest ih =>
    obtain ⟨hnot, hhead, hrest⟩ := specExactKeys_cons _ _ _ hkeys
    obtain ⟨code0, message0⟩ := cur
    rw [specMember_cons] at hcode hmessage
    by_cases hc : JSON.unquote m.1 = "code"
    · have hm : ¬ JSON.unquote m.1 = "message" := by rw [hc]; decide
      rw [if_pos hc] at hcode
      rw [if_neg hm] at hmessage
      have hnone : specMember rest "code" = none :=
        specMember_of_not_mem rest "code" (hc ▸ hnot (by rw [hc]; decide))
      have hmatch : matchField ErrMailformErr.fieldNames (JSON.unquote m.1) = some "code" := by
        rw [hc]; decide
      rw [decodeObject_cons_some _ _ _ _ _ "code" rfl hmatch]
      have hstore : ErrMailformErr.store "code" m.2 ⟨⟨code0, message0⟩, saved, none⟩ =
          ⟨⟨code, message0⟩, saved, none⟩ := by
        cases hv : m.2 <;> rw [hv] at hcode <;>
          simp_all [specStringOr, ErrMailformErr.store, Decoding.storeString]
      rw [hstore]
      exact ih ⟨code, message0⟩ hrest (by simp [hnone, specStringOr]) hmessage
    · by_cases hm : JSON.unquote m.1 = "message"
      · rw [if_neg hc] at hcode
        rw [if_pos hm] at hmessage
        have hnone : specMember rest "message" = none :=
          specMember_of_not_mem rest "message" (hm ▸ hnot (by rw [hm]; decide))
        have hmatch :
            matchField ErrMailformErr.fieldNames (JSON.unquote m.1) = some "message" := by
          rw [hm]; decide
        rw [decodeObject_cons_some _ _ _ _ _ "message" rfl hmatch]
        have hstore : ErrMailformErr.store "message" m.2 ⟨⟨code0, message0⟩, saved, none⟩ =
            ⟨⟨code0, message⟩, saved, none⟩ := by
          cases hv : m.2 <;> rw [hv] at hmessage <;>
            simp_all [specStringOr, ErrMailformErr.store, Decoding.storeString]
        rw [hstore]
        exact ih ⟨code0, message⟩ hrest hcode (by simp [hnone, specStringOr])
      · rw [if_neg hc] at hcode
        rw [if_neg hm] at hmessage
        have hmatch : matchField ErrMailformErr.fieldNames (JSON.unquote m.1) = none := by
          rcases hhead with h | h
          · exact h
          · simp [ErrMailformErr.fieldNames, hc, hm] at h
        rw [decodeObject_cons_none _ _ _ _ _ hmatch]
        exact ih ⟨code0, message0⟩ hrest hcode hmessage

/-- Decoding the members of a body whose keys `error` and `detail` are written
exactly and once
gives the `error` object and the detail that the members spell out. -/
theorem decodeObject_envelopeFields (ms : List (String × JSON)) (cur : ErrMailform)
    (err : ErrMailformErr) (detail : String)
    (hkeys : specExactKeys ErrMailform.fieldNames ms = true)
    (herr : specErr cur.Err (specMember ms "error") = some err)
    (hdetail : specStringOr cur.Detail (specMember ms "detail") = some detail) :
    decodeObject ErrMailform.fieldNames ErrMailform.store (JSON.object ms)
      ⟨cur, none, none⟩ = ⟨⟨err, detail⟩, none, none⟩ := by
  induction ms generalizing cur with
  | nil =>
    simp only [specMember, List.find?_nil, Option.map_none', specStringOr, specErr,
      Option.some.injEq] at herr hdetail
    subst herr hdetail
    rfl
  | cons m rest ih =>
    obtain ⟨hnot, hhead, hrest⟩ := specExactKeys_cons _ _ _ hkeys
    obtain ⟨err0, detail0⟩ := cur
    rw [specMember_cons] at herr hdetail
    by_cases he : JSON.unquote m.1 = "error"
    · have hd : ¬ JSON.unquote m.1 = "detail" := by rw [he]; decide
      rw [if_pos he] at herr
      rw [if_neg hd] at hdetail
      have hnone : specMember rest "error" = none :=
        specMember_of_not_mem rest "error" (he ▸ hnot (by rw [he]; decide))
      have hmatch : matchField ErrMailform.fieldNames (JSON.unquote m.1) = some "error" := by
        rw [he]; decide
      rw [decodeObject_cons_some _ _ _ _ _ "error" rfl hmatch]
      have hstore : ErrMailform.store "error" m.2 ⟨⟨err0, detail0⟩, none, none⟩ =
          ⟨⟨err, detail0⟩, none, none⟩ := by
        cases hv : m.2 with
        | null =>
          rw [hv] at herr
          simp only [specErr, Option.some.injEq] at herr
          subst herr
          simp [ErrMailform.store, Decoding.storeStruct, decodeObject]
        | object es =>
          rw [hv] at herr
          simp only [specErr] at herr
          split at herr
          · rename_i hes
            split at herr
            · rename_i code message hcode hmessage
              simp only [Option.some.injEq] at herr
              subst herr
              simp [ErrMailform.store, Decoding.storeStruct,
                decodeObject_errFields es err0 code message none hes hcode hmessage]
            · simp at herr
          · simp at herr
        | bool b => rw [hv] at herr; simp [specErr] at herr
        | number t => rw [hv] at herr; simp [specErr] at herr
        | string raw => rw [hv] at herr; simp [specErr] at herr
        | array items => rw [hv] at herr; simp [specErr] at herr
      rw [hstore]
      exact ih ⟨err, detail0⟩ hrest (by simp [hnone, specErr]) hdetail
    · by_cases hd : JSON.unquote m.1 = "detail"
      · rw [if_neg he] at herr
        rw [if_pos hd] at hdetail
        have hnone : specMember rest "detail" = none :=
          specMember_of_not_mem rest "detail" (hd ▸ hnot (by rw [hd]; decide))
        have hmatch :
            matchField ErrMailform.fieldNames (JSON.unquote m.1) = some "detail" := by
          rw [hd]; decide
        rw [decodeObject_cons_some _ _ _ _ _ "detail" rfl hmatch]
        have hstore : ErrMailform.store "detail" m.2 ⟨⟨err0, detail0⟩, none, none⟩ =
            ⟨⟨err0, detail⟩, none, none⟩ := by
          cases hv : m.2 <;> rw [hv] at hdetail <;>
            simp_all [specStringOr, ErrMailform.store, Decoding.storeString]
        rw [hstore]
        exact ih ⟨err0, detail⟩ hrest herr (by simp [hnone, specStringOr])
      · rw [if_neg he] at herr
        rw [if_neg hd] at hdetail
        have hmatch : matchField ErrMailform.fieldNames (JSON.unquote m.1) = none := by
          rcases hhead with h | h
          · exact h
          · simp [ErrMailform.fieldNames, he, hd] at h
        rw [decodeObject_cons_none _ _ _ _ _ hmatch]
        exact ih ⟨err0, detail0⟩ hrest herr hdetail

/-- For a body that spells out an envelope, `json.Unmarshal` into the empty
envelope gives that envelope and no error. -/
theorem Unmarshal_of_specEnvelope (b : String) (e : ErrMailform)
    (h : specEnvelope b = some e) : ErrMailform.Unmarshal b {} = (e, none) := by
  unfold specEnvelope at h
  cases hp : JSON.parse b with
  | none => simp [hp] at h
  | some v =>
    rw [hp] at h
    cases v with
    | object ms =>
      simp only [specEnvelopeOf] at h
      split at h
      · rename_i hkeys
        split at h
        · rename_i err detail herr hdetail
          simp only [Option.some.injEq] at h
          subst h
          simp [ErrMailform.Unmarshal, hp,
            decodeObject_envelopeFields ms {} err detail hkeys herr hdetail, Decoding.error]
        · simp at h
      · simp at h
    | null => simp [specEnvelopeOf] at h
    | bool b => simp [specEnvelopeOf] at h
    | number t => simp [specEnvelopeOf] at h
    | string raw => simp [specEnvelopeOf] at h
    | array items => simp [specEnvelopeOf] at h

/-- For a body that spells out an envelope, `checkBodyForErr` returns the
envelope when its message is non-empty, and nil otherwise. -/
theorem checkBodyForErr_of_specEnvelope (b : String) (e : ErrMailform)
    (h : specEnvelope b = some e) :
    checkBodyForErr b = if e.Err.Message ≠ "" then some (GoError.mailform e) else none := by
  simp only [checkBodyForErr, Unmarshal_of_specEnvelope b e h]

/-- C12, as the code has it: for a body that spells out an envelope (a JSON
object with the keys `error`, `detail`, `code` and `message` written exactly
and at most once, other keys being free, in which `error.code`,
`error.message` and `detail` are strings where present) with a non-empty
`error.message`, `checkBodyForErr` returns the `*ErrMailform` with the code,
message and detail of the body, empty when absent. -/
theorem C12_checkBodyForErr_envelope (b : String) (e : ErrMailform)
    (hbody : specEnvelope b = some e) (hmessage : e.Err.Message ≠ "") :
    checkBodyForErr b = some (GoError.mailform e) := by
  rw [checkBodyForErr_of_specEnvelope b e hbody]
  simp [hmessage]

set_option maxRecDepth 100000 in
/-- C12 as amended, at the bodies of the tests `EnsureErrorIsReturnedNotDetailed`
and `EnsureErrorIsReturnedDetailed`, and at a body in which another key is
written twice. -/
theorem C12_checkBodyForErr_envelope_witness :
    checkBodyForErr "\x7b\"error\":\x7b\"code\":\"erroroccurred\",\"message\":\"no_file_uploaded\"\x7d\x7d"
      = some (GoError.mailform ⟨⟨"erroroccurred", "no_file_uploaded"⟩, ""⟩) ∧
    checkBodyForErr detailedErrorBody = some (GoError.mailform
      ⟨⟨"erroroccurred", "unknown_error"⟩, "Error: Not enough funds (2274:0)"⟩) ∧
    checkBodyForErr repeatedKeyBody = some (GoError.mailform ⟨⟨"", "m"⟩, ""⟩) :=
  ⟨C12_checkBodyForErr_envelope
      "\x7b\"error\":\x7b\"code\":\"erroroccurred\",\"message\":\"no_file_uploaded\"\x7d\x7d"
      ⟨⟨"erroroccurred", "no_file_uploaded"⟩, ""⟩ (by decide) (by decide),
    by decide,
    C12_checkBodyForErr_envelope repeatedKeyBody ⟨⟨"", "m"⟩, ""⟩ (by decide) (by decide)⟩

set_option maxRecDepth 100000 in
/-- C12 as stated fails: the body has the non-empty string `m` as its
`error.message`, its `error.code` is the number 5, and `checkBodyForErr`
returns the type error of the decoder, not an `*ErrMailform`. -/
theorem C12_checkBodyForErr_counterexample :
    ¬ (specBodyString numericCodeBody ["error", "message"] = some "m" →
        ∃ e : ErrMailform, checkBodyForErr numericCodeBody = some (GoError.mailform e)) := by
  intro h
  obtain ⟨e, he⟩ := h (by decide)
  have hjson : checkBodyForErr numericCodeBody =
      some (GoError.json (JsonError.unmarshalTypeError "number")) := by decide
  rw [hjson] at he
  simp at he

/-- C14, as the code has it: for a body that spells out an envelope (a JSON
object with the keys `error`, `detail`, `code` and `message` written exactly
and at most once, other keys being free, in which `error.code`,
`error.message` and `detail` are strings where present) without a non-empty
`error.message`, `checkBodyForErr` returns nil. -/
theorem C14_checkBodyForErr_no_message (b : String) (e : ErrMailform)
    (hbody : specEnvelope b = some e) (hmessage : e.Err.Message = "") :
    checkBodyForErr b = none := by
  rw [checkBodyForErr_of_specEnvelope b e hbody]
  simp [hmessage]

set_option maxRecDepth 100000 in
/-- C14 as amended, at the body of the test `EnsureNoErrorIsReturned` (no
error object), at a body with an empty message, at a body with only a detail
and at a body in which another key is written twice. -/
theorem C14_checkBodyForErr_no_message_witness :
    checkBodyForErr someKeyBody = none ∧
    checkBodyForErr "\x7b\"error\":\x7b\"code\":\"c\",\"message\":\"\"\x7d\x7d" = none ∧
    checkBodyForErr "\x7b\"detail\":\"only a detail\"\x7d" = none ∧
    checkBodyForErr repeatedKeyOnlyBody = none :=
  ⟨C14_checkBodyForErr_no_message someKeyBody {} (by decide) rfl, by decide, by decide,
    C14_checkBodyForErr_no_message repeatedKeyOnlyBody {} (by decide) rfl⟩

set_option maxRecDepth 100000 in
/-- C14 as stated fails: the body is valid JSON and has no `error.message`
(its `error` is a string), and `checkBodyForErr` returns the type error of
the decoder, not nil. -/
theorem C14_checkBodyForErr_counterexample :
    ¬ ((JSON.parse stringErrorBody).isSome = true →
        specBodyString stringErrorBody ["error", "message"] = none →
        checkBodyForErr stringErrorBody = none) := by
  intro h
  have hnone := h (by decide) (by decide)
  have hjson : checkBodyForErr stringErrorBody =
      some (GoError.json (JsonError.unmarshalTypeError "string")) := by decide
  rw [hjson] at hnone
  simp at hnone

/-! ## `CreateOrder` and `GetOrder` -/

theorem prepare_of_valid (o : OrderInput) (h : Validate o = none) :
    CreateOrder.prepare o = Except.ok (CreateOrder.request o) := by
  simp [CreateOrder.prepare, h]

theorem Execute_of_notSent (parseTime : String → Option Time) (xml : XMLDecoder)
    (send : RestyClient → Request → Outcome) (c : RestyClient) (r : Request)
    (result : Order) (error : ErrMailform) (message : String)
    (hsend : send c r = Outcome.notSent message) :
    r.Execute parseTime xml send c result error =
      ⟨Except.error (GoError.request message), result, error, []⟩ := by
  simp [Request.Execute, hsend]

theorem Execute_of_failure (parseTime : String → Option Time) (xml : XMLDecoder)
    (send : RestyClient → Request → Outcome) (c : RestyClient) (r : Request)
    (result : Order) (error : ErrMailform) (message : String)
    (hsend : send c r = Outcome.failure message) :
    r.Execute parseTime xml send c result error =
      ⟨Except.error (GoError.transport message), result, error, [(c, r)]⟩ := by
  simp [Request.Execute, hsend]

/-- A body without `<` leaves the target of the XML decoder as it was. -/
theorem XMLDecoder.UnmarshalEnvelope_of_no_element (x : XMLDecoder) (b : String)
    (target : ErrMailform) (h : '<' ∉ b.data) : (x.UnmarshalEnvelope b target).1 = target := by
  simp [XMLDecoder.UnmarshalEnvelope, h]

/-- A body without `<` makes the XML decoder return an error and leave the
target as it was. -/
theorem XMLDecoder.UnmarshalOrder_of_no_element (x : XMLDecoder) (b : String)
    (target : Order) (h : '<' ∉ b.data) :
    x.UnmarshalOrder b target = (target, some (GoError.xml (x.text b))) := by
  simp [XMLDecoder.UnmarshalOrder, h]

/-- A response with a status above 399 leaves the order as it was; the
envelope is decoded when the content type is JSON or XML. -/
theorem Execute_of_isError (parseTime : String → Option Time) (xml : XMLDecoder)
    (send : RestyClient → Request → Outcome) (c : RestyClient) (r : Request)
    (result : Order) (error : ErrMailform) (resp : Response)
    (hsend : send c r = Outcome.response resp) (hstatus : 399 < resp.statusCode) :
    r.Execute parseTime xml send c result error =
      ⟨Except.ok resp, result, errorTarget xml resp error, [(c, r)]⟩ := by
  have h204 : ¬ resp.statusCode = 204 := by omega
  have hsucc : resp.IsSuccess = false := by
    simp only [Response.IsSuccess, Bool.and_eq_false_imp, decide_eq_true_eq, decide_eq_false_iff_not]
    omega
  have herr : resp.IsError = true := by simp [Response.IsError, hstatus]
  by_cases hj : resp.jsonContent = true <;> by_cases hx : resp.xmlContent = true <;>
    simp [Request.Execute, errorTarget, hsend, h204, hsucc, herr, hj, hx]

/-- A response that resty does not decode: status 204, or a content type that
is neither JSON nor XML. -/
theorem Execute_of_not_decoded (parseTime : String → Option Time) (xml : XMLDecoder)
    (send : RestyClient → Request → Outcome) (c : RestyClient) (r : Request)
    (result : Order) (error : ErrMailform) (resp : Response)
    (hsend : send c r = Outcome.response resp)
    (hnot : resp.statusCode = 204 ∨ (resp.jsonContent = false ∧ resp.xmlContent = false)) :
    r.Execute parseTime xml send c result error = ⟨Except.ok resp, result, error, [(c, r)]⟩ := by
  rcases hnot with h | ⟨hj, hx⟩
  · simp [Request.Execute, hsend, h]
  · by_cases h204 : resp.statusCode = 204 <;> simp [Request.Execute, hsend, hj, hx, h204]

/-- A JSON response with a status from 200 to 299, 204 apart, is decoded into
the order. -/
theorem Execute_of_decoded (parseTime : String → Option Time) (xml : XMLDecoder)
    (send : RestyClient → Request → Outcome) (c : RestyClient) (r : Request)
    (result : Order) (error : ErrMailform) (resp : Response)
    (hsend : send c r = Outcome.response resp)
    (hlo : 200 ≤ resp.statusCode) (hhi : resp.statusCode < 300)
    (h204 : resp.statusCode ≠ 204) (hjson : resp.jsonContent = true) :
    r.Execute parseTime xml send c result error =
      ⟨match (Order.Unmarshal parseTime resp.body result).2 with
        | some err => Except.error (GoError.json err)
        | none => Except.ok resp,
        (Order.Unmarshal parseTime resp.body result).1, error, [(c, r)]⟩ := by
  have hsucc : resp.IsSuccess = true := by
    simp only [Response.IsSuccess, Bool.and_eq_true, decide_eq_true_eq]
    omega
  cases hu : Order.Unmarshal parseTime resp.body result with
  | mk order derr =>
    cases derr <;> simp [Request.Execute, hsend, h204, hjson, hsucc, hu]

/-- An XML response with a status from 200 to 299, 204 apart, is decoded into
the order by the XML decoder. -/
theorem Execute_of_xml_decoded (parseTime : String → Option Time) (xml : XMLDecoder)
    (send : RestyClient → Request → Outcome) (c : RestyClient) (r : Request)
    (result : Order) (error : ErrMailform) (resp : Response)
    (hsend : send c r = Outcome.response resp)
    (hlo : 200 ≤ resp.statusCode) (hhi : resp.statusCode < 300)
    (h204 : resp.statusCode ≠ 204) (hjson : resp.jsonContent = false)
    (hxml : resp.xmlContent = true) :
    r.Execute parseTime xml send c result error =
      ⟨match (xml.UnmarshalOrder resp.body result).2 with
        | some err => Except.error err
        | none => Except.ok resp,
        (xml.UnmarshalOrder resp.body result).1, error, [(c, r)]⟩ := by
  have hsucc : resp.IsSuccess = true := by
    simp only [Response.IsSuccess, Bool.and_eq_true, decide_eq_true_eq]
    omega
  cases hu : xml.UnmarshalOrder resp.body result with
  | mk order derr =>
    cases derr <;> simp [Request.Execute, hsend, h204, hjson, hxml, hsucc, hu]

theorem Itoa_StatusUnauthorized : Itoa StatusUnauthorized = "401" := by decide

theorem Itoa_401 : Itoa 401 = "401" := by decide

/-- `CreateOrder` on a request that resty gives up before sending it. -/
theorem CreateOrder_of_notSent (parseTime : String → Option Time) (xml : XMLDecoder)
    (send : RestyClient → Request → Outcome) (c : Client) (o : OrderInput)
    (message : String) (hvalid : Validate o = none)
    (hsend : send c.restClient (CreateOrder.request o) = Outcome.notSent message) :
    CreateOrder parseTime xml send c o = ⟨{}, some (GoError.request message), []⟩ := by
  simp [CreateOrder, prepare_of_valid o hvalid,
    Execute_of_notSent parseTime xml send c.restClient _ _ _ message hsend]

/-- `GetOrder` on a request that resty gives up before sending it. -/
theorem GetOrder_of_notSent (parseTime : String → Option Time) (xml : XMLDecoder)
    (send : RestyClient → Request → Outcome) (c : Client) (id message : String)
    (hsend : send c.restClient (Request.R.Get (ordersEndpoint ++ "/" ++ id)) =
      Outcome.notSent message) :
    GetOrder parseTime xml send c id = ⟨{}, some (GoError.request message), []⟩ := by
  simp [GetOrder, Execute_of_notSent parseTime xml send c.restClient _ _ _ message hsend]

/-- `CreateOrder` on a transport failure. -/
theorem CreateOrder_of_failure (parseTime : String → Option Time) (xml : XMLDecoder)
    (send : RestyClient → Request → Outcome) (c : Client) (o : OrderInput)
    (message : String) (hvalid : Validate o = none)
    (hsend : send c.restClient (CreateOrder.request o) = Outcome.failure message) :
    CreateOrder parseTime xml send c o =
      ⟨{}, some (GoError.transport message), [(c.restClient, CreateOrder.request o)]⟩ := by
  simp [CreateOrder, prepare_of_valid o hvalid,
    Execute_of_failure parseTime xml send c.restClient _ _ _ message hsend]

/-- `GetOrder` on a transport failure. -/
theorem GetOrder_of_failure (parseTime : String → Option Time) (xml : XMLDecoder)
    (send : RestyClient → Request → Outcome) (c : Client) (id message : String)
    (hsend : send c.restClient (Request.R.Get (ordersEndpoint ++ "/" ++ id)) =
      Outcome.failure message) :
    GetOrder parseTime xml send c id =
      ⟨{}, some (GoError.transport message),
        [(c.restClient, Request.R.Get (ordersEndpoint ++ "/" ++ id))]⟩ := by
  simp [GetOrder, Execute_of_failure parseTime xml send c.restClient _ _ _ message hsend]

/-- `CreateOrder` on a response with a status above 399. -/
theorem CreateOrder_of_isError (parseTime : String → Option Time) (xml : XMLDecoder)
    (send : RestyClient → Request → Outcome) (c : Client) (o : OrderInput)
    (resp : Response) (hvalid : Validate o = none)
    (hsend : send c.restClient (CreateOrder.request o) = Outcome.response resp)
    (hstatus : 399 < resp.statusCode) :
    CreateOrder parseTime xml send c o =
      ⟨{}, some (GoError.mailform
          (if resp.statusCode = 401 then ⟨⟨"401", "unauthorized"⟩, ""⟩
            else errorTarget xml resp {})),
        [(c.restClient, CreateOrder.request o)]⟩ := by
  have herr : resp.IsError = true := by simp [Response.IsError, hstatus]
  by_cases h401 : resp.statusCode = 401
  · simp [CreateOrder, prepare_of_valid o hvalid,
      Execute_of_isError parseTime xml send c.restClient _ _ _ resp hsend hstatus,
      StatusUnauthorized, h401, Itoa_401]
  · simp [CreateOrder, prepare_of_valid o hvalid,
      Execute_of_isError parseTime xml send c.restClient _ _ _ resp hsend hstatus,
      StatusUnauthorized, h401, herr]

/-- `GetOrder` on a response with a status above 399. -/
theorem GetOrder_of_isError (parseTime : String → Option Time) (xml : XMLDecoder)
    (send : RestyClient → Request → Outcome) (c : Client) (id : String)
    (resp : Response)
    (hsend : send c.restClient (Request.R.Get (ordersEndpoint ++ "/" ++ id)) =
      Outcome.response resp)
    (hstatus : 399 < resp.statusCode) :
    GetOrder parseTime xml send c id =
      ⟨{}, some (GoError.mailform
          (if resp.statusCode = 401 then ⟨⟨"401", "unauthorized"⟩, ""⟩
            else errorTarget xml resp {})),
        [(c.restClient, Request.R.Get (ordersEndpoint ++ "/" ++ id))]⟩ := by
  have herr : resp.IsError = true := by simp [Response.IsError, hstatus]
  by_cases h401 : resp.statusCode = 401
  · simp [GetOrder,
      Execute_of_isError parseTime xml send c.restClient _ _ _ resp hsend hstatus,
      StatusUnauthorized, h401, Itoa_401]
  · simp [GetOrder,
      Execute_of_isError parseTime xml send c.restClient _ _ _ resp hsend hstatus,
      StatusUnauthorized, h401, herr]

/-- `CreateOrder` on a response with a status from 200 to 299 that resty does
not decode. -/
theorem CreateOrder_of_success_not_decoded (parseTime : String → Option Time)
    (xml : XMLDecoder)
    (send : RestyClient → Request → Outcome) (c : Client) (o : OrderInput)
    (resp : Response) (hvalid : Validate o = none)
    (hsend : send c.restClient (CreateOrder.request o) = Outcome.response resp)
    (hlo : 200 ≤ resp.statusCode) (hhi : resp.statusCode < 300)
    (hnot : resp.statusCode = 204 ∨ (resp.jsonContent = false ∧ resp.xmlContent = false)) :
    CreateOrder parseTime xml send c o =
      ⟨{}, checkBodyForErr resp.body, [(c.restClient, CreateOrder.request o)]⟩ := by
  have h401 : ¬ resp.statusCode = 401 := by omega
  have herr : resp.IsError = false := by
    simp only [Response.IsError, decide_eq_false_iff_not]
    omega
  cases hcheck : checkBodyForErr resp.body <;>
    simp [CreateOrder, prepare_of_valid o hvalid,
      Execute_of_not_decoded parseTime xml send c.restClient _ _ _ resp hsend hnot,
      StatusUnauthorized, h401, herr, hcheck]

/-- `GetOrder` on a response with a status from 200 to 299 that resty does not
decode. -/
theorem GetOrder_of_success_not_decoded (parseTime : String → Option Time)
    (xml : XMLDecoder)
    (send : RestyClient → Request → Outcome) (c : Client) (id : String)
    (resp : Response)
    (hsend : send c.restClient (Request.R.Get (ordersEndpoint ++ "/" ++ id)) =
      Outcome.response resp)
    (hlo : 200 ≤ resp.statusCode) (hhi : resp.statusCode < 300)
    (hnot : resp.statusCode = 204 ∨ (resp.jsonContent = false ∧ resp.xmlContent = false)) :
    GetOrder parseTime xml send c id =
      ⟨{}, checkBodyForErr resp.body,
        [(c.restClient, Request.R.Get (ordersEndpoint ++ "/" ++ id))]⟩ := by
  have h401 : ¬ resp.statusCode = 401 := by omega
  have herr : resp.IsError = false := by
    simp only [Response.IsError, decide_eq_false_iff_not]
    omega
  cases hcheck : checkBodyForErr resp.body <;>
    simp [GetOrder,
      Execute_of_not_decoded parseTime xml send c.restClient _ _ _ resp hsend hnot,
      StatusUnauthorized, h401, herr, hcheck]

/-- `CreateOrder` on a JSON response with a status from 200 to 299, 204
apart: the order is the one decoded from the body, and the error is the error
of that decoding or else the result of the in-body check. -/
theorem CreateOrder_of_success_decoded (parseTime : String → Option Time)
    (xml : XMLDecoder)
    (send : RestyClient → Request → Outcome) (c : Client) (o : OrderInput)
    (resp : Response) (hvalid : Validate o = none)
    (hsend : send c.restClient (CreateOrder.request o) = Outcome.response resp)
    (hlo : 200 ≤ resp.statusCode) (hhi : resp.statusCode < 300)
    (h204 : resp.statusCode ≠ 204) (hjson : resp.jsonContent = true) :
    CreateOrder parseTime xml send c o =
      ⟨(Order.Unmarshal parseTime resp.body {}).1,
        match (Order.Unmarshal parseTime resp.body {}).2 with
        | some err => some (GoError.json err)
        | none => checkBodyForErr resp.body,
        [(c.restClient, CreateOrder.request o)]⟩ := by
  have h401 : ¬ resp.statusCode = 401 := by omega
  have herr : resp.IsError = false := by
    simp only [Response.IsError, decide_eq_false_iff_not]
    omega
  cases hu : (Order.Unmarshal parseTime resp.body {}).2 with
  | some err =>
    simp [CreateOrder, prepare_of_valid o hvalid,
      Execute_of_decoded parseTime xml send c.restClient _ _ _ resp hsend hlo hhi h204 hjson, hu]
  | none =>
    cases hcheck : checkBodyForErr resp.body <;>
      simp [CreateOrder, prepare_of_valid o hvalid,
        Execute_of_decoded parseTime xml send c.restClient _ _ _ resp hsend hlo hhi h204 hjson,
        hu, StatusUnauthorized, h401, herr, hcheck]

/-- `GetOrder` on a JSON response with a status from 200 to 299, 204 apart. -/
theorem GetOrder_of_success_decoded (parseTime : String → Option Time)
    (xml : XMLDecoder)
    (send : RestyClient → Request → Outcome) (c : Client) (id : String)
    (resp : Response)
    (hsend : send c.restClient (Request.R.Get (ordersEndpoint ++ "/" ++ id)) =
      Outcome.response resp)
    (hlo : 200 ≤ resp.statusCode) (hhi : resp.statusCode < 300)
    (h204 : resp.statusCode ≠ 204) (hjson : resp.jsonContent = true) :
    GetOrder parseTime xml send c id =
      ⟨(Order.Unmarshal parseTime resp.body {}).1,
        match (Order.Unmarshal parseTime resp.body {}).2 with
        | some err => some (GoError.json err)
        | none => checkBodyForErr resp.body,
        [(c.restClient, Request.R.Get (ordersEndpoint ++ "/" ++ id))]⟩ := by
  have h401 : ¬ resp.statusCode = 401 := by omega
  have herr : resp.IsError = false := by
    simp only [Response.IsError, decide_eq_false_iff_not]
    omega
  cases hu : (Order.Unmarshal parseTime resp.body {}).2 with
  | some err =>
    simp [GetOrder,
      Execute_of_decoded parseTime xml send c.restClient _ _ _ resp hsend hlo hhi h204 hjson, hu]
  | none =>
    cases hcheck : checkBodyForErr resp.body <;>
      simp [GetOrder,
        Execute_of_decoded parseTime xml send c.restClient _ _ _ resp hsend hlo hhi h204 hjson,
        hu, StatusUnauthorized, h401, herr, hcheck]

/-- `CreateOrder` on an XML response with a status from 200 to 299, 204 apart:
the order is the one that the XML decoder left, and the error is the error of
that decoding or else the result of the in-body check. -/
theorem CreateOrder_of_success_xml_decoded (parseTime : String → Option Time)
    (xml : XMLDecoder)
    (send : RestyClient → Request → Outcome) (c : Client) (o : OrderInput)
    (resp : Response) (hvalid : Validate o = none)
    (hsend : send c.restClient (CreateOrder.request o) = Outcome.response resp)
    (hlo : 200 ≤ resp.statusCode) (hhi : resp.statusCode < 300)
    (h204 : resp.statusCode ≠ 204) (hjson : resp.jsonContent = false)
    (hxml : resp.xmlContent = true) :
    CreateOrder parseTime xml send c o =
      ⟨(xml.UnmarshalOrder resp.body {}).1,
        match (xml.UnmarshalOrder resp.body {}).2 with
        | some err => some err
        | none => checkBodyForErr resp.body,
        [(c.restClient, CreateOrder.request o)]⟩ := by
  have h401 : ¬ resp.statusCode = 401 := by omega
  have herr : resp.IsError = false := by
    simp only [Response.IsError, decide_eq_false_iff_not]
    omega
  cases hu : (xml.UnmarshalOrder resp.body {}).2 with
  | some err =>
    simp [CreateOrder, prepare_of_valid o hvalid,
      Execute_of_xml_decoded parseTime xml send c.restClient _ _ _ resp hsend hlo hhi h204
        hjson hxml, hu]
  | none =>
    cases hcheck : checkBodyForErr resp.body <;>
      simp [CreateOrder, prepare_of_valid o hvalid,
        Execute_of_xml_decoded parseTime xml send c.restClient _ _ _ resp hsend hlo hhi h204
          hjson hxml, hu, StatusUnauthorized, h401, herr, hcheck]

/-- `GetOrder` on an XML response with a status from 200 to 299, 204 apart. -/
theorem GetOrder_of_success_xml_decoded (parseTime : String → Option Time)
    (xml : XMLDecoder)
    (send : RestyClient → Request → Outcome) (c : Client) (id : String)
    (resp : Response)
    (hsend : send c.restClient (Request.R.Get (ordersEndpoint ++ "/" ++ id)) =
      Outcome.response resp)
    (hlo : 200 ≤ resp.statusCode) (hhi : resp.statusCode < 300)
    (h204 : resp.statusCode ≠ 204) (hjson : resp.jsonContent = false)
    (hxml : resp.xmlContent = true) :
    GetOrder parseTime xml send c id =
      ⟨(xml.UnmarshalOrder resp.body {}).1,
        match (xml.UnmarshalOrder resp.body {}).2 with
        | some err => some err
        | none => checkBodyForErr resp.body,
        [(c.restClient, Request.R.Get (ordersEndpoint ++ "/" ++ id))]⟩ := by
  have h401 : ¬ resp.statusCode = 401 := by omega
  have herr : resp.IsError = false := by
    simp only [Response.IsError, decide_eq_false_iff_not]
    omega
  cases hu : (xml.UnmarshalOrder resp.body {}).2 with
  | some err =>
    simp [GetOrder,
      Execute_of_xml_decoded parseTime xml send c.restClient _ _ _ resp hsend hlo hhi h204
        hjson hxml, hu]
  | none =>
    cases hcheck : checkBodyForErr resp.body <;>
      simp [GetOrder,
        Execute_of_xml_decoded parseTime xml send c.restClient _ _ _ resp hsend hlo hhi h204
          hjson hxml, hu, StatusUnauthorized, h401, herr, hcheck]

/-- C15: for an input that `Validate` rejects, `CreateOrder` returns exactly
the error of `Validate`, with the empty order, and issues no HTTP request. -/
theorem C15_createOrder_validation_error (parseTime : String → Option Time) (xml : XMLDecoder)
    (send : RestyClient → Request → Outcome) (c : Client) (o : OrderInput)
    (err : ErrOrderInvalid) (hinvalid : Validate o = some err) :
    CreateOrder parseTime xml send c o = ⟨{}, some (GoError.orderInvalid err), []⟩ := by
  simp [CreateOrder, CreateOrder.prepare, hinvalid]

set_option maxRecDepth 100000 in
/-- C15 at the input of scenario 4: a supported service and no other field. -/
theorem C15_createOrder_validation_error_witness :
    CreateOrder sampleParseTime sampleXML (respondWith ⟨200, true, false, sampleOrderBody⟩) sampleClient
        { Service := "USPS_STANDARD" } =
      ⟨{}, some (GoError.orderInvalid ⟨"ToName not provided, but is required"⟩), []⟩ :=
  C15_createOrder_validation_error sampleParseTime sampleXML (respondWith ⟨200, true, false, sampleOrderBody⟩)
    sampleClient { Service := "USPS_STANDARD" } ⟨"ToName not provided, but is required"⟩
    (by decide)

/-- C16: on a response with status 401, whatever its body, `CreateOrder` (for
an input that passes `Validate`) and `GetOrder` return the `*ErrMailform` with
code `401`, message `unauthorized` and no detail, whose `Error` is
`unauthorized`. -/
theorem C16_unauthorized (parseTime : String → Option Time) (xml : XMLDecoder)
    (send : RestyClient → Request → Outcome) (c : Client) (o : OrderInput) (id : String)
    (resp : Response) (hstatus : resp.statusCode = 401) (hvalid : Validate o = none)
    (hpost : send c.restClient (CreateOrder.request o) = Outcome.response resp)
    (hget : send c.restClient (Request.R.Get (ordersEndpoint ++ "/" ++ id)) =
      Outcome.response resp) :
    (CreateOrder parseTime xml send c o).err =
        some (GoError.mailform ⟨⟨"401", "unauthorized"⟩, ""⟩) ∧
      (GetOrder parseTime xml send c id).err =
        some (GoError.mailform ⟨⟨"401", "unauthorized"⟩, ""⟩) ∧
      ErrMailform.Error ⟨⟨"401", "unauthorized"⟩, ""⟩ = "unauthorized" := by
  have h399 : 399 < resp.statusCode := by omega
  refine ⟨?_, ?_, by decide⟩
  · rw [CreateOrder_of_isError parseTime xml send c o resp hvalid hpost h399]
    simp [hstatus]
  · rw [GetOrder_of_isError parseTime xml send c id resp hget h399]
    simp [hstatus]

set_option maxRecDepth 100000 in
/-- C16 at a 401 response whose body is an error envelope of its own. -/
theorem C16_unauthorized_witness :
    (CreateOrder sampleParseTime sampleXML (respondWith ⟨401, true, false, detailedErrorBody⟩) sampleClient
        sampleOrder).err = some (GoError.mailform ⟨⟨"401", "unauthorized"⟩, ""⟩) ∧
      (GetOrder sampleParseTime sampleXML (respondWith ⟨401, true, false, detailedErrorBody⟩) sampleClient
        "someID").err = some (GoError.mailform ⟨⟨"401", "unauthorized"⟩, ""⟩) ∧
      ErrMailform.Error ⟨⟨"401", "unauthorized"⟩, ""⟩ = "unauthorized" :=
  C16_unauthorized sampleParseTime sampleXML (respondWith ⟨401, true, false, detailedErrorBody⟩) sampleClient
    sampleOrder "someID" ⟨401, true, false, detailedErrorBody⟩ rfl (by decide) rfl rfl

/-- C17, as the code has it: on a response with a status of 400 or more other
than 401, `CreateOrder` (for an input that passes `Validate`) and `GetOrder`
return as error the envelope that resty holds for the response, always a
non-nil `*ErrMailform`, with the empty order and without running the in-body
check: the envelope decoded from the body when the content type of the
response is JSON (the code, message and detail of a body that spells out an
envelope); the envelope as the XML decoder left it when the content type is
XML and not JSON (the empty envelope for a body without an element); and the
empty envelope otherwise. -/
theorem C17_http_error_envelope (parseTime : String → Option Time) (xml : XMLDecoder)
    (send : RestyClient → Request → Outcome) (c : Client) (o : OrderInput) (id : String)
    (resp : Response) (hstatus : 400 ≤ resp.statusCode) (h401 : resp.statusCode ≠ 401)
    (hvalid : Validate o = none)
    (hpost : send c.restClient (CreateOrder.request o) = Outcome.response resp)
    (hget : send c.restClient (Request.R.Get (ordersEndpoint ++ "/" ++ id)) =
      Outcome.response resp) :
    ∃ e : ErrMailform,
      CreateOrder parseTime xml send c o =
        ⟨{}, some (GoError.mailform e), [(c.restClient, CreateOrder.request o)]⟩ ∧
      GetOrder parseTime xml send c id =
        ⟨{}, some (GoError.mailform e),
          [(c.restClient, Request.R.Get (ordersEndpoint ++ "/" ++ id))]⟩ ∧
      (resp.jsonContent = true → e = (ErrMailform.Unmarshal resp.body {}).1) ∧
      (resp.jsonContent = true → ∀ e' : ErrMailform, specEnvelope resp.body = some e' → e = e') ∧
      (resp.jsonContent = false → resp.xmlContent = true →
        e = (xml.UnmarshalEnvelope resp.body {}).1) ∧
      (resp.jsonContent = false → resp.xmlContent = true → '<' ∉ resp.body.data → e = {}) ∧
      (resp.jsonContent = false → resp.xmlContent = false → e = {}) := by
  have h399 : 399 < resp.statusCode := by omega
  refine ⟨errorTarget xml resp {}, ?_, ?_, fun hj => ?_, fun hj e' he' => ?_, fun hj hx => ?_,
    fun hj hx hb => ?_, fun hj hx => ?_⟩
  · rw [CreateOrder_of_isError parseTime xml send c o resp hvalid hpost h399]
    simp [h401]
  · rw [GetOrder_of_isError parseTime xml send c id resp hget h399]
    simp [h401]
  · simp [errorTarget, hj]
  · simp [errorTarget, hj, Unmarshal_of_specEnvelope resp.body e' he']
  · simp [errorTarget, hj, hx]
  · simp [errorTarget, hj, hx, XMLDecoder.UnmarshalEnvelope_of_no_element xml resp.body {} hb]
  · simp [errorTarget, hj, hx]

set_option maxRecDepth 100000 in
/-- C17 as amended, at a 500 response with a JSON content type and an error
envelope as body; a 503 response with a text body gives the empty envelope,
not a syntax error, and so does a 500 response with an XML content type whose
body is the JSON of an envelope. -/
theorem C17_http_error_envelope_witness :
    (CreateOrder sampleParseTime sampleXML (respondWith ⟨500, true, false, plainErrorBody⟩)
        sampleClient sampleOrder).err =
          some (GoError.mailform ⟨⟨"erroroccurred", "not found"⟩, ""⟩) ∧
      (GetOrder sampleParseTime sampleXML (respondWith ⟨503, false, false, "Service Unavailable"⟩)
        sampleClient "someID").err = some (GoError.mailform {}) ∧
      (GetOrder sampleParseTime sampleXML (respondWith ⟨500, false, true, plainErrorBody⟩)
        sampleClient "someID").err = some (GoError.mailform {}) := by
  obtain ⟨e, hcreate, -, -, hspec, -⟩ :=
    C17_http_error_envelope sampleParseTime sampleXML
      (respondWith ⟨500, true, false, plainErrorBody⟩) sampleClient sampleOrder "someID"
      ⟨500, true, false, plainErrorBody⟩ (by decide) (by decide) (by decide) rfl rfl
  refine ⟨?_, by decide, by decide⟩
  rw [hcreate, hspec rfl ⟨⟨"erroroccurred", "not found"⟩, ""⟩ (by decide)]

set_option maxRecDepth 100000 in
/-- C17 as stated fails: a 500 response with a content type that is neither
JSON nor XML, whose body
spells out an envelope with the message `not found`; the error returned is the
empty envelope, not the envelope of the body. -/
theorem C17_http_error_envelope_counterexample :
    ¬ (specEnvelope plainErrorBody = some ⟨⟨"erroroccurred", "not found"⟩, ""⟩ →
        (GetOrder sampleParseTime sampleXML (respondWith ⟨500, false, false, plainErrorBody⟩) sampleClient
          "someID").err = some (GoError.mailform ⟨⟨"erroroccurred", "not found"⟩, ""⟩)) := by
  intro h
  have hcode := h (by decide)
  have hempty : (GetOrder sampleParseTime sampleXML (respondWith ⟨500, false, false, plainErrorBody⟩)
      sampleClient "someID").err = some (GoError.mailform {}) := by decide
  rw [hempty] at hcode
  exact absurd hcode (by decide)

/-- C18, as the code has it: on a response with a status from 200 to 299 whose
body spells out an envelope with a non-empty `error.message` (and which, when
resty decodes it into the order, by the JSON decoder for a JSON content type
and by the XML decoder for an XML one, decodes without error), `CreateOrder`
(for an input that passes `Validate`) and `GetOrder` return that envelope as an
`*ErrMailform`, whose `Error` is the detail of the body when it is non-empty
and its `error.message` otherwise. -/
theorem C18_in_body_error (parseTime : String → Option Time) (xml : XMLDecoder)
    (send : RestyClient → Request → Outcome) (c : Client) (o : OrderInput) (id : String)
    (resp : Response) (e : ErrMailform)
    (hlo : 200 ≤ resp.statusCode) (hhi : resp.statusCode < 300)
    (hbody : specEnvelope resp.body = some e) (hmessage : e.Err.Message ≠ "")
    (hdecode : resp.jsonContent = true → resp.statusCode ≠ 204 →
      (Order.Unmarshal parseTime resp.body {}).2 = none)
    (hdecodeXML : resp.jsonContent = false → resp.xmlContent = true →
      resp.statusCode ≠ 204 → (xml.UnmarshalOrder resp.body {}).2 = none)
    (hvalid : Validate o = none)
    (hpost : send c.restClient (CreateOrder.request o) = Outcome.response resp)
    (hget : send c.restClient (Request.R.Get (ordersEndpoint ++ "/" ++ id)) =
      Outcome.response resp) :
    (CreateOrder parseTime xml send c o).err = some (GoError.mailform e) ∧
      (GetOrder parseTime xml send c id).err = some (GoError.mailform e) ∧
      e.Error = (if e.Detail ≠ "" then e.Detail else e.Err.Message) := by
  have hcheck : checkBodyForErr resp.body = some (GoError.mailform e) := by
    rw [checkBodyForErr_of_specEnvelope resp.body e hbody]
    simp [hmessage]
  by_cases h204 : resp.statusCode = 204
  · have hnot : resp.statusCode = 204 ∨ (resp.jsonContent = false ∧ resp.xmlContent = false) :=
      Or.inl h204
    refine ⟨?_, ?_, rfl⟩
    · rw [CreateOrder_of_success_not_decoded parseTime xml send c o resp hvalid hpost hlo hhi
        hnot]
      exact hcheck
    · rw [GetOrder_of_success_not_decoded parseTime xml send c id resp hget hlo hhi hnot]
      exact hcheck
  cases hj : resp.jsonContent with
  | true =>
    have hu := hdecode hj h204
    refine ⟨?_, ?_, rfl⟩
    · rw [CreateOrder_of_success_decoded parseTime xml send c o resp hvalid hpost hlo hhi h204
        hj]
      simp [hu, hcheck]
    · rw [GetOrder_of_success_decoded parseTime xml send c id resp hget hlo hhi h204 hj]
      simp [hu, hcheck]
  | false =>
    cases hx : resp.xmlContent with
    | true =>
      have hu := hdecodeXML hj hx h204
      refine ⟨?_, ?_, rfl⟩
      · rw [CreateOrder_of_success_xml_decoded parseTime xml send c o resp hvalid hpost hlo hhi
          h204 hj hx]
        simp [hu, hcheck]
      · rw [GetOrder_of_success_xml_decoded parseTime xml send c id resp hget hlo hhi h204 hj
          hx]
        simp [hu, hcheck]
    | false =>
      have hnot : resp.statusCode = 204 ∨
          (resp.jsonContent = false ∧ resp.xmlContent = false) := Or.inr ⟨hj, hx⟩
      refine ⟨?_, ?_, rfl⟩
      · rw [CreateOrder_of_success_not_decoded parseTime xml send c o resp hvalid hpost hlo hhi
          hnot]
        exact hcheck
      · rw [GetOrder_of_success_not_decoded parseTime xml send c id resp hget hlo hhi hnot]
        exact hcheck

set_option maxRecDepth 100000 in
/-- C18 as amended, at the responses of `TestCreateOrderError` and
`TestGetOrderError`: the detail is surfaced when there is one, the message
otherwise. -/
theorem C18_in_body_error_witness :
    ((CreateOrder sampleParseTime sampleXML (respondWith ⟨200, false, false, detailedErrorBody⟩)
        sampleClient sampleOrder).err = some (GoError.mailform
          ⟨⟨"erroroccurred", "unknown_error"⟩, "Error: Not enough funds (2274:0)"⟩) ∧
      (GetOrder sampleParseTime sampleXML (respondWith ⟨200, false, false, detailedErrorBody⟩)
        sampleClient "someID").err = some (GoError.mailform
          ⟨⟨"erroroccurred", "unknown_error"⟩, "Error: Not enough funds (2274:0)"⟩) ∧
      ErrMailform.Error
          ⟨⟨"erroroccurred", "unknown_error"⟩, "Error: Not enough funds (2274:0)"⟩ =
        (if "Error: Not enough funds (2274:0)" ≠ "" then "Error: Not enough funds (2274:0)"
          else "unknown_error")) ∧
    (GetOrder sampleParseTime sampleXML (respondWith ⟨200, false, false, plainErrorBody⟩)
        sampleClient "someID").err =
          some (GoError.mailform ⟨⟨"erroroccurred", "not found"⟩, ""⟩) ∧
    ErrMailform.Error ⟨⟨"erroroccurred", "not found"⟩, ""⟩ = "not found" ∧
    (GetOrder sampleParseTime sampleXML (respondWith ⟨200, false, true, plainErrorBody⟩)
        sampleClient "someID").err = some (GoError.xml "EOF") :=
  ⟨C18_in_body_error sampleParseTime sampleXML
      (respondWith ⟨200, false, false, detailedErrorBody⟩)
      sampleClient sampleOrder "someID" ⟨200, false, false, detailedErrorBody⟩
      ⟨⟨"erroroccurred", "unknown_error"⟩, "Error: Not enough funds (2274:0)"⟩
      (by decide) (by decide) (by decide) (by decide) (by intro h; cases h)
      (by intro _ h; cases h) (by decide) rfl rfl,
    by decide, by decide, by decide⟩

set_option maxRecDepth 100000 in
/-- C18 as stated fails: a 200 response whose body is a JSON object with the
non-empty `error.message` `m` and a number as `error.code`; the error returned
is the type error of the decoder, not an `*ErrMailform`. -/
theorem C18_in_body_error_counterexample :
    ¬ (specBodyString numericCodeBody ["error", "message"] = some "m" →
        ∃ e : ErrMailform,
          (GetOrder sampleParseTime sampleXML (respondWith ⟨200, false, false, numericCodeBody⟩) sampleClient
            "someID").err = some (GoError.mailform e)) := by
  intro h
  obtain ⟨e, he⟩ := h (by decide)
  have hjson : (GetOrder sampleParseTime sampleXML (respondWith ⟨200, false, false, numericCodeBody⟩)
      sampleClient "someID").err =
        some (GoError.json (JsonError.unmarshalTypeError "number")) := by decide
  rw [hjson] at he
  simp at he

/-! ## One field of a decoded object -/

theorem Decoding.saveError_value {σ : Type} (d : Decoding σ) (e : JsonError) :
    (d.saveError e).value = d.value := by
  unfold Decoding.saveError
  split <;> rfl

theorem Decoding.saveError_failed {σ : Type} (d : Decoding σ) (e : JsonError) :
    (d.saveError e).failed = d.failed := by
  unfold Decoding.saveError
  split <;> rfl

theorem specKeyOnce_cons (names : List String) (f : String) (m : String × JSON)
    (rest : List (String × JSON)) (h : specKeyOnce names f (m :: rest) = true) :
    (matchField names (JSON.unquote m.1) = some f → JSON.unquote m.1 = f) ∧
      specKeyOnce names f rest = true ∧
      (JSON.unquote m.1 = f → ∀ m' ∈ rest, JSON.unquote m'.1 ≠ f) := by
  simp only [specKeyOnce, List.all_cons, Bool.and_eq_true, decide_eq_true_eq] at h
  obtain ⟨⟨hhead, hall⟩, hlen⟩ := h
  by_cases hk : JSON.unquote m.1 = f
  · have hfilter : (rest.filter (fun m => decide (JSON.unquote m.1 = f))).length = 0 := by
      simp only [List.filter_cons, hk, decide_True, if_true, List.length_cons] at hlen
      omega
    refine ⟨hhead, ?_, fun _ m' hm' hm'k => ?_⟩
    · simp only [specKeyOnce, Bool.and_eq_true, decide_eq_true_eq]
      exact ⟨hall, by omega⟩
    · have hmem : m' ∈ rest.filter (fun m => decide (JSON.unquote m.1 = f)) := by
        simp [List.mem_filter, hm', hm'k]
      rw [List.length_eq_zero] at hfilter
      rw [hfilter] at hmem
      simp at hmem
  · refine ⟨hhead, ?_, fun h => absurd h hk⟩
    simp only [List.filter_cons, hk, decide_False, Bool.false_eq_true, if_false] at hlen
    simp only [specKeyOnce, Bool.and_eq_true, decide_eq_true_eq]
    exact ⟨hall, hlen⟩

/-- Members that are not stored in the field `f` leave what `P` reads of the
value as it is. -/
theorem decodeObject_project_absent {σ α : Type} (names : List String)
    (store : String → JSON → Decoding σ → Decoding σ) (P : σ → α) (f : String)
    (hg : ∀ g v d, g ≠ f → P (store g v d).value = P d.value)
    (ms : List (String × JSON)) (d : Decoding σ)
    (habsent : ∀ m ∈ ms, matchField names (JSON.unquote m.1) ≠ some f) :
    P (decodeObject names store (JSON.object ms) d).value = P d.value := by
  induction ms generalizing d with
  | nil => rfl
  | cons m rest ih =>
    have hrest : ∀ m' ∈ rest, matchField names (JSON.unquote m'.1) ≠ some f :=
      fun m' hm' => habsent m' (List.mem_cons_of_mem _ hm')
    cases hd : d.failed with
    | some e => rw [decodeObject_of_failed names store _ d e hd]
    | none =>
      cases hmatch : matchField names (JSON.unquote m.1) with
      | none =>
        rw [decodeObject_cons_none names store d m rest hmatch]
        exact ih d hrest
      | some g =>
        have hgf : g ≠ f := by
          intro hgf
          exact habsent m (List.mem_cons_self _ _) (hgf ▸ hmatch)
        rw [decodeObject_cons_some names store d m rest g hd hmatch, ih _ hrest]
        exact hg g m.2 d hgf

/-- What `P` reads of a decoded object after a decoding that was not stopped:
the member with the key `f`, written exactly and once, stored over what `P`
read before; and what `P` read before when there is no such member. -/
theorem decodeObject_project {σ α : Type} (names : List String)
    (store : String → JSON → Decoding σ → Decoding σ) (P : σ → α) (f : String)
    (upd : JSON → α → α) (R : JSON → Prop) (hmem : f ∈ names)
    (hf : ∀ v d, R v → d.failed = none → (store f v d).failed = none →
      P (store f v d).value = upd v (P d.value))
    (hg : ∀ g v d, g ≠ f → P (store g v d).value = P d.value)
    (ms : List (String × JSON)) (d : Decoding σ)
    (hR : ∀ v, specMember ms f = some v → R v)
    (hkey : specKeyOnce names f ms = true)
    (hok : (decodeObject names store (JSON.object ms) d).failed = none) :
    P (decodeObject names store (JSON.object ms) d).value =
      match specMember ms f with
      | some v => upd v (P d.value)
      | none => P d.value := by
  induction ms generalizing d with
  | nil => rfl
  | cons m rest ih =>
    obtain ⟨hhead, hrest, hone⟩ := specKeyOnce_cons names f m rest hkey
    have hd : d.failed = none := by
      cases hd : d.failed with
      | none => rfl
      | some e =>
        rw [decodeObject_of_failed names store _ d e hd, hd] at hok
        exact absurd hok (by simp)
    cases hmatch : matchField names (JSON.unquote m.1) with
    | none =>
      have hne : ¬ JSON.unquote m.1 = f := by
        intro hk
        rw [hk, matchField_of_mem names f hmem] at hmatch
        exact absurd hmatch (by simp)
      rw [decodeObject_cons_none names store d m rest hmatch] at hok ⊢
      rw [specMember_cons, if_neg hne]
      refine ih d (fun v hv => hR v ?_) hrest hok
      rw [specMember_cons, if_neg hne]
      exact hv
    | some g =>
      rw [decodeObject_cons_some names store d m rest g hd hmatch] at hok ⊢
      by_cases hgf : g = f
      · subst hgf
        have hk : JSON.unquote m.1 = g := hhead hmatch
        have habsent : ∀ m' ∈ rest, matchField names (JSON.unquote m'.1) ≠ some g := by
          intro m' hm' hm'match
          have hm'once := (List.all_eq_true.1
            (by
              simp only [specKeyOnce, Bool.and_eq_true] at hrest
              exact hrest.1)) m' hm'
          simp only [decide_eq_true_eq] at hm'once
          exact hone hk m' hm' (hm'once hm'match)
        have hstored : (store g m.2 d).failed = none := by
          cases hs : (store g m.2 d).failed with
          | none => rfl
          | some e =>
            rw [decodeObject_of_failed names store _ _ e hs, hs] at hok
            exact absurd hok (by simp)
        rw [decodeObject_project_absent names store P g hg rest _ habsent,
          specMember_cons, if_pos hk]
        exact hf m.2 d (hR m.2 (by rw [specMember_cons, if_pos hk])) hd hstored
      · have hne : ¬ JSON.unquote m.1 = f := by
          intro hk
          rw [hk, matchField_of_mem names f hmem] at hmatch
          exact hgf (Option.some.inj hmatch).symm
        rw [specMember_cons, if_neg hne]
        have hih := ih (store g m.2 d) (fun v hv => hR v (by
          rw [specMember_cons, if_neg hne]
          exact hv)) hrest hok
        rw [hih, hg g m.2 d hgf]

theorem Decoding.storeString_project {σ α : Type} (P : σ → α) (d : Decoding σ) (v : JSON)
    (set : σ → String → σ) (hset : ∀ s x, P (set s x) = P s) :
    P (d.storeString v set).value = P d.value := by
  cases v <;> simp [Decoding.storeString, Decoding.saveError_value, hset]

theorem Decoding.storeBool_project {σ α : Type} (P : σ → α) (d : Decoding σ) (v : JSON)
    (set : σ → Bool → σ) (hset : ∀ s x, P (set s x) = P s) :
    P (d.storeBool v set).value = P d.value := by
  cases v <;> simp [Decoding.storeBool, Decoding.saveError_value, hset]

theorem Decoding.storeInt_project {σ α : Type} (P : σ → α) (d : Decoding σ) (v : JSON)
    (set : σ → Int → σ) (hset : ∀ s x, P (set s x) = P s) :
    P (d.storeInt v set).value = P d.value := by
  cases v with
  | number text =>
    simp only [Decoding.storeInt]
    split <;> simp [Decoding.saveError_value, hset]
  | null => rfl
  | bool b => simp [Decoding.storeInt, Decoding.saveError_value]
  | string raw => simp [Decoding.storeInt, Decoding.saveError_value]
  | array items => simp [Decoding.storeInt, Decoding.saveError_value]
  | object members => simp [Decoding.storeInt, Decoding.saveError_value]

theorem Decoding.storeTime_project {σ α : Type} (parseTime : String → Option Time)
    (P : σ → α) (d : Decoding σ) (v : JSON) (set : σ → Time → σ)
    (hset : ∀ s x, P (set s x) = P s) :
    P (d.storeTime parseTime v set).value = P d.value := by
  cases v with
  | string raw =>
    simp only [Decoding.storeTime]
    split <;> simp [hset]
  | null => rfl
  | bool b => rfl
  | number text => rfl
  | array items => rfl
  | object members => rfl

theorem Decoding.storeSlice_project {σ τ α : Type} (P : σ → α) (d : Decoding σ) (v : JSON)
    (get : σ → List τ) (set : σ → List τ → σ) (zero : τ)
    (decode : JSON → Decoding τ → Decoding τ) (hset : ∀ s x, P (set s x) = P s) :
    P (d.storeSlice v get set zero decode).value = P d.value := by
  cases v <;> simp [Decoding.storeSlice, Decoding.saveError_value, hset]

theorem Decoding.storeStruct_project {σ τ α : Type} (P : σ → α) (d : Decoding σ) (v : JSON)
    (get : σ → τ) (set : σ → τ → σ) (names : List String)
    (store : String → JSON → Decoding τ → Decoding τ) (hset : ∀ s x, P (set s x) = P s) :
    P (d.storeStruct v get set names store).value = P d.value := by
  simp [Decoding.storeStruct, hset]

/-- The members of `data` other than `id` leave the id as it is. -/
theorem OrderData.store_ID_of_ne (parseTime : String → Option Time) (g : String) (v : JSON)
    (d : Decoding OrderData) (hg : g ≠ "id") :
    (OrderData.store parseTime g v d).value.ID = d.value.ID := by
  unfold OrderData.store
  by_cases h0 : g = "object"
  · rw [if_pos h0]
    refine Decoding.storeString_project (fun s => s.ID) d v _ ?_
    intro _ _
    rfl
  rw [if_neg h0]
  rw [if_neg hg]
  by_cases h2 : g = "created"
  · rw [if_pos h2]
    refine Decoding.storeTime_project parseTime (fun s => s.ID) d v _ ?_
    intro _ _
    rfl
  rw [if_neg h2]
  by_cases h3 : g = "total"
  · rw [if_pos h3]
    refine Decoding.storeInt_project (fun s => s.ID) d v _ ?_
    intro _ _
    rfl
  rw [if_neg h3]
  by_cases h4 : g = "modified"
  · rw [if_pos h4]
    refine Decoding.storeTime_project parseTime (fun s => s.ID) d v _ ?_
    intro _ _
    rfl
  rw [if_neg h4]
  by_cases h5 : g = "webhook"
  · rw [if_pos h5]
    refine Decoding.storeString_project (fun s => s.ID) d v _ ?_
    intro _ _
    rfl
  rw [if_neg h5]
  by_cases h6 : g = "lineitems"
  · rw [if_pos h6]
    refine Decoding.storeSlice_project (fun s => s.ID) d v _ _ _ _ ?_
    intro _ _
    rfl
  rw [if_neg h6]
  by_cases h7 : g = "account"
  · rw [if_pos h7]
    refine Decoding.storeString_project (fun s => s.ID) d v _ ?_
    intro _ _
    rfl
  rw [if_neg h7]
  by_cases h8 : g = "customer_reference"
  · rw [if_pos h8]
    refine Decoding.storeString_project (fun s => s.ID) d v _ ?_
    intro _ _
    rfl
  rw [if_neg h8]
  by_cases h9 : g = "channel"
  · rw [if_pos h9]
    refine Decoding.storeString_project (fun s => s.ID) d v _ ?_
    intro _ _
    rfl
  rw [if_neg h9]
  by_cases h10 : g = "test_mode"
  · rw [if_pos h10]
    refine Decoding.storeBool_project (fun s => s.ID) d v _ ?_
    intro _ _
    rfl
  rw [if_neg h10]
  by_cases h11 : g = "state"
  · rw [if_pos h11]
    refine Decoding.storeString_project (fun s => s.ID) d v _ ?_
    intro _ _
    rfl
  rw [if_neg h11]
  by_cases h12 : g = "cancelled"
  · rw [if_pos h12]
    refine Decoding.storeTime_project parseTime (fun s => s.ID) d v _ ?_
    intro _ _
    rfl
  rw [if_neg h12]
  by_cases h13 : g = "cancellation_reason"
  · rw [if_pos h13]
    refine Decoding.storeString_project (fun s => s.ID) d v _ ?_
    intro _ _
    rfl
  rw [if_neg h13]

/-- The member `id` of `data` stores its string in the id. -/
theorem OrderData.store_ID (parseTime : String → Option Time) (v : JSON)
    (d : Decoding OrderData) :
    (OrderData.store parseTime "id" v d).value.ID =
      (specStringOr d.value.ID (some v)).getD d.value.ID := by
  cases v <;>
    simp [OrderData.store, Decoding.storeString, Decoding.saveError_value, specStringOr]

/-- The id of a decoded `data` object. -/
theorem decodeObject_data_ID (parseTime : String → Option Time) (ds : List (String × JSON))
    (d : Decoding OrderData) (hkey : specKeyOnce OrderData.fieldNames "id" ds = true)
    (hok : (decodeObject OrderData.fieldNames (OrderData.store parseTime) (JSON.object ds)
      d).failed = none) :
    (decodeObject OrderData.fieldNames (OrderData.store parseTime) (JSON.object ds) d).value.ID =
      match specMember ds "id" with
      | some v => (specStringOr d.value.ID (some v)).getD d.value.ID
      | none => d.value.ID :=
  decodeObject_project OrderData.fieldNames (OrderData.store parseTime) (fun s => s.ID) "id"
    (fun v cur => (specStringOr cur (some v)).getD cur) (fun _ => True) (by decide)
    (fun v d _ _ _ => OrderData.store_ID parseTime v d)
    (fun g v d hg => OrderData.store_ID_of_ne parseTime g v d hg) ds d (fun _ _ => trivial)
    hkey hok

/-- The members of an order other than `data` leave the id as it is. -/
theorem Order.store_dataID_of_ne (parseTime : String → Option Time) (g : String) (v : JSON)
    (d : Decoding Order) (hg : g ≠ "data") :
    (Order.store parseTime g v d).value.Data.ID = d.value.Data.ID := by
  unfold Order.store
  by_cases h : g = "success"
  · rw [if_pos h]
    refine Decoding.storeBool_project (fun s => s.Data.ID) d v _ ?_
    intro _ _
    rfl
  rw [if_neg h, if_neg hg]

/-- The member `data` of an order stores the id that it spells out. -/
theorem Order.store_data_ID (parseTime : String → Option Time) (v : JSON) (d : Decoding Order)
    (hR : ∀ ds, v = JSON.object ds → specKeyOnce OrderData.fieldNames "id" ds = true)
    (hok : (Order.store parseTime "data" v d).failed = none) :
    (Order.store parseTime "data" v d).value.Data.ID = specDataID d.value.Data.ID v := by
  cases v with
  | object ds =>
    have hok' : (decodeObject OrderData.fieldNames (OrderData.store parseTime) (JSON.object ds)
        ⟨d.value.Data, d.saved, d.failed⟩).failed = none := by
      simpa [Order.store, Decoding.storeStruct] using hok
    have h := decodeObject_data_ID parseTime ds ⟨d.value.Data, d.saved, d.failed⟩
      (hR ds rfl) hok'
    simpa [Order.store, Decoding.storeStruct, specDataID] using h
  | null => simp [Order.store, Decoding.storeStruct, decodeObject, specDataID]
  | bool b =>
    simp [Order.store, Decoding.storeStruct, decodeObject, Decoding.saveError_value, specDataID]
  | number t =>
    simp [Order.store, Decoding.storeStruct, decodeObject, Decoding.saveError_value, specDataID]
  | string raw =>
    simp [Order.store, Decoding.storeStruct, decodeObject, Decoding.saveError_value, specDataID]
  | array items =>
    simp [Order.store, Decoding.storeStruct, decodeObject, Decoding.saveError_value, specDataID]

/-- When `json.Unmarshal` decodes a body into the empty order without error,
the id of the order is the `data.id` of the body. -/
theorem Order_Unmarshal_ID (parseTime : String → Option Time) (b : String) (ord : Order)
    (id : String) (hu : Order.Unmarshal parseTime b {} = (ord, none))
    (hid : specOrderID b = some id) : ord.Data.ID = id := by
  unfold specOrderID at hid
  cases hp : JSON.parse b with
  | none => simp [hp] at hid
  | some v =>
    rw [hp] at hid
    cases v with
    | object ms =>
      simp only at hid
      split at hid
      · rename_i hkey
        split at hid
        · rename_i ds hdata
          split at hid
          · rename_i hkeyid
            split at hid
            · rename_i raw hidm
              simp only [Option.some.injEq] at hid
              simp only [Order.Unmarshal, hp, Prod.mk.injEq] at hu
              obtain ⟨hval, herr⟩ := hu
              have hok : (decodeObject Order.fieldNames (Order.store parseTime) (JSON.object ms)
                  ⟨{}, none, none⟩).failed = none := by
                cases hf : (decodeObject Order.fieldNames (Order.store parseTime)
                    (JSON.object ms) ⟨{}, none, none⟩).failed with
                | none => rfl
                | some e => simp [Decoding.error, hf] at herr
              have hproj := decodeObject_project Order.fieldNames (Order.store parseTime)
                (fun o => o.Data.ID) "data" (fun v cur => specDataID cur v)
                (fun v => ∀ ds, v = JSON.object ds →
                  specKeyOnce OrderData.fieldNames "id" ds = true)
                (by decide)
                (fun v d hR _ hstored => Order.store_data_ID parseTime v d hR hstored)
                (fun g v d hg => Order.store_dataID_of_ne parseTime g v d hg) ms ⟨{}, none, none⟩
                (fun v hv ds' hds' => by
                  rw [hdata] at hv
                  rw [hds'] at hv
                  simp only [Option.some.injEq, JSON.object.injEq] at hv
                  rw [← hv]
                  exact hkeyid)
                hkey hok
              rw [hval, hdata] at hproj
              have hproj' : ord.Data.ID = specDataID "" (JSON.object ds) := hproj
              rw [hproj']
              simp only [specDataID, hidm, specStringOr, Option.getD_some]
              exact hid
            · simp at hid
          · simp at hid
        · simp at hid
      · simp at hid
    | null => simp at hid
    | bool b => simp at hid
    | number t => simp at hid
    | string raw => simp at hid
    | array items => simp at hid

/-! ## The order returned -/

/-- C19, as the code has it: on a response with a status from 200 to 299 other
than 204 and a JSON content type, whose body decodes into an order without
error and spells out no error message, `CreateOrder` (for an input that passes
`Validate`) and `GetOrder` return a nil error together with the order decoded
from the body; the id of that order is the `data.id` of the body. -/
theorem C19_success_order (parseTime : String → Option Time) (xml : XMLDecoder)
    (send : RestyClient → Request → Outcome) (c : Client) (o : OrderInput) (id : String)
    (resp : Response) (ord : Order) (e : ErrMailform)
    (hlo : 200 ≤ resp.statusCode) (hhi : resp.statusCode < 300)
    (h204 : resp.statusCode ≠ 204) (hjson : resp.jsonContent = true)
    (hdecode : Order.Unmarshal parseTime resp.body {} = (ord, none))
    (hbody : specEnvelope resp.body = some e) (hmessage : e.Err.Message = "")
    (hvalid : Validate o = none)
    (hpost : send c.restClient (CreateOrder.request o) = Outcome.response resp)
    (hget : send c.restClient (Request.R.Get (ordersEndpoint ++ "/" ++ id)) =
      Outcome.response resp) :
    CreateOrder parseTime xml send c o = ⟨ord, none, [(c.restClient, CreateOrder.request o)]⟩ ∧
      GetOrder parseTime xml send c id =
        ⟨ord, none, [(c.restClient, Request.R.Get (ordersEndpoint ++ "/" ++ id))]⟩ ∧
      (∀ orderID : String, specOrderID resp.body = some orderID → ord.Data.ID = orderID) := by
  have hcheck : checkBodyForErr resp.body = none := by
    rw [checkBodyForErr_of_specEnvelope resp.body e hbody]
    simp [hmessage]
  refine ⟨?_, ?_, fun orderID hid => Order_Unmarshal_ID parseTime resp.body ord orderID hdecode hid⟩
  · rw [CreateOrder_of_success_decoded parseTime xml send c o resp hvalid hpost hlo hhi h204 hjson]
    simp [hdecode, hcheck]
  · rw [GetOrder_of_success_decoded parseTime xml send c id resp hget hlo hhi h204 hjson]
    simp [hdecode, hcheck]

set_option maxRecDepth 100000 in
/-- C19 as amended, at the response of `TestCreateOrder` and `TestGetOrder`:
status 200, a JSON content type and the JSON of an order with the id
`someID`; and at such a response in whose body the key `success` is written
twice. -/
theorem C19_success_order_witness :
    (CreateOrder sampleParseTime sampleXML (respondWith ⟨200, true, false, sampleOrderBody⟩)
        sampleClient sampleOrder).err = none ∧
      (CreateOrder sampleParseTime sampleXML (respondWith ⟨200, true, false, sampleOrderBody⟩)
        sampleClient sampleOrder).order.Data.ID = "someID" ∧
      (GetOrder sampleParseTime sampleXML (respondWith ⟨200, true, false, sampleOrderBody⟩)
        sampleClient "someID").order.Data.ID = "someID" ∧
      (GetOrder sampleParseTime sampleXML (respondWith ⟨200, true, false, repeatedSuccessBody⟩)
        sampleClient "someID").err = none ∧
      (GetOrder sampleParseTime sampleXML (respondWith ⟨200, true, false, repeatedSuccessBody⟩)
        sampleClient "someID").order.Data.ID = "someID" := by
  have h := C19_success_order sampleParseTime sampleXML
    (respondWith ⟨200, true, false, sampleOrderBody⟩)
    sampleClient sampleOrder "someID" ⟨200, true, false, sampleOrderBody⟩
    (Order.Unmarshal sampleParseTime sampleOrderBody {}).1 {}
    (by decide) (by decide) (by decide) rfl (by decide) (by decide) rfl (by decide) rfl rfl
  have h2 := C19_success_order sampleParseTime sampleXML
    (respondWith ⟨200, true, false, repeatedSuccessBody⟩)
    sampleClient sampleOrder "someID" ⟨200, true, false, repeatedSuccessBody⟩
    (Order.Unmarshal sampleParseTime repeatedSuccessBody {}).1 {}
    (by decide) (by decide) (by decide) rfl (by decide) (by decide) rfl (by decide) rfl rfl
  refine ⟨?_, ?_, ?_, ?_, ?_⟩
  · rw [h.1]
  · rw [h.1]
    exact h.2.2 "someID" (by decide)
  · rw [h.2.1]
    exact h.2.2 "someID" (by decide)
  · rw [h2.2.1]
  · rw [h2.2.1]
    exact h2.2.2 "someID" (by decide)

set_option maxRecDepth 100000 in
/-- C19 as stated fails: a 200 response with a content type that is neither
JSON nor XML, whose body
is the JSON of an order with the id `someID` and no error message; the order
returned is the empty one. -/
theorem C19_success_order_counterexample :
    ¬ (specOrderID sampleOrderBody = some "someID" →
        specEnvelope sampleOrderBody = some {} →
        (CreateOrder sampleParseTime sampleXML (respondWith ⟨200, false, false, sampleOrderBody⟩) sampleClient
            sampleOrder).err = none ∧
          (CreateOrder sampleParseTime sampleXML (respondWith ⟨200, false, false, sampleOrderBody⟩) sampleClient
            sampleOrder).order.Data.ID = "someID") := by
  intro h
  have hid := (h (by decide) (by decide)).2
  have hempty : (CreateOrder sampleParseTime sampleXML (respondWith ⟨200, false, false, sampleOrderBody⟩)
      sampleClient sampleOrder).order.Data.ID = "" := by decide
  rw [hempty] at hid
  exact absurd hid (by decide)

/-- The order that `CreateOrder` returns is the value of the `SetResult` target
after the call. -/
theorem CreateOrder_order (parseTime : String → Option Time) (xml : XMLDecoder)
    (send : RestyClient → Request → Outcome) (c : Client) (o : OrderInput)
    (hvalid : Validate o = none) :
    (CreateOrder parseTime xml send c o).order =
      ((CreateOrder.request o).Execute parseTime xml send c.restClient {} {}).order := by
  simp only [CreateOrder, prepare_of_valid o hvalid]
  generalize (CreateOrder.request o).Execute parseTime xml send c.restClient {} {} = ex
  cases hout : ex.outcome with
  | error err => rfl
  | ok resp =>
    simp only
    split_ifs
    · rfl
    · rfl
    · cases checkBodyForErr resp.body <;> rfl

/-- The order that `GetOrder` returns is the value of the `SetResult` target
after the call. -/
theorem GetOrder_order (parseTime : String → Option Time) (xml : XMLDecoder)
    (send : RestyClient → Request → Outcome) (c : Client) (id : String) :
    (GetOrder parseTime xml send c id).order =
      ((Request.R.Get (ordersEndpoint ++ "/" ++ id)).Execute parseTime xml send c.restClient
        {} {}).order := by
  simp only [GetOrder]
  generalize (Request.R.Get (ordersEndpoint ++ "/" ++ id)).Execute parseTime xml send
    c.restClient {} {} = ex
  cases hout : ex.outcome with
  | error err => rfl
  | ok resp =>
    simp only
    split_ifs
    · rfl
    · rfl
    · cases checkBodyForErr resp.body <;> rfl

/-- The `SetResult` target is left as it was by a response outside 200 to 299,
a response with status 204, a response whose content type is neither JSON nor
XML, a JSON response whose body is not valid JSON and a response that is not
JSON whose body has no XML element. -/
theorem Execute_order_unchanged (parseTime : String → Option Time) (xml : XMLDecoder)
    (send : RestyClient → Request → Outcome) (c : RestyClient) (r : Request)
    (result : Order) (error : ErrMailform) (resp : Response)
    (hsend : send c r = Outcome.response resp)
    (h : resp.statusCode < 200 ∨ 300 ≤ resp.statusCode ∨ resp.statusCode = 204 ∨
      (resp.jsonContent = false ∧ resp.xmlContent = false) ∨
      (resp.jsonContent = true ∧ JSON.parse resp.body = none) ∨
      (resp.jsonContent = false ∧ '<' ∉ resp.body.data)) :
    (r.Execute parseTime xml send c result error).order = result := by
  by_cases h204 : resp.statusCode = 204
  · simp [Request.Execute, hsend, h204]
  by_cases hsucc : resp.IsSuccess = true
  · have hrange : 200 ≤ resp.statusCode ∧ resp.statusCode < 300 := by
      simp only [Response.IsSuccess, Bool.and_eq_true, decide_eq_true_eq] at hsucc
      omega
    have h' : (resp.jsonContent = false ∧ resp.xmlContent = false) ∨
        (resp.jsonContent = true ∧ JSON.parse resp.body = none) ∨
        (resp.jsonContent = false ∧ '<' ∉ resp.body.data) := by
      rcases h with h | h | h | h
      · omega
      · omega
      · exact absurd h h204
      · exact h
    rcases h' with ⟨hj, hx⟩ | ⟨hj, hparse⟩ | ⟨hj, hb⟩
    · simp [Request.Execute, hsend, h204, hj, hx]
    · simp [Request.Execute, hsend, h204, hj, hsucc, Order.Unmarshal, hparse]
    · by_cases hx : resp.xmlContent = true
      · simp [Request.Execute, hsend, h204, hj, hx, hsucc,
          XMLDecoder.UnmarshalOrder_of_no_element xml resp.body result hb]
      · simp [Request.Execute, hsend, h204, hj, hx]
  · by_cases hj : resp.jsonContent = true <;> by_cases hx : resp.xmlContent = true <;>
      by_cases herr : resp.IsError = true <;>
      simp [Request.Execute, hsend, h204, hj, hx, hsucc, herr]

/-- C20, as the code has it: the order returned is never nil; it is the empty
order after a validation error, a request that resty gives up before sending
it, a transport failure, a response with a status outside 200 to 299 (401 and
every status of 400 or more included), a response with status 204, a response
whose content type is neither JSON nor XML, a JSON response whose body is not
valid JSON and a response that is not JSON whose body has no XML element;
after any other response it is the order as the decoder left it (the JSON
decoder for a JSON content type, the XML decoder for an XML one), also when an
error is returned with it. -/
theorem C20_order_returned (parseTime : String → Option Time) (xml : XMLDecoder)
    (send : RestyClient → Request → Outcome) (c : Client) (o : OrderInput) (id : String) :
    (∀ err, Validate o = some err → (CreateOrder parseTime xml send c o).order = {}) ∧
    (∀ message, Validate o = none →
      (send c.restClient (CreateOrder.request o) = Outcome.notSent message ∨
        send c.restClient (CreateOrder.request o) = Outcome.failure message) →
        (CreateOrder parseTime xml send c o).order = {}) ∧
    (∀ message,
      (send c.restClient (Request.R.Get (ordersEndpoint ++ "/" ++ id)) =
          Outcome.notSent message ∨
        send c.restClient (Request.R.Get (ordersEndpoint ++ "/" ++ id)) =
          Outcome.failure message) →
        (GetOrder parseTime xml send c id).order = {}) ∧
    (∀ resp, Validate o = none →
      send c.restClient (CreateOrder.request o) = Outcome.response resp →
      (resp.statusCode < 200 ∨ 300 ≤ resp.statusCode ∨ resp.statusCode = 204 ∨
        (resp.jsonContent = false ∧ resp.xmlContent = false) ∨
        (resp.jsonContent = true ∧ JSON.parse resp.body = none) ∨
        (resp.jsonContent = false ∧ '<' ∉ resp.body.data)) →
        (CreateOrder parseTime xml send c o).order = {}) ∧
    (∀ resp,
      send c.restClient (Request.R.Get (ordersEndpoint ++ "/" ++ id)) = Outcome.response resp →
      (resp.statusCode < 200 ∨ 300 ≤ resp.statusCode ∨ resp.statusCode = 204 ∨
        (resp.jsonContent = false ∧ resp.xmlContent = false) ∨
        (resp.jsonContent = true ∧ JSON.parse resp.body = none) ∨
        (resp.jsonContent = false ∧ '<' ∉ resp.body.data)) →
        (GetOrder parseTime xml send c id).order = {}) ∧
    (∀ resp, Validate o = none →
      send c.restClient (CreateOrder.request o) = Outcome.response resp →
      200 ≤ resp.statusCode → resp.statusCode < 300 → resp.statusCode ≠ 204 →
      resp.jsonContent = true →
        (CreateOrder parseTime xml send c o).order =
          (Order.Unmarshal parseTime resp.body {}).1) ∧
    (∀ resp,
      send c.restClient (Request.R.Get (ordersEndpoint ++ "/" ++ id)) = Outcome.response resp →
      200 ≤ resp.statusCode → resp.statusCode < 300 → resp.statusCode ≠ 204 →
      resp.jsonContent = true →
        (GetOrder parseTime xml send c id).order =
          (Order.Unmarshal parseTime resp.body {}).1) ∧
    (∀ resp, Validate o = none →
      send c.restClient (CreateOrder.request o) = Outcome.response resp →
      200 ≤ resp.statusCode → resp.statusCode < 300 → resp.statusCode ≠ 204 →
      resp.jsonContent = false → resp.xmlContent = true →
        (CreateOrder parseTime xml send c o).order = (xml.UnmarshalOrder resp.body {}).1) ∧
    (∀ resp,
      send c.restClient (Request.R.Get (ordersEndpoint ++ "/" ++ id)) = Outcome.response resp →
      200 ≤ resp.statusCode → resp.statusCode < 300 → resp.statusCode ≠ 204 →
      resp.jsonContent = false → resp.xmlContent = true →
        (GetOrder parseTime xml send c id).order = (xml.UnmarshalOrder resp.body {}).1) := by
  refine ⟨fun err herr => ?_, fun message hvalid hsend => ?_, fun message hsend => ?_,
    fun resp hvalid hsend h => ?_, fun resp hsend h => ?_,
    fun resp hvalid hsend hlo hhi h204 hjson => ?_, fun resp hsend hlo hhi h204 hjson => ?_,
    fun resp hvalid hsend hlo hhi h204 hjson hxml => ?_,
    fun resp hsend hlo hhi h204 hjson hxml => ?_⟩
  · simp [CreateOrder, CreateOrder.prepare, herr]
  · rcases hsend with hsend | hsend
    · rw [CreateOrder_of_notSent parseTime xml send c o message hvalid hsend]
    · rw [CreateOrder_of_failure parseTime xml send c o message hvalid hsend]
  · rcases hsend with hsend | hsend
    · rw [GetOrder_of_notSent parseTime xml send c id message hsend]
    · rw [GetOrder_of_failure parseTime xml send c id message hsend]
  · rw [CreateOrder_order parseTime xml send c o hvalid,
      Execute_order_unchanged parseTime xml send c.restClient _ _ _ resp hsend h]
  · rw [GetOrder_order parseTime xml send c id,
      Execute_order_unchanged parseTime xml send c.restClient _ _ _ resp hsend h]
  · rw [CreateOrder_of_success_decoded parseTime xml send c o resp hvalid hsend hlo hhi h204
      hjson]
  · rw [GetOrder_of_success_decoded parseTime xml send c id resp hsend hlo hhi h204 hjson]
  · rw [CreateOrder_of_success_xml_decoded parseTime xml send c o resp hvalid hsend hlo hhi
      h204 hjson hxml]
  · rw [GetOrder_of_success_xml_decoded parseTime xml send c id resp hsend hlo hhi h204 hjson
      hxml]

set_option maxRecDepth 100000 in
/-- C20 as amended, at an input that `Validate` rejects, at a transport
failure, at a 500 response, at a 200 response whose body is not JSON and at a
request whose file cannot be read: each time an error is returned with the
empty order. -/
theorem C20_order_returned_witness :
    (CreateOrder sampleParseTime sampleXML (respondWith ⟨200, true, false, sampleOrderBody⟩)
        sampleClient {}).order = {} ∧
      (GetOrder sampleParseTime sampleXML (fun _ _ => Outcome.failure "timeout") sampleClient
        "someID") = ⟨{}, some (GoError.transport "timeout"),
          [(sampleClient.restClient, Request.R.Get "/orders/someID")]⟩ ∧
      (GetOrder sampleParseTime sampleXML (respondWith ⟨500, true, false, orderWithErrorBody⟩)
        sampleClient "someID").order = {} ∧
      (GetOrder sampleParseTime sampleXML (respondWith ⟨200, true, false, "<html>"⟩) sampleClient
        "someID") = ⟨{}, some (GoError.json JsonError.syntaxError),
          [(sampleClient.restClient, Request.R.Get "/orders/someID")]⟩ ∧
      (CreateOrder sampleParseTime sampleXML
        (respondWithoutFiles ⟨200, true, false, sampleOrderBody⟩) sampleClient
        bothSourcesOrder) =
          ⟨{}, some (GoError.request "open document.pdf: no such file or directory"), []⟩ :=
  ⟨(C20_order_returned sampleParseTime sampleXML
      (respondWith ⟨200, true, false, sampleOrderBody⟩) sampleClient
      {} "someID").1 ⟨serviceRejectionStr ""⟩ (by decide),
    by decide, by decide, by decide, by decide⟩

set_option maxRecDepth 100000 in
/-- C20 as stated fails: a 200 response with a JSON content type whose body
carries order data next to an error envelope; `GetOrder` returns the error of
the envelope together with an order whose id is set. -/
theorem C20_order_returned_counterexample :
    ¬ ((GetOrder sampleParseTime sampleXML (respondWith ⟨200, true, false, orderWithErrorBody⟩) sampleClient
          "someID").err ≠ none →
        (GetOrder sampleParseTime sampleXML (respondWith ⟨200, true, false, orderWithErrorBody⟩) sampleClient
          "someID").order = {}) := by
  intro h
  have hzero := h (by decide)
  have hid : (GetOrder sampleParseTime sampleXML (respondWith ⟨200, true, false, orderWithErrorBody⟩)
      sampleClient "someID").order.Data.ID = "someID" := by decide
  rw [hzero] at hid
  exact absurd hid (by decide)

/-! ## `New` -/

/-- The number of seconds of a duration is 0 exactly for the zero duration. -/
theorem Duration.Seconds_eq_zero_iff (d : Int) : Duration.Seconds d = 0 ↔ d = 0 := by
  have hsplit : (d : ℚ) = (Int.tdiv d Second : ℚ) * 1000000000 + (Int.tmod d Second : ℚ) := by
    have h := Int.tdiv_add_tmod' d Second
    have h2 : ((Int.tdiv d Second * Second + Int.tmod d Second : Int) : ℚ) = (d : ℚ) := by
      rw [h]
    rw [← h2]
    simp [Second]
  have hsec : Duration.Seconds d = (d : ℚ) / 1000000000 := by
    rw [hsplit]
    unfold Duration.Seconds
    field_simp
  rw [hsec]
  constructor
  · intro h
    have h10 : (1000000000 : ℚ) ≠ 0 := by norm_num
    have hd : (d : ℚ) = 0 := by
      rcases div_eq_zero_iff.1 h with h | h
      · exact h
      · exact absurd h h10
    exact_mod_cast hd
  · intro h
    simp [h]

/-- The slashes at the end are all that `TrimRight` removes: a string that does
not end in the character is left as it is. -/
theorem TrimRight_of_not_suffix (s : String) (c : Char)
    (h : s.data.getLast? ≠ some c) : TrimRight s c = s := by
  unfold TrimRight
  have hdrop : s.data.reverse.dropWhile (fun x => decide (x = c)) = s.data.reverse := by
    cases hr : s.data.reverse with
    | nil => rfl
    | cons x rest =>
      have hlast : s.data.getLast? = some x := by
        rw [← List.head?_reverse, hr]
        rfl
      have hx : ¬ x = c := by
        intro hxc
        exact h (by rw [hlast, hxc])
      simp [List.dropWhile, hx]
  rw [hdrop, List.reverse_reverse]

/-- `New` on a configuration: the settings of the client returned. -/
theorem New_some (cfg : Config) :
    New (some cfg) =
      (some ⟨⟨TrimRight (if cfg.BaseURL ≠ "" then cfg.BaseURL else DefaultBaseURL) '/',
        cfg.Token, if cfg.Timeout ≠ 0 then cfg.Timeout else DefaultTimeout⟩⟩, none) := by
  by_cases ht : cfg.Timeout = 0
  · have hs : Duration.Seconds 0 = 0 := (Duration.Seconds_eq_zero_iff 0).2 rfl
    simp [New, hs, ht, RestyClient.New, RestyClient.SetBaseURL, RestyClient.SetTimeout,
      RestyClient.SetAuthToken]
  · have hs : ¬ Duration.Seconds cfg.Timeout = 0 :=
      fun h => ht ((Duration.Seconds_eq_zero_iff _).1 h)
    simp [New, hs, ht, RestyClient.New, RestyClient.SetBaseURL, RestyClient.SetTimeout,
      RestyClient.SetAuthToken]

theorem TrimRight_DefaultBaseURL : TrimRight DefaultBaseURL '/' = DefaultBaseURL := by
  decide

/-- C21: `New` with a nil configuration returns a nil client and the error
`ErrNilConfig`, whose text is `config cannot be nil`; with any configuration
that is not nil, the zero configuration included, it returns a client and a
nil error. -/
theorem C21_new_nil_config :
    New none = (none, some ErrNilConfig) ∧ ErrNilConfig.text = "config cannot be nil" ∧
      (∀ cfg : Config, ∃ client : Client, New (some cfg) = (some client, none)) ∧
      (∃ client : Client, New (some {}) = (some client, none)) := by
  refine ⟨rfl, rfl, fun cfg => ⟨_, New_some cfg⟩, ⟨_, New_some {}⟩⟩

/-- C21 at the configurations of `TestNew`. -/
theorem C21_new_nil_config_witness :
    (New none).1 = none ∧ (New none).2 = some ⟨"config cannot be nil"⟩ ∧
      (∃ client : Client, New (some { BaseURL := "customBaseURL" }) = (some client, none)) :=
  ⟨by rw [C21_new_nil_config.1], by rw [C21_new_nil_config.1]; rfl,
    C21_new_nil_config.2.2.1 { BaseURL := "customBaseURL" }⟩

/-- C22: for a configuration with an empty `BaseURL` the client has the base
URL `https://www.mailform.io/app/api/v1`; for one with a zero `Timeout` the
client has a timeout of 15 seconds; `New` of the empty configuration gives the
client with that base URL, that timeout and the empty token. -/
theorem C22_new_defaults :
    (∀ cfg : Config, cfg.BaseURL = "" →
      ∃ client : Client, New (some cfg) = (some client, none) ∧
        client.restClient.BaseURL = "https://www.mailform.io/app/api/v1") ∧
    (∀ cfg : Config, cfg.Timeout = 0 →
      ∃ client : Client, New (some cfg) = (some client, none) ∧
        client.restClient.Timeout = 15 * Second) ∧
    New (some {}) = (some ⟨⟨"https://www.mailform.io/app/api/v1", "", 15 * Second⟩⟩, none) := by
  refine ⟨fun cfg hb => ⟨_, New_some cfg, ?_⟩, fun cfg ht => ⟨_, New_some cfg, ?_⟩, ?_⟩
  · simp only [hb, ne_eq, not_true_eq_false, if_false, TrimRight_DefaultBaseURL]
    rfl
  · simp only [ht, ne_eq, not_true_eq_false, if_false]
    decide
  · rw [New_some]
    simp only [ne_eq, not_true_eq_false, if_false, TrimRight_DefaultBaseURL]
    decide

/-- C22 at the configuration of the test `EnsureTokenURLIsSet`: only a token. -/
theorem C22_new_defaults_witness :
    (∃ client : Client, New (some { Token := "someToken" }) = (some client, none) ∧
        client.restClient.BaseURL = "https://www.mailform.io/app/api/v1") ∧
    (∃ client : Client, New (some { Token := "someToken" }) = (some client, none) ∧
        client.restClient.Timeout = 15 * Second) :=
  ⟨C22_new_defaults.1 { Token := "someToken" } rfl,
    C22_new_defaults.2.1 { Token := "someToken" } rfl⟩

/-- C23, as the code has it: a non-empty `BaseURL` reaches the client without
the slashes at its end, so exactly as configured when it does not end in a
slash; a non-zero `Timeout` and the `Token` reach the client exactly as
configured. -/
theorem C23_new_overrides (cfg : Config) :
    ∃ client : Client, New (some cfg) = (some client, none) ∧
      (cfg.BaseURL ≠ "" → client.restClient.BaseURL = TrimRight cfg.BaseURL '/') ∧
      (cfg.BaseURL ≠ "" → cfg.BaseURL.data.getLast? ≠ some '/' →
        client.restClient.BaseURL = cfg.BaseURL) ∧
      (cfg.Timeout ≠ 0 → client.restClient.Timeout = cfg.Timeout) ∧
      client.restClient.Token = cfg.Token := by
  refine ⟨_, New_some cfg, fun hb => ?_, fun hb hlast => ?_, fun ht => ?_, rfl⟩
  · simp [hb]
  · simp [hb, TrimRight_of_not_suffix cfg.BaseURL '/' hlast]
  · simp [ht]

/-- C23 as amended, at the configuration of the test `EnsureCustomBaseURLIsSet`
with a timeout and a token added. -/
theorem C23_new_overrides_witness :
    New (some { BaseURL := "customBaseURL", Timeout := 2 * Second, Token := "someToken" }) =
      (some ⟨⟨"customBaseURL", "someToken", 2000000000⟩⟩, none) := by
  obtain ⟨client, hnew, -, hurl, htimeout, htoken⟩ :=
    C23_new_overrides { BaseURL := "customBaseURL", Timeout := 2 * Second, Token := "someToken" }
  rw [hnew]
  have h1 := hurl (by decide) (by decide)
  have h2 := htimeout (by decide)
  obtain ⟨⟨url, token, timeout⟩⟩ := client
  simp only at h1 h2 htoken
  subst h1 h2 htoken
  decide

/-- C23 as stated fails: the configured base URL ends in a slash, and the base
URL of the client is that string without the slash. -/
theorem C23_new_overrides_counterexample :
    ¬ (∀ client : Client,
        New (some { BaseURL := "https://example.com/api/" }) = (some client, none) →
          client.restClient.BaseURL = "https://example.com/api/") := by
  intro h
  have hnew : New (some { BaseURL := "https://example.com/api/" }) =
      (some ⟨⟨"https://example.com/api", "", 15000000000⟩⟩, none) := by
    rw [New_some]
    decide
  have hurl := h _ hnew
  exact absurd hurl (by decide)

/-! ## The requests issued and the classification of the outcome -/

/-- The response or error, the order and the envelope that `Execute` gives
depend on the client and the request only through what becomes of the
request. -/
theorem Execute_congr (parseTime : String → Option Time) (xml : XMLDecoder)
    (send : RestyClient → Request → Outcome) (c c' : RestyClient) (r r' : Request)
    (result : Order) (error : ErrMailform) (h : send c r = send c' r') :
    (r.Execute parseTime xml send c result error).outcome =
        (r'.Execute parseTime xml send c' result error).outcome ∧
      (r.Execute parseTime xml send c result error).order =
        (r'.Execute parseTime xml send c' result error).order ∧
      (r.Execute parseTime xml send c result error).mailformErr =
        (r'.Execute parseTime xml send c' result error).mailformErr := by
  unfold Request.Execute
  rw [h]
  cases send c' r' with
  | notSent message => exact ⟨rfl, rfl, rfl⟩
  | failure message => exact ⟨rfl, rfl, rfl⟩
  | response resp =>
    simp only
    split_ifs
    · exact ⟨rfl, rfl, rfl⟩
    · cases hu : Order.Unmarshal parseTime resp.body result with
      | mk order derr => cases derr <;> exact ⟨rfl, rfl, rfl⟩
    · exact ⟨rfl, rfl, rfl⟩
    · exact ⟨rfl, rfl, rfl⟩
    · cases hu : xml.UnmarshalOrder resp.body result with
      | mk order derr => cases derr <;> exact ⟨rfl, rfl, rfl⟩
    · exact ⟨rfl, rfl, rfl⟩
    · exact ⟨rfl, rfl, rfl⟩
    · exact ⟨rfl, rfl, rfl⟩

/-- The HTTP requests issued when a request is executed: none when resty gives
it up before sending it, and otherwise the request itself, once. -/
theorem Execute_requests (parseTime : String → Option Time) (xml : XMLDecoder)
    (send : RestyClient → Request → Outcome) (c : RestyClient) (r : Request)
    (result : Order) (error : ErrMailform) :
    (∀ message, send c r = Outcome.notSent message →
      (r.Execute parseTime xml send c result error).requests = []) ∧
    (∀ message, send c r = Outcome.failure message →
      (r.Execute parseTime xml send c result error).requests = [(c, r)]) ∧
    (∀ resp, send c r = Outcome.response resp →
      (r.Execute parseTime xml send c result error).requests = [(c, r)]) := by
  refine ⟨fun message h => ?_, fun message h => ?_, fun resp h => ?_⟩
  · simp [Request.Execute, h]
  · simp [Request.Execute, h]
  · unfold Request.Execute
    rw [h]
    simp only
    split_ifs
    · rfl
    · cases hu : Order.Unmarshal parseTime resp.body result with
      | mk order derr => cases derr <;> rfl
    · rfl
    · rfl
    · cases hu : xml.UnmarshalOrder resp.body result with
      | mk order derr => cases derr <;> rfl
    · rfl
    · rfl
    · rfl

/-- The requests that `CreateOrder` issues on an input that passes `Validate`
are those of executing the one request built from the input. -/
theorem CreateOrder_requests (parseTime : String → Option Time) (xml : XMLDecoder)
    (send : RestyClient → Request → Outcome) (c : Client) (o : OrderInput)
    (hvalid : Validate o = none) :
    (CreateOrder parseTime xml send c o).requests =
      ((CreateOrder.request o).Execute parseTime xml send c.restClient {} {}).requests := by
  simp only [CreateOrder, prepare_of_valid o hvalid]
  generalize (CreateOrder.request o).Execute parseTime xml send c.restClient {} {} = ex
  cases hout : ex.outcome with
  | error err => rfl
  | ok resp =>
    simp only
    split_ifs
    · rfl
    · rfl
    · cases checkBodyForErr resp.body <;> rfl

/-- The requests that `GetOrder` issues are those of executing the one GET
request. -/
theorem GetOrder_requests (parseTime : String → Option Time) (xml : XMLDecoder)
    (send : RestyClient → Request → Outcome) (c : Client) (id : String) :
    (GetOrder parseTime xml send c id).requests =
      ((Request.R.Get (ordersEndpoint ++ "/" ++ id)).Execute parseTime xml send c.restClient
        {} {}).requests := by
  simp only [GetOrder]
  generalize (Request.R.Get (ordersEndpoint ++ "/" ++ id)).Execute parseTime xml send
    c.restClient {} {} = ex
  cases hout : ex.outcome with
  | error err => rfl
  | ok resp =>
    simp only
    split_ifs
    · rfl
    · rfl
    · cases checkBodyForErr resp.body <;> rfl

/-- C24, as the code has it: `CreateOrder` on an input that passes `Validate`
hands resty one request, a POST with the path `/orders`, and `GetOrder` one
request, a GET with the path `/orders/` followed by the id as it is given; the
request goes through the client, which holds the base URL. Each call issues at
most one HTTP request, whatever the response: none when resty gives the
request up before sending it, and exactly that request, once, when the
exchange fails or a response arrives. -/
theorem C24_single_request (parseTime : String → Option Time) (xml : XMLDecoder)
    (send : RestyClient → Request → Outcome) (c : Client) (o : OrderInput) (id : String)
    (hvalid : Validate o = none) :
    (∃ req : Request, req.method = "POST" ∧ req.endpoint = "/orders" ∧
      (∀ message, send c.restClient req = Outcome.notSent message →
        (CreateOrder parseTime xml send c o).requests = []) ∧
      (∀ message, send c.restClient req = Outcome.failure message →
        (CreateOrder parseTime xml send c o).requests = [(c.restClient, req)]) ∧
      (∀ resp, send c.restClient req = Outcome.response resp →
        (CreateOrder parseTime xml send c o).requests = [(c.restClient, req)])) ∧
    (∃ req : Request, req.method = "GET" ∧ req.endpoint = "/orders/" ++ id ∧
      (∀ message, send c.restClient req = Outcome.notSent message →
        (GetOrder parseTime xml send c id).requests = []) ∧
      (∀ message, send c.restClient req = Outcome.failure message →
        (GetOrder parseTime xml send c id).requests = [(c.restClient, req)]) ∧
      (∀ resp, send c.restClient req = Outcome.response resp →
        (GetOrder parseTime xml send c id).requests = [(c.restClient, req)])) ∧
    (CreateOrder parseTime xml send c o).requests.length ≤ 1 ∧
    (GetOrder parseTime xml send c id).requests.length ≤ 1 := by
  have hendpoint : ordersEndpoint ++ "/" ++ id = "/orders/" ++ id := by
    apply String.ext
    simp [ordersEndpoint, String.data_append]
  have hpost := Execute_requests parseTime xml send c.restClient (CreateOrder.request o) {} {}
  have hget := Execute_requests parseTime xml send c.restClient
    (Request.R.Get (ordersEndpoint ++ "/" ++ id)) {} {}
  rw [← CreateOrder_requests parseTime xml send c o hvalid] at hpost
  rw [← GetOrder_requests parseTime xml send c id] at hget
  refine ⟨⟨CreateOrder.request o, rfl, rfl, hpost⟩,
    ⟨Request.R.Get (ordersEndpoint ++ "/" ++ id), rfl, hendpoint, hget⟩, ?_, ?_⟩
  · cases hs : send c.restClient (CreateOrder.request o) with
    | notSent message => rw [hpost.1 message hs]; simp
    | failure message => rw [hpost.2.1 message hs]; simp
    | response resp => rw [hpost.2.2 resp hs]; simp
  · cases hs : send c.restClient (Request.R.Get (ordersEndpoint ++ "/" ++ id)) with
    | notSent message => rw [hget.1 message hs]; simp
    | failure message => rw [hget.2.1 message hs]; simp
    | response resp => rw [hget.2.2 resp hs]; simp

set_option maxRecDepth 100000 in
/-- C24 as amended, at the sample order and the id `someID`, with a server that
answers 500 to every request: at most one request each, and for `CreateOrder`
the request built from the input. -/
theorem C24_single_request_witness :
    ((CreateOrder sampleParseTime sampleXML (respondWith ⟨500, false, false, ""⟩) sampleClient
        sampleOrder).requests.length ≤ 1 ∧
      (GetOrder sampleParseTime sampleXML (respondWith ⟨500, false, false, ""⟩) sampleClient
        "someID").requests.length ≤ 1) ∧
    (CreateOrder sampleParseTime sampleXML (respondWith ⟨500, false, false, ""⟩) sampleClient
        sampleOrder).requests = [(sampleClient.restClient, CreateOrder.request sampleOrder)] :=
  ⟨(C24_single_request sampleParseTime sampleXML (respondWith ⟨500, false, false, ""⟩)
      sampleClient sampleOrder "someID" (by decide)).2.2, by decide⟩

set_option maxRecDepth 100000 in
/-- C24 as stated fails: the input passes `Validate` and names a file that
cannot be read; resty gives the request up before sending it, and `CreateOrder`
issues no HTTP request. -/
theorem C24_single_request_counterexample :
    ¬ (Validate bothSourcesOrder = none →
        (CreateOrder sampleParseTime sampleXML
          (respondWithoutFiles ⟨200, true, false, sampleOrderBody⟩) sampleClient
          bothSourcesOrder).requests.length = 1) := by
  intro h
  have hone := h (by decide)
  have hnone : (CreateOrder sampleParseTime sampleXML
      (respondWithoutFiles ⟨200, true, false, sampleOrderBody⟩) sampleClient
      bothSourcesOrder).requests = [] := by decide
  rw [hnone] at hone
  exact absurd hone (by decide)

/-- C25: when the transport gives the same outcome (a failure, or a response
with any status and body) to the request of `GetOrder` and to the request of
`CreateOrder` on an input that passes `Validate`, the two calls return the
same error and the same order. -/
theorem C25_same_classification (parseTime : String → Option Time) (xml : XMLDecoder)
    (send : RestyClient → Request → Outcome) (c : Client) (o : OrderInput) (id : String)
    (outcome : Outcome) (hvalid : Validate o = none)
    (hpost : send c.restClient (CreateOrder.request o) = outcome)
    (hget : send c.restClient (Request.R.Get (ordersEndpoint ++ "/" ++ id)) = outcome) :
    (GetOrder parseTime xml send c id).err = (CreateOrder parseTime xml send c o).err ∧
      (GetOrder parseTime xml send c id).order = (CreateOrder parseTime xml send c o).order := by
  obtain ⟨h1, h2, h3⟩ := Execute_congr parseTime xml send c.restClient c.restClient
    (Request.R.Get (ordersEndpoint ++ "/" ++ id)) (CreateOrder.request o) {} {}
    (hget.trans hpost.symm)
  simp only [CreateOrder, GetOrder, prepare_of_valid o hvalid]
  revert h1 h2 h3
  generalize (CreateOrder.request o).Execute parseTime xml send c.restClient {} {} = ex
  generalize (Request.R.Get (ordersEndpoint ++ "/" ++ id)).Execute parseTime xml send
    c.restClient {} {} = ex'
  intro h1 h2 h3
  rw [h1, h2, h3]
  cases hout : ex.outcome with
  | error err => exact ⟨rfl, rfl⟩
  | ok resp =>
    simp only
    split_ifs
    · exact ⟨rfl, rfl⟩
    · exact ⟨rfl, rfl⟩
    · cases checkBodyForErr resp.body <;> exact ⟨rfl, rfl⟩

/-- C25 at the sample order and the id `someID`, with a transport that answers
every request with the order of `TestCreateOrder`. -/
theorem C25_same_classification_witness :
    (GetOrder sampleParseTime sampleXML (respondWith ⟨200, true, false, sampleOrderBody⟩)
        sampleClient "someID").err =
      (CreateOrder sampleParseTime sampleXML (respondWith ⟨200, true, false, sampleOrderBody⟩)
        sampleClient sampleOrder).err ∧
    (GetOrder sampleParseTime sampleXML (respondWith ⟨200, true, false, sampleOrderBody⟩)
        sampleClient "someID").order =
      (CreateOrder sampleParseTime sampleXML (respondWith ⟨200, true, false, sampleOrderBody⟩)
        sampleClient sampleOrder).order :=
  C25_same_classification sampleParseTime sampleXML
    (respondWith ⟨200, true, false, sampleOrderBody⟩)
    sampleClient sampleOrder "someID" (Outcome.response ⟨200, true, false, sampleOrderBody⟩)
    (by decide) rfl rfl

/-- What `Validate` accepts, the other way round: a supported service and
twelve required fields that are not empty. -/
theorem Validate_of_fields (o : OrderInput) (hservice : o.Service ∈ ServiceCodes)
    (h : o.ToName ≠ "" ∧ o.ToAddress1 ≠ "" ∧ o.ToCity ≠ "" ∧ o.ToState ≠ "" ∧
      o.ToPostcode ≠ "" ∧ o.ToCountry ≠ "" ∧ o.FromName ≠ "" ∧ o.FromAddress1 ≠ "" ∧
      o.FromCity ≠ "" ∧ o.FromState ≠ "" ∧ o.FromPostcode ≠ "" ∧ o.FromCountry ≠ "") :
    Validate o = none := by
  have hs : isServiceSupported o.Service = true := (isServiceSupported_iff_mem _).2 hservice
  rw [Validate_eq_firstEmpty o hs]
  simpa [specFirstEmptyField, specRequiredFields] using h

/-- C26, as the code has it: `Validate` checks the service and the twelve
required fields and nothing else. `FilePath` and `URL` play no part in it: two
inputs that differ only in them get the same result, and an input with a
supported service and the twelve required fields is accepted with `FilePath`
and `URL` both empty. -/
theorem C26_validate_ignores_source (o : OrderInput) :
    (∀ path url : String, Validate { o with FilePath := path, URL := url } = Validate o) ∧
    (o.Service ∈ ServiceCodes →
      (o.ToName ≠ "" ∧ o.ToAddress1 ≠ "" ∧ o.ToCity ≠ "" ∧ o.ToState ≠ "" ∧
        o.ToPostcode ≠ "" ∧ o.ToCountry ≠ "" ∧ o.FromName ≠ "" ∧ o.FromAddress1 ≠ "" ∧
        o.FromCity ≠ "" ∧ o.FromState ≠ "" ∧ o.FromPostcode ≠ "" ∧ o.FromCountry ≠ "") →
      Validate { o with FilePath := "", URL := "" } = none) := by
  have hsame : ∀ path url : String,
      Validate { o with FilePath := path, URL := url } = Validate o := fun _ _ => rfl
  refine ⟨hsame, fun hservice h => ?_⟩
  rw [hsame]
  exact Validate_of_fields o hservice h

/-- C26 as amended, at the sample order, which has a URL: without the URL and
without a file path it is accepted all the same. -/
theorem C26_validate_ignores_source_witness :
    Validate { sampleOrder with FilePath := "", URL := "" } = none :=
  (C26_validate_ignores_source sampleOrder).2 (by decide) (by decide)

/-- C26 as stated fails: the input of `TestCreateOrder` has neither a file path
nor a URL, and `Validate` accepts it. -/
theorem C26_validate_source_counterexample :
    ¬ (Validate noSourceOrder = none →
        noSourceOrder.FilePath ≠ "" ∨ noSourceOrder.URL ≠ "") := by
  intro h
  rcases h (by decide) with hpath | hurl
  · exact absurd rfl hpath
  · exact absurd rfl hurl

/-- Decoding the empty body leaves the envelope as it was. -/
theorem Unmarshal_empty_body : (ErrMailform.Unmarshal "" {}).1 = {} := by
  rfl

/-- After a response with an empty body the `SetError` target is still the
empty envelope, whatever the content type. -/
theorem errorTarget_of_empty_body (xml : XMLDecoder) (resp : Response)
    (h : resp.body = "") : errorTarget xml resp {} = {} := by
  unfold errorTarget
  rw [h]
  split_ifs
  · exact Unmarshal_empty_body
  · exact XMLDecoder.UnmarshalEnvelope_of_no_element xml "" {} (by simp)
  · rfl

/-- C27: for a response with a status of 400 or more other than 401 (so also
500 or more) and an empty body, `CreateOrder` on an input that passes
`Validate` and `GetOrder` return an `ErrMailform` error whose code, message
and detail are empty and whose `Error` string is empty. -/
theorem C27_empty_body_error (parseTime : String → Option Time) (xml : XMLDecoder)
    (send : RestyClient → Request → Outcome) (c : Client) (o : OrderInput) (id : String)
    (resp : Response) (hvalid : Validate o = none)
    (hpost : send c.restClient (CreateOrder.request o) = Outcome.response resp)
    (hget : send c.restClient (Request.R.Get (ordersEndpoint ++ "/" ++ id)) =
      Outcome.response resp)
    (hstatus : 400 ≤ resp.statusCode) (h401 : resp.statusCode ≠ 401) (hbody : resp.body = "") :
    ∃ e : ErrMailform,
      (CreateOrder parseTime xml send c o).err = some (GoError.mailform e) ∧
      (GetOrder parseTime xml send c id).err = some (GoError.mailform e) ∧
      e.Err.Code = "" ∧ e.Err.Message = "" ∧ e.Detail = "" ∧ e.Error = "" := by
  refine ⟨{}, ?_, ?_, rfl, rfl, rfl, by decide⟩
  · rw [CreateOrder_of_isError parseTime xml send c o resp hvalid hpost (by omega)]
    simp [h401, errorTarget_of_empty_body xml resp hbody]
  · rw [GetOrder_of_isError parseTime xml send c id resp hget (by omega)]
    simp [h401, errorTarget_of_empty_body xml resp hbody]

/-- C27 at the sample order and the id `someID`, with a transport that answers
every request with status 500, a JSON content type and an empty body. -/
theorem C27_empty_body_error_witness :
    ∃ e : ErrMailform,
      (CreateOrder sampleParseTime sampleXML (respondWith ⟨500, true, false, ""⟩) sampleClient sampleOrder).err =
        some (GoError.mailform e) ∧
      (GetOrder sampleParseTime sampleXML (respondWith ⟨500, true, false, ""⟩) sampleClient "someID").err =
        some (GoError.mailform e) ∧
      e.Err.Code = "" ∧ e.Err.Message = "" ∧ e.Detail = "" ∧ e.Error = "" :=
  C27_empty_body_error sampleParseTime sampleXML (respondWith ⟨500, true, false, ""⟩) sampleClient sampleOrder
    "someID" ⟨500, true, false, ""⟩ (by decide) rfl rfl (by decide) (by decide) rfl

/-! ## The form of an accepted input, and what the form keeps of the input -/

/-- What `Validate` accepts: the service is supported and the twelve required
fields are not empty. -/
theorem Validate_accepts (o : OrderInput) (h : Validate o = none) :
    o.Service ∈ ServiceCodes ∧ o.ToName ≠ "" ∧
      o.ToAddress1 ≠ "" ∧
      o.ToCity ≠ "" ∧
      o.ToState ≠ "" ∧
      o.ToPostcode ≠ "" ∧
      o.ToCountry ≠ "" ∧
      o.FromName ≠ "" ∧
      o.FromAddress1 ≠ "" ∧
      o.FromCity ≠ "" ∧
      o.FromState ≠ "" ∧
      o.FromPostcode ≠ "" ∧
      o.FromCountry ≠ "" := by
  by_cases hs : isServiceSupported o.Service = true
  · have hm : o.Service ∈ ServiceCodes := (isServiceSupported_iff_mem _).1 hs
    rw [Validate_eq_firstEmpty o hs] at h
    simpa [specFirstEmptyField, specRequiredFields, hm] using h
  · simp [Validate, hs] at h

/-- The values of `FormData` at the 25 keys of the map literal. -/
theorem FormData_get_fixed (o : OrderInput) :
    (FormData o).get "customer_reference" = some (o.CustomerReference) ∧
    (FormData o).get "service" = some (o.Service) ∧
    (FormData o).get "webhook" = some (o.Webhook) ∧
    (FormData o).get "company" = some (o.Company) ∧
    (FormData o).get "simplex" = some (FormatBool o.Simplex) ∧
    (FormData o).get "color" = some (FormatBool o.Color) ∧
    (FormData o).get "flat" = some (FormatBool o.Flat) ∧
    (FormData o).get "stamp" = some (FormatBool o.Stamp) ∧
    (FormData o).get "message" = some (o.Message) ∧
    (FormData o).get "to.name" = some (o.ToName) ∧
    (FormData o).get "to.organization" = some (o.ToOrganization) ∧
    (FormData o).get "to.address1" = some (o.ToAddress1) ∧
    (FormData o).get "to.address2" = some (o.ToAddress2) ∧
    (FormData o).get "to.city" = some (o.ToCity) ∧
    (FormData o).get "to.state" = some (o.ToState) ∧
    (FormData o).get "to.postcode" = some (o.ToPostcode) ∧
    (FormData o).get "to.country" = some (o.ToCountry) ∧
    (FormData o).get "from.name" = some (o.FromName) ∧
    (FormData o).get "from.organization" = some (o.FromOrganization) ∧
    (FormData o).get "from.address1" = some (o.FromAddress1) ∧
    (FormData o).get "from.address2" = some (o.FromAddress2) ∧
    (FormData o).get "from.city" = some (o.FromCity) ∧
    (FormData o).get "from.state" = some (o.FromState) ∧
    (FormData o).get "from.postcode" = some (o.FromPostcode) ∧
    (FormData o).get "from.country" = some (o.FromCountry) := by
  simp only [FormData, GoMap.get_ite_set]
  simp [GoMap.get, GoMap.getEntries]

/-- The values of `FormData` at the six keys that are set under a condition. -/
theorem FormData_get_conditional (o : OrderInput) :
    (FormData o).get "url" = (if o.URL ≠ "" then some o.URL else none) ∧
    (FormData o).get "bank_account" = (if o.BankAccount ≠ "" then some o.BankAccount else none) ∧
    (FormData o).get "amount" = (if o.Amount ≠ 0 then some (Itoa o.Amount) else none) ∧
    (FormData o).get "check_name" = (if o.CheckName ≠ "" then some o.CheckName else none) ∧
    (FormData o).get "check_number" = (if o.CheckNumber ≠ 0 then some (Itoa o.CheckNumber) else none) ∧
    (FormData o).get "check_memo" = (if o.CheckMemo ≠ "" then some o.CheckMemo else none) := by
  refine ⟨?_, ?_, ?_, ?_, ?_, ?_⟩ <;>
  · simp only [FormData, GoMap.get_ite_set]
    simp [GoMap.get, GoMap.getEntries]

theorem digitValue_digitChar (k : Nat) (h : k < 10) : digitValue (Nat.digitChar k) = k := by
  interval_cases k <;> rfl

theorem digitChar_ne_minus (k : Nat) (h : k < 10) : Nat.digitChar k ≠ '-' := by
  interval_cases k <;> decide

theorem decimalValue_toDigitsCore (fuel : Nat) :
    ∀ (n : Nat) (ds : List Char), n < fuel →
      decimalValue 0 (Nat.toDigitsCore 10 fuel n ds) = decimalValue n ds := by
  induction fuel with
  | zero => intro n ds h; omega
  | succ fuel ih =>
    intro n ds h
    have hd : digitValue (Nat.digitChar (n % 10)) = n % 10 :=
      digitValue_digitChar _ (Nat.mod_lt _ (by decide))
    unfold Nat.toDigitsCore
    by_cases h0 : n / 10 = 0
    · simp only [h0, if_true]
      have hn : n % 10 = n := Nat.mod_eq_of_lt (by omega)
      rw [hn] at hd
      simp [decimalValue, hd, hn]
    · simp only [h0, if_false]
      rw [ih (n / 10) _ (by omega)]
      have hn : 10 * (n / 10) + n % 10 = n := Nat.div_add_mod n 10
      simp [decimalValue, hd, hn]

theorem toDigitsCore_ne_minus (fuel : Nat) :
    ∀ (n : Nat) (ds : List Char), (∀ c ∈ ds, c ≠ '-') →
      ∀ c ∈ Nat.toDigitsCore 10 fuel n ds, c ≠ '-' := by
  induction fuel with
  | zero => intro n ds h; exact h
  | succ fuel ih =>
    intro n ds h
    have hd : Nat.digitChar (n % 10) ≠ '-' := digitChar_ne_minus _ (Nat.mod_lt _ (by decide))
    have hcons : ∀ c ∈ Nat.digitChar (n % 10) :: ds, c ≠ '-' := by
      intro c hc
      rcases List.mem_cons.1 hc with hc | hc
      · rw [hc]; exact hd
      · exact h c hc
    unfold Nat.toDigitsCore
    by_cases h0 : n / 10 = 0
    · simp only [h0, if_true]
      exact hcons
    · simp only [h0, if_false]
      exact ih _ _ hcons

theorem Nat_repr_injective (a b : Nat) (h : Nat.repr a = Nat.repr b) : a = b := by
  have hd : Nat.toDigits 10 a = Nat.toDigits 10 b := by
    have := congrArg String.data h
    simpa [Nat.repr, List.asString] using this
  have ha := decimalValue_toDigitsCore (a + 1) a [] (by omega)
  have hb := decimalValue_toDigitsCore (b + 1) b [] (by omega)
  unfold Nat.toDigits at hd
  rw [hd, hb] at ha
  simpa [decimalValue] using ha.symm

theorem Nat_repr_ne_minus (a b : Nat) : Nat.repr a ≠ "-" ++ Nat.repr b := by
  intro h
  have hd := congrArg String.data h
  have hmem : '-' ∈ (Nat.repr a).data := by
    rw [hd]
    simp [String.data_append]
  exact toDigitsCore_ne_minus (a + 1) a [] (by simp) '-' hmem rfl

/-- `Itoa` writes different integers differently. -/
theorem Itoa_injective (x y : Int) (h : Itoa x = Itoa y) : x = y := by
  cases x with
  | ofNat a =>
    cases y with
    | ofNat b => rw [Nat_repr_injective a b h]
    | negSucc b => exact absurd h (Nat_repr_ne_minus a (b + 1))
  | negSucc a =>
    cases y with
    | ofNat b => exact absurd h.symm (Nat_repr_ne_minus b (a + 1))
    | negSucc b =>
      have hd := congrArg String.data h
      have hr : Nat.repr (a + 1) = Nat.repr (b + 1) := by
        apply String.ext
        simpa [Itoa, String.data_append] using hd
      have := Nat_repr_injective _ _ hr
      have hab : a = b := by omega
      rw [hab]

theorem FormatBool_injective (x y : Bool) (h : FormatBool x = FormatBool y) : x = y := by
  cases x <;> cases y <;> first | rfl | exact absurd h (by decide)

/-- A string that is written only when it is not empty is read back from what
is written. -/
theorem omitEmpty_injective (x y : String)
    (h : (if x ≠ "" then some x else none) = (if y ≠ "" then some y else none)) : x = y := by
  by_cases hx : x = "" <;> by_cases hy : y = "" <;> simp_all

/-- An integer that is written only when it is not 0 is read back from what is
written. -/
theorem omitZero_injective (x y : Int)
    (h : (if x ≠ 0 then some (Itoa x) else none) = (if y ≠ 0 then some (Itoa y) else none)) :
    x = y := by
  by_cases hx : x = 0
  · by_cases hy : y = 0
    · rw [hx, hy]
    · simp [hx, hy] at h
  · by_cases hy : y = 0
    · simp [hx, hy] at h
    · simp only [ne_eq, hx, hy, not_false_eq_true, if_true, Option.some.injEq] at h
      exact Itoa_injective x y h

/-- C28: for an input that `Validate` accepts, the value of the form at the key
`service` is a member of `ServiceCodes`, and the values at the twelve keys
to.name, to.address1, to.city, to.state, to.postcode, to.country, from.name,
from.address1, from.city, from.state, from.postcode and from.country are
present and not empty. -/
theorem C28_formData_well_formed (o : OrderInput) (hvalid : Validate o = none) :
    (∃ s, (FormData o).get "service" = some s ∧ s ∈ ServiceCodes) ∧
    ∀ k ∈ ["to.name", "to.address1", "to.city", "to.state", "to.postcode", "to.country",
        "from.name", "from.address1", "from.city", "from.state", "from.postcode", "from.country"],
      ∃ v, (FormData o).get k = some v ∧ v ≠ "" := by
  obtain ⟨hservice, nToName, nToAddress1, nToCity, nToState, nToPostcode, nToCountry, nFromName, nFromAddress1, nFromCity, nFromState, nFromPostcode, nFromCountry⟩ :=
    Validate_accepts o hvalid
  obtain ⟨gCustomerReference, gService, gWebhook, gCompany, gSimplex, gColor, gFlat, gStamp, gMessage, gToName, gToOrganization, gToAddress1, gToAddress2, gToCity, gToState, gToPostcode, gToCountry, gFromName, gFromOrganization, gFromAddress1, gFromAddress2, gFromCity, gFromState, gFromPostcode, gFromCountry⟩ :=
    FormData_get_fixed o
  refine ⟨⟨_, gService, hservice⟩, fun k hk => ?_⟩
  simp only [List.mem_cons, List.mem_singleton, List.not_mem_nil, or_false] at hk
  rcases hk with rfl | rfl | rfl | rfl | rfl | rfl | rfl | rfl | rfl | rfl | rfl | rfl
  · exact ⟨_, gToName, nToName⟩
  · exact ⟨_, gToAddress1, nToAddress1⟩
  · exact ⟨_, gToCity, nToCity⟩
  · exact ⟨_, gToState, nToState⟩
  · exact ⟨_, gToPostcode, nToPostcode⟩
  · exact ⟨_, gToCountry, nToCountry⟩
  · exact ⟨_, gFromName, nFromName⟩
  · exact ⟨_, gFromAddress1, nFromAddress1⟩
  · exact ⟨_, gFromCity, nFromCity⟩
  · exact ⟨_, gFromState, nFromState⟩
  · exact ⟨_, gFromPostcode, nFromPostcode⟩
  · exact ⟨_, gFromCountry, nFromCountry⟩

/-- C28 at the sample order. -/
theorem C28_formData_well_formed_witness :
    (∃ s, (FormData sampleOrder).get "service" = some s ∧ s ∈ ServiceCodes) ∧
    ∀ k ∈ ["to.name", "to.address1", "to.city", "to.state", "to.postcode", "to.country",
        "from.name", "from.address1", "from.city", "from.state", "from.postcode", "from.country"],
      ∃ v, (FormData sampleOrder).get k = some v ∧ v ≠ "" :=
  C28_formData_well_formed sampleOrder (by decide)

/-- C29: two inputs whose forms hold the same value at every key agree on every
field other than `FilePath`: the first, with the `FilePath` of the second, is
the second. -/
theorem C29_formData_injective (a b : OrderInput)
    (h : ∀ k : String, (FormData a).get k = (FormData b).get k) :
    { a with FilePath := b.FilePath } = b := by
  obtain ⟨aCustomerReference, aService, aWebhook, aCompany, aSimplex, aColor, aFlat, aStamp, aMessage, aToName, aToOrganization, aToAddress1, aToAddress2, aToCity, aToState, aToPostcode, aToCountry, aFromName, aFromOrganization, aFromAddress1, aFromAddress2, aFromCity, aFromState, aFromPostcode, aFromCountry⟩ :=
    FormData_get_fixed a
  obtain ⟨bCustomerReference, bService, bWebhook, bCompany, bSimplex, bColor, bFlat, bStamp, bMessage, bToName, bToOrganization, bToAddress1, bToAddress2, bToCity, bToState, bToPostcode, bToCountry, bFromName, bFromOrganization, bFromAddress1, bFromAddress2, bFromCity, bFromState, bFromPostcode, bFromCountry⟩ :=
    FormData_get_fixed b
  obtain ⟨aURL, aBankAccount, aAmount, aCheckName, aCheckNumber, aCheckMemo⟩ :=
    FormData_get_conditional a
  obtain ⟨bURL, bBankAccount, bAmount, bCheckName, bCheckNumber, bCheckMemo⟩ :=
    FormData_get_conditional b
  have eCustomerReference : a.CustomerReference = b.CustomerReference := by
    have hk := h "customer_reference"
    rw [aCustomerReference, bCustomerReference] at hk
    exact Option.some.inj hk
  have eService : a.Service = b.Service := by
    have hk := h "service"
    rw [aService, bService] at hk
    exact Option.some.inj hk
  have eWebhook : a.Webhook = b.Webhook := by
    have hk := h "webhook"
    rw [aWebhook, bWebhook] at hk
    exact Option.some.inj hk
  have eCompany : a.Company = b.Company := by
    have hk := h "company"
    rw [aCompany, bCompany] at hk
    exact Option.some.inj hk
  have eSimplex : a.Simplex = b.Simplex := by
    have hk := h "simplex"
    rw [aSimplex, bSimplex] at hk
    exact FormatBool_injective _ _ (Option.some.inj hk)
  have eColor : a.Color = b.Color := by
    have hk := h "color"
    rw [aColor, bColor] at hk
    exact FormatBool_injective _ _ (Option.some.inj hk)
  have eFlat : a.Flat = b.Flat := by
    have hk := h "flat"
    rw [aFlat, bFlat] at hk
    exact FormatBool_injective _ _ (Option.some.inj hk)
  have eStamp : a.Stamp = b.Stamp := by
    have hk := h "stamp"
    rw [aStamp, bStamp] at hk
    exact FormatBool_injective _ _ (Option.some.inj hk)
  have eMessage : a.Message = b.Message := by
    have hk := h "message"
    rw [aMessage, bMessage] at hk
    exact Option.some.inj hk
  have eToName : a.ToName = b.ToName := by
    have hk := h "to.name"
    rw [aToName, bToName] at hk
    exact Option.some.inj hk
  have eToOrganization : a.ToOrganization = b.ToOrganization := by
    have hk := h "to.organization"
    rw [aToOrganization, bToOrganization] at hk
    exact Option.some.inj hk
  have eToAddress1 : a.ToAddress1 = b.ToAddress1 := by
    have hk := h "to.address1"
    rw [aToAddress1, bToAddress1] at hk
    exact Option.some.inj hk
  have eToAddress2 : a.ToAddress2 = b.ToAddress2 := by
    have hk := h "to.address2"
    rw [aToAddress2, bToAddress2] at hk
    exact Option.some.inj hk
  have eToCity : a.ToCity = b.ToCity := by
    have hk := h "to.city"
    rw [aToCity, bToCity] at hk
    exact Option.some.inj hk
  have eToState : a.ToState = b.ToState := by
    have hk := h "to.state"
    rw [aToState, bToState] at hk
    exact Option.some.inj hk
  have eToPostcode : a.ToPostcode = b.ToPostcode := by
    have hk := h "to.postcode"
    rw [aToPostcode, bToPostcode] at hk
    exact Option.some.inj hk
  have eToCountry : a.ToCountry = b.ToCountry := by
    have hk := h "to.country"
    rw [aToCountry, bToCountry] at hk
    exact Option.some.inj hk
  have eFromName : a.FromName = b.FromName := by
    have hk := h "from.name"
    rw [aFromName, bFromName] at hk
    exact Option.some.inj hk
  have eFromOrganization : a.FromOrganization = b.FromOrganization := by
    have hk := h "from.organization"
    rw [aFromOrganization, bFromOrganization] at hk
    exact Option.some.inj hk
  have eFromAddress1 : a.FromAddress1 = b.FromAddress1 := by
    have hk := h "from.address1"
    rw [aFromAddress1, bFromAddress1] at hk
    exact Option.some.inj hk
  have eFromAddress2 : a.FromAddress2 = b.FromAddress2 := by
    have hk := h "from.address2"
    rw [aFromAddress2, bFromAddress2] at hk
    exact Option.some.inj hk
  have eFromCity : a.FromCity = b.FromCity := by
    have hk := h "from.city"
    rw [aFromCity, bFromCity] at hk
    exact Option.some.inj hk
  have eFromState : a.FromState = b.FromState := by
    have hk := h "from.state"
    rw [aFromState, bFromState] at hk
    exact Option.some.inj hk
  have eFromPostcode : a.FromPostcode = b.FromPostcode := by
    have hk := h "from.postcode"
    rw [aFromPostcode, bFromPostcode] at hk
    exact Option.some.inj hk
  have eFromCountry : a.FromCountry = b.FromCountry := by
    have hk := h "from.country"
    rw [aFromCountry, bFromCountry] at hk
    exact Option.some.inj hk
  have eURL : a.URL = b.URL := by
    have hk := h "url"
    rw [aURL, bURL] at hk
    exact omitEmpty_injective _ _ hk
  have eBankAccount : a.BankAccount = b.BankAccount := by
    have hk := h "bank_account"
    rw [aBankAccount, bBankAccount] at hk
    exact omitEmpty_injective _ _ hk
  have eAmount : a.Amount = b.Amount := by
    have hk := h "amount"
    rw [aAmount, bAmount] at hk
    exact omitZero_injective _ _ hk
  have eCheckName : a.CheckName = b.CheckName := by
    have hk := h "check_name"
    rw [aCheckName, bCheckName] at hk
    exact omitEmpty_injective _ _ hk
  have eCheckNumber : a.CheckNumber = b.CheckNumber := by
    have hk := h "check_number"
    rw [aCheckNumber, bCheckNumber] at hk
    exact omitZero_injective _ _ hk
  have eCheckMemo : a.CheckMemo = b.CheckMemo := by
    have hk := h "check_memo"
    rw [aCheckMemo, bCheckMemo] at hk
    exact omitEmpty_injective _ _ hk
  clear aCustomerReference bCustomerReference aService bService aWebhook bWebhook aCompany bCompany aSimplex bSimplex aColor bColor aFlat bFlat aStamp bStamp aMessage bMessage aToName bToName aToOrganization bToOrganization aToAddress1 bToAddress1 aToAddress2 bToAddress2 aToCity bToCity aToState bToState aToPostcode bToPostcode aToCountry bToCountry aFromName bFromName aFromOrganization bFromOrganization aFromAddress1 bFromAddress1 aFromAddress2 bFromAddress2 aFromCity bFromCity aFromState bFromState aFromPostcode bFromPostcode aFromCountry bFromCountry aURL bURL aBankAccount bBankAccount aAmount bAmount aCheckName bCheckName aCheckNumber bCheckNumber aCheckMemo bCheckMemo h
  cases a
  cases b
  simp only at eURL eCustomerReference eService eWebhook eCompany eSimplex eColor eFlat eStamp eMessage eToName eToOrganization eToAddress1 eToAddress2 eToCity eToState eToPostcode eToCountry eFromName eFromOrganization eFromAddress1 eFromAddress2 eFromCity eFromState eFromPostcode eFromCountry eBankAccount eAmount eCheckName eCheckNumber eCheckMemo
  subst eURL eCustomerReference eService eWebhook eCompany eSimplex eColor eFlat eStamp eMessage eToName eToOrganization eToAddress1 eToAddress2 eToCity eToState eToPostcode eToCountry eFromName eFromOrganization eFromAddress1 eFromAddress2 eFromCity eFromState eFromPostcode eFromCountry eBankAccount eAmount eCheckName eCheckNumber eCheckMemo
  rfl

/-- C29 at the sample order and the sample order with a file path: the forms
are the same, and the inputs differ in `FilePath` only. -/
theorem C29_formData_injective_witness :
    { bothSourcesOrder with FilePath := sampleOrder.FilePath } = sampleOrder :=
  C29_formData_injective bothSourcesOrder sampleOrder (fun _ => rfl)

end Mailform
